import Mathlib

/-!
# The chakrashim inspector debugger bridge (`v8-debugger.cc`)

A shallow embedding of `V8Debugger`, the bridge between the inspector protocol
agents and the ChakraCore diagnostics API, and theorems about its pause state
machine.

Conventions of the embedding.

* The member variables of `V8Debugger` are the fields of the structure
  `V8Debugger`; the collaborators it talks to (the inspector that owns the
  agents, the isolate, the embedder client, the native diagnostics API) are the
  further fields of `World`.
* Every call the debugger makes to a collaborator is appended to `World.trace`
  as an `Effect`, oldest first.
* `assert` and `DCHECK` are compiled in or out by the build; `Build` records
  which.  A failed check ends the process: the operation returns
  `Except.error` with the world at that moment.
* `runMessageLoopOnPause` is the only call that re-enters the debugger.  The
  embedding cuts `HandleBreak` at that call: `HandleBreak` runs the source up
  to and including the call and leaves a `HandleBreakFrame` on
  `World.suspended`; `HandleBreak_resume` runs the rest when the hook returns.
  Whatever happens in between is a sequence of `Input`s handled by `step`.
  The agent callbacks `didPause`, `didContinue` and `didParseSource` are taken
  not to call back into the debugger; what `didPause` returns is part of the
  input.
* `step` accepts every input in every state: a native event is handled whether
  or not the debugger is enabled, so the reachable states of the embedding
  include those of the program.
* A `Context` is a handle: the identity of the context with the content of its
  debug-id slot as the holder reads it.  The context of a native event comes
  with the event.  `SetEmbedderData`, which `markContext` calls, rewrites the
  slot of a context, and the handles the debugger holds to that context
  (`m_pausedContext`, the `pausedContext` of a waiting `HandleBreak`
  activation) read the new content from then on; line 515 of `HandleBreak`
  reads the slot again after the nested loop.
* The answers of the native engine (`JsDiagSetBreakpoint`,
  `JsDiagRemoveBreakpoint`) are part of the input, like the answer of
  `didPause`.  `setBreakpoint` returns its value together with the world;
  `markContext` returns its id, the marked context and the world.
* `++m_lastContextId`, `m_enableCount++` and `--m_enableCount` wrap at 32 bits
  (`String16.toInt32`); statements about sequential ids and about the enable
  count assume the count stays below that.
* `currentCallFrames` takes the stack trace object of `JsDiagGetStackTrace` as
  an argument, given by what the property helpers read from it.
* Source files that are not available (`String16`, the property helpers of
  `jsrt::InspectorHelpers`, the inspector that owns the agents, the enum
  declarations) are modelled from the design document; each such definition
  says so.
-/

namespace V8Inspector

/-! ## Strings -/

/-- Modelled from the spec: `String16` (string-16.cc is not part of the source);
a sequence of code units. -/
abbrev String16 := List Char

namespace String16

/-- Modelled from the spec: `String16::isEmpty`. -/
def isEmpty (s : String16) : Bool := s.length == 0

/-- Modelled from the spec: position of the first `c` in `s` at index `start`
or later, counted from the start of the whole string; `none` is `kNotFound`. -/
def findFrom (c : Char) : String16 → Nat → Option Nat
  | [], _ => none
  | x :: xs, 0 => if x = c then some 0 else (findFrom c xs 0).map (· + 1)
  | _ :: xs, start + 1 => (findFrom c xs start).map (· + 1)

/-- Modelled from the spec: `String16::find(",", start)`. -/
def find (s : String16) (c : Char) (start : Nat) : Option Nat := findFrom c s start

/-- Modelled from the spec: `String16::substring(pos, len)`. -/
def substring (s : String16) (pos len : Nat) : String16 := (s.drop pos).take len

/-- Wrap an integer into the range of a 32-bit `int`. -/
def toInt32 (z : Int) : Int := (z + 2147483648) % 4294967296 - 2147483648

/-- The C `isspace` set. -/
def isSpace (c : Char) : Bool :=
  c = ' ' || c = '\t' || c = '\n' || c = '\r' || c.toNat = 11 || c.toNat = 12

/-- Value of a run of decimal digits, most significant first. -/
def digitsValue (ds : List Char) : Nat :=
  ds.foldl (fun acc d => 10 * acc + (d.toNat - '0'.toNat)) 0

/-- Modelled from the spec: `String16::toInteger(&ok)`, a base-10 `strtol` over
the code units: leading white space is skipped, an optional sign and the
longest run of digits are read; `ok` tells whether the whole string was
consumed.  A non-ASCII code unit gives `(0, false)`; reading stops at a NUL
code unit; the value is reduced to the range of a 32-bit `int` (the clamping
of `strtol` at the range of `long` is left out). -/
def toIntegerOk (s : String16) : Int × Bool :=
  if s.any (fun c => decide (128 ≤ c.toNat)) then (0, false) else
  let buffer := s.takeWhile (fun c => decide (c.toNat ≠ 0))
  let body := buffer.dropWhile isSpace
  let neg := body.head? = some '-'
  let unsigned := if body.head? = some '-' ∨ body.head? = some '+' then body.tail else body
  let digits := unsigned.takeWhile Char.isDigit
  let rest := unsigned.dropWhile Char.isDigit
  if digits.isEmpty then (0, buffer.isEmpty)
  else
    let v : Int := digitsValue digits
    (toInt32 (if neg then -v else v), rest.isEmpty)

/-- Modelled from the spec: `String16::toInteger()`. -/
def toInteger (s : String16) : Int := (toIntegerOk s).1

/-- Modelled from the spec: `String16::fromInteger`, the decimal form of the
number with a leading `-` when negative. -/
def fromInteger (n : Int) : String16 :=
  match n with
  | Int.ofNat m => Nat.toDigits 10 m
  | Int.negSucc m => '-' :: Nat.toDigits 10 (m + 1)

end String16

/-! ## Contexts -/

/-- The embedder data slot `kDebugIdIndex` of a context: nothing, a value that
is not a string, or a string. -/
inductive EmbedderData
  | empty
  | notString
  | string (s : String16)
deriving DecidableEq

/-- A `v8::Local<v8::Context>`: the identity of the context and the content of
its debug-id slot as the holder of the handle reads it. -/
structure Context where
  handle : Nat
  debugId : EmbedderData
deriving DecidableEq

/-- The context `context` as its holder reads it once `SetEmbedderData` has
stored `debugData` in the debug-id slot of the context `handle`: a handle to
that context reads the new marker, a handle to another context reads what it
read before. -/
def Context.afterSetEmbedderData (handle : Nat) (debugData : String16) (context : Context) :
    Context :=
  if context.handle = handle then { context with debugId := .string debugData } else context

/-- Embeds `V8Debugger::contextId` (v8-debugger.cc:50). -/
def contextId (context : Context) : Int :=
  match context.debugId with
  | .string dataString =>
    if dataString.isEmpty then 0 else
    match dataString.find ',' 0 with
    | none => 0
    | some commaPos =>
      match dataString.find ',' (commaPos + 1) with
      | none => 0
      | some commaPos2 =>
        (dataString.substring (commaPos + 1) (commaPos2 - commaPos - 1)).toInteger
  | _ => 0

/-- Embeds `V8Debugger::getGroupId` (v8-debugger.cc:65). -/
def getGroupId (context : Context) : Int :=
  match context.debugId with
  | .string dataString =>
    if dataString.isEmpty then 0 else
    match dataString.find ',' 0 with
    | none => 0
    | some commaPos => (dataString.substring 0 commaPos).toInteger
  | _ => 0

/-! ## The native diagnostics API and the listener interface -/

/-- Equality of results is decidable when it is for errors and values. -/
instance instDecidableEqExcept {ε α : Type} [DecidableEq ε] [DecidableEq α] :
    DecidableEq (Except ε α)
  | .ok a, .ok b => if h : a = b then isTrue (by rw [h]) else isFalse (by intro h2; cases h2; exact h rfl)
  | .error a, .error b => if h : a = b then isTrue (by rw [h]) else isFalse (by intro h2; cases h2; exact h rfl)
  | .ok _, .error _ => isFalse (by intro h; cases h)
  | .error _, .ok _ => isFalse (by intro h; cases h)

/-- Modelled from the spec: the native event kinds of `JsDiagDebugEvent`
(ChakraDebug.h is not part of the source): the seven kinds the demultiplexer
names, and any other code. -/
inductive JsDiagDebugEvent
  | SourceCompile
  | CompileError
  | Breakpoint
  | StepComplete
  | DebuggerStatement
  | AsyncBreak
  | RuntimeException
  | other (code : Nat)
deriving DecidableEq

/-- Modelled from the spec: the step modes of `JsDiagStepType` that the
source names. -/
inductive JsDiagStepType
  | StepIn
  | StepOut
  | StepOver
  | Continue
deriving DecidableEq

/-- Error codes of the native API; only failure or success matters here. -/
inductive JsErrorCode
  | JsErrorInvalidArgument
  | JsErrorOther (code : Nat)
deriving DecidableEq

/-- Modelled from the spec: `V8DebuggerAgentImpl::SkipPauseRequest`, the
listener's answer to `didPause` (the declaring header is not part of the
source; these are the four values the source names). -/
inductive SkipPauseRequest
  | RequestNoSkip
  | RequestStepInto
  | RequestStepOut
  | RequestStepFrame
deriving DecidableEq

/-- A native event payload (`JsValueRef eventData`).  The property helpers of
`jsrt::InspectorHelpers` are not part of the source, so a payload is given by
what they answer on it: `HasProperty` and `GetIntProperty` for `breakpointId`,
`HasProperty` and `GetBoolProperty` for `uncaught`, and the value
`WrapRuntimeException` builds from it. -/
structure EventData where
  ref : Nat
  hasBreakpointId : Except JsErrorCode Bool
  breakpointId : Except JsErrorCode Int
  hasUncaught : Except JsErrorCode Bool
  uncaught : Except JsErrorCode Bool
  exception : Nat
deriving DecidableEq

/-- A payload on which every property read succeeds: `breakpointId` is present
with value `n` when `bp = some n`, `uncaught` is present with value `u` when
`unc = some u`. -/
def EventData.wellFormed (ref : Nat) (bp : Option Int) (unc : Option Bool)
    (exception : Nat) : EventData :=
  { ref := ref
    hasBreakpointId := .ok bp.isSome
    breakpointId := match bp with
      | some n => .ok n
      | none => .error .JsErrorInvalidArgument
    hasUncaught := .ok unc.isSome
    uncaught := match unc with
      | some u => .ok u
      | none => .error .JsErrorInvalidArgument
    exception := exception }

/-- Embeds `jsrt::InspectorHelpers::WrapRuntimeException`. -/
def WrapRuntimeException (eventData : EventData) : Nat := eventData.exception

/-- Modelled from the spec: `ScriptBreakpoint` (script-breakpoint.h is not part
of the source): the requested location. -/
structure ScriptBreakpoint where
  lineNumber : Int
  columnNumber : Int
deriving DecidableEq

/-- The breakpoint object `JsDiagSetBreakpoint` hands back, given by what
`GetIntProperty` answers for its `breakpointId`, `line` and `column`. -/
structure BreakpointObject where
  breakpointId : Except JsErrorCode Int
  line : Except JsErrorCode Int
  column : Except JsErrorCode Int
deriving DecidableEq

/-- Modelled from the spec: `V8ContextInfo` (v8-inspector.h is not part of the
source): the context, its group, its auxiliary data, and whether the context
belongs to the isolate of the debugger (`info.context->GetIsolate() == m_isolate`). -/
structure V8ContextInfo where
  context : Context
  contextGroupId : Int
  auxData : String16
  inDebuggerIsolate : Bool
deriving DecidableEq

/-- A native value handle (`JsValueRef`). -/
abbrev JsValueRef := Nat

/-- The stack trace object `JsDiagGetStackTrace` hands back, given by what
`GetIntProperty` answers for its `length` and what `GetIndexedProperty`
answers at each index. -/
structure StackTrace where
  length : Except JsErrorCode Int
  GetIndexedProperty : Nat → Except JsErrorCode JsValueRef

/-- Modelled from the spec: `JavaScriptCallFrame` (javascript-call-frame.h is
not part of the source): what `JavaScriptCallFrame::create` was given, the
debugger context (set or empty) and the native frame value. -/
structure JavaScriptCallFrame where
  debuggerContext : Bool
  callFrameValue : JsValueRef
deriving DecidableEq

/-- The locations `setScriptSource` may write through its pointer arguments
`error`, `exceptionDetails`, `newCallFrames` and `stackChanged`. -/
structure SetScriptSourceOutputs where
  error : String16
  exceptionDetails : Option Nat
  newCallFrames : List JavaScriptCallFrame
  stackChanged : Option Bool
deriving DecidableEq

/-- A debugger agent (the listener), named by the context group of its session. -/
abbrev V8DebuggerAgentImpl := Int

/-- The calls the debugger makes to its collaborators. -/
inductive Effect
  /-- The call `agent->didPause(context, exception, breakpointIds, isPromiseRejection, isUncaught)` -/
  | didPause (agent : V8DebuggerAgentImpl) (context : Context) (exception : Nat)
      (breakpointIds : List String16) (isPromiseRejection : Bool) (isUncaught : Bool)
  /-- The call `agent->didContinue()` -/
  | didContinue (agent : V8DebuggerAgentImpl)
  /-- The call `agent->didParseSource(script, success)` -/
  | didParseSource (agent : V8DebuggerAgentImpl) (script : Nat) (success : Bool)
  /-- The call `client->runMessageLoopOnPause(groupId)` -/
  | runMessageLoopOnPause (groupId : Int)
  /-- The call `client->quitMessageLoopOnPause()` -/
  | quitMessageLoopOnPause
  /-- The call `JsDiagSetStepType(stepType)` -/
  | JsDiagSetStepType (stepType : JsDiagStepType)
  /-- The call `jsrt::Inspector::RequestAsyncBreak(isolate)` -/
  | RequestAsyncBreak
  /-- The call `jsrt::Inspector::SetDebugEventHandler`; `installed = false` is the call with `nullptr`. -/
  | SetDebugEventHandler (installed : Bool)
  /-- The call `jsrt::Inspector::ClearBreakpoints()` -/
  | ClearBreakpoints
  /-- The call `JsDiagSetBreakpoint(scriptId, lineNumber, columnNumber, &breakpoint)` -/
  | JsDiagSetBreakpoint (scriptId : Int) (lineNumber : Int) (columnNumber : Int)
  /-- The call `JsDiagRemoveBreakpoint(breakpointId)` -/
  | JsDiagRemoveBreakpoint (breakpointId : Int)
  /-- The call `context->SetEmbedderData(kDebugIdIndex, debugData)` on the context `handle` -/
  | SetEmbedderData (handle : Nat) (debugData : String16)
  /-- The call of `V8Debugger::allAsyncTasksCanceled` -/
  | allAsyncTasksCanceled
  /-- The call `JsDiagGetStackTrace(&stackTrace)` -/
  | JsDiagGetStackTrace
deriving DecidableEq

/-! ## State -/

/-- The member variables of `V8Debugger`. -/
structure V8Debugger where
  m_lastContextId : Int
  m_enableCount : Int
  m_breakpointsActivated : Bool
  m_runningNestedMessageLoop : Bool
  m_ignoreScriptParsedEventsCounter : Int
  m_maxAsyncCallStackDepth : Int
  m_pauseOnNextStatement : Bool
  m_pausedContext : Option Context
  m_debuggerContext : Bool
  m_maxAsyncCallStackDepthMap : List (V8DebuggerAgentImpl × Int)
deriving DecidableEq

/-- The locals of a `HandleBreak` activation that is waiting inside
`runMessageLoopOnPause`.  `pausedContext` is a handle to the live context: a
marker stored in that context while the activation waits is what the
activation reads when it goes on (see `SetEmbedderData`). -/
structure HandleBreakFrame where
  pausedContext : Context
  result : SkipPauseRequest
deriving DecidableEq

/-- The debugger together with its collaborators. -/
structure World extends V8Debugger where
  /-- Member `m_inspector`: the context groups that have an enabled debugger agent. -/
  agents : List Int
  /-- Value of `m_isolate->InContext()` -/
  inContext : Bool
  /-- The `HandleBreak` activations waiting for the message loop, innermost first. -/
  suspended : List HandleBreakFrame
  /-- The calls made so far, oldest first. -/
  trace : List Effect
deriving DecidableEq

/-- Which run-time checks the build compiles in. -/
structure Build where
  assertOn : Bool
  dcheckOn : Bool
deriving DecidableEq

/-- The two ways a failed check ends the process. -/
inductive Fatal
  | assertFailed
  | dcheckFailed
deriving DecidableEq

/-- A process that died on a failed check, and the world at that moment. -/
structure Crash where
  kind : Fatal
  world : World
deriving DecidableEq

/-- Embeds `V8Debugger::V8Debugger` (v8-debugger.cc:20): the members after construction. -/
def V8Debugger.new : V8Debugger :=
  { m_lastContextId := 0
    m_enableCount := 0
    m_breakpointsActivated := true
    m_runningNestedMessageLoop := false
    m_ignoreScriptParsedEventsCounter := 0
    m_maxAsyncCallStackDepth := 0
    m_pauseOnNextStatement := false
    m_pausedContext := none
    m_debuggerContext := false
    m_maxAsyncCallStackDepthMap := [] }

/-- A freshly constructed debugger in an inspector with the enabled agents
`agents`; nothing has been called yet. -/
def World.fresh (agents : List Int) (inContext : Bool) : World :=
  { V8Debugger.new with
    agents := agents
    inContext := inContext
    suspended := []
    trace := [] }

/-- Record a call to a collaborator. -/
def emit (e : Effect) (w : World) : World := { w with trace := w.trace ++ [e] }

/-- Embeds `context->SetEmbedderData(kDebugIdIndex, debugData)` on the context
`handle`.  The call is recorded.  The contexts the debugger holds,
`m_pausedContext` and the `pausedContext` of every waiting `HandleBreak`
activation, are handles and not copies: where they name this context they read
the new marker from now on. -/
def SetEmbedderData (handle : Nat) (debugData : String16) (w : World) : World :=
  let w := emit (.SetEmbedderData handle debugData) w
  { w with
    m_pausedContext := w.m_pausedContext.map (Context.afterSetEmbedderData handle debugData)
    suspended := w.suspended.map (fun frame =>
      { frame with
        pausedContext := frame.pausedContext.afterSetEmbedderData handle debugData }) }

/-- Embeds `assert(cond)`. -/
def assert (b : Build) (cond : Bool) (w : World) : Except Crash World :=
  if b.assertOn && !cond then .error ⟨.assertFailed, w⟩ else .ok w

/-- Embeds `DCHECK(cond)`. -/
def DCHECK (b : Build) (cond : Bool) (w : World) : Except Crash World :=
  if b.dcheckOn && !cond then .error ⟨.dcheckFailed, w⟩ else .ok w

/-- Modelled from the spec: `V8InspectorImpl::enabledDebuggerAgentForGroup`
(v8-inspector-impl.cc is not part of the source): the listener registered for
the group, if any.  Group id 0 is the sentinel of an unmarked context and owns
no agent, which is what `DCHECK(groupId)` in `HandleBreak` relies on. -/
def enabledDebuggerAgentForGroup (w : World) (groupId : Int) : Option V8DebuggerAgentImpl :=
  if groupId ≠ 0 ∧ groupId ∈ w.agents then some groupId else none

/-! ## Operations -/

/-- Embeds `V8Debugger::enable` (v8-debugger.cc:33). -/
def enable (w : World) : World :=
  let old := w.m_enableCount
  let w := { w with m_enableCount := String16.toInt32 (old + 1) }
  if old ≠ 0 then w
  else
    let w := emit (.SetDebugEventHandler true) w
    { w with m_debuggerContext := true }

/-- Embeds `V8Debugger::disable` (v8-debugger.cc:40). -/
def disable (w : World) : World :=
  let w := { w with m_enableCount := String16.toInt32 (w.m_enableCount - 1) }
  if w.m_enableCount ≠ 0 then w
  else
    let w := emit .ClearBreakpoints w
    let w := { w with m_debuggerContext := false }
    emit (.SetDebugEventHandler false) w

/-- Embeds `V8Debugger::enabled` (v8-debugger.cc:47). -/
def enabled (w : World) : Bool := decide (w.m_enableCount > 0)

/-- Embeds `V8Debugger::setBreakpointsActivated` (v8-debugger.cc:154); the body is empty. -/
def setBreakpointsActivated (_activated : Bool) (w : World) : World := w

/-- Embeds `V8Debugger::setPauseOnNextStatement` (v8-debugger.cc:214). -/
def setPauseOnNextStatement (pause : Bool) (w : World) : World :=
  if w.m_runningNestedMessageLoop then w
  else if pause then
    let w := { w with m_pauseOnNextStatement := true }
    emit .RequestAsyncBreak w
  else
    { w with m_pauseOnNextStatement := false }

/-- Embeds `V8Debugger::canBreakProgram` (v8-debugger.cc:224). -/
def canBreakProgram (w : World) : Bool :=
  if !w.m_breakpointsActivated then false
  else w.inContext

/-- Embeds `V8Debugger::isPaused` (v8-debugger.cc:315). -/
def isPaused (w : World) : Bool := !w.m_pausedContext.isNone

/-- Embeds `V8Debugger::continueProgram` (v8-debugger.cc:232). -/
def continueProgram (w : World) : World :=
  let w := if isPaused w then emit .quitMessageLoopOnPause w else w
  { w with m_pausedContext := none }

/-- Embeds `V8Debugger::stepIntoStatement` (v8-debugger.cc:237). -/
def stepIntoStatement (b : Build) (w : World) : Except Crash World := do
  let w ← DCHECK b (isPaused w) w
  let w := emit (.JsDiagSetStepType .StepIn) w
  pure (continueProgram w)

/-- Embeds `V8Debugger::stepOverStatement` (v8-debugger.cc:243). -/
def stepOverStatement (b : Build) (w : World) : Except Crash World := do
  let w ← DCHECK b (isPaused w) w
  let w := emit (.JsDiagSetStepType .StepOver) w
  pure (continueProgram w)

/-- Embeds `V8Debugger::stepOutOfFunction` (v8-debugger.cc:249). -/
def stepOutOfFunction (b : Build) (w : World) : Except Crash World := do
  let w ← DCHECK b (isPaused w) w
  let w := emit (.JsDiagSetStepType .StepOut) w
  pure (continueProgram w)

/-- Embeds `V8Debugger::clearStepping` (v8-debugger.cc:255). -/
def clearStepping (b : Build) (w : World) : Except Crash World := do
  let w ← DCHECK b (enabled w) w
  pure (emit (.JsDiagSetStepType .Continue) w)

/-- Embeds `V8Debugger::setBreakpoint` (v8-debugger.cc:105).  `native` is what
`JsDiagSetBreakpoint` answers.  The result is the returned string with the
final values of `*actualLineNumber` and `*actualColumnNumber`; a failed
`GetIntProperty` leaves its output untouched. -/
def setBreakpoint (sourceID : String16) (scriptBreakpoint : ScriptBreakpoint)
    (native : Except JsErrorCode BreakpointObject) (w : World) :
    (String16 × Int × Int) × World :=
  let actualLineNumber : Int := 0
  let actualColumnNumber : Int := 0
  let (srcId, ok) := sourceID.toIntegerOk
  if !ok then (([], actualLineNumber, actualColumnNumber), w) else
  let w := emit (.JsDiagSetBreakpoint srcId scriptBreakpoint.lineNumber
    scriptBreakpoint.columnNumber) w
  match native with
  | .error _ => (([], actualLineNumber, actualColumnNumber), w)
  | .ok breakpoint =>
    match breakpoint.breakpointId with
    | .error _ => (([], actualLineNumber, actualColumnNumber), w)
    | .ok breakpointId =>
      match breakpoint.line with
      | .error _ => (([], actualLineNumber, actualColumnNumber), w)
      | .ok actualLineNumber =>
        match breakpoint.column with
        | .error _ => (([], actualLineNumber, actualColumnNumber), w)
        | .ok actualColumnNumber =>
          ((String16.fromInteger breakpointId, actualLineNumber, actualColumnNumber), w)

/-- Embeds `V8Debugger::removeBreakpoint` (v8-debugger.cc:142).  `native` is the
error code `JsDiagRemoveBreakpoint` answers, `none` for `JsNoError`. -/
def removeBreakpoint (b : Build) (breakpointId : String16) (native : Option JsErrorCode)
    (w : World) : Except Crash World :=
  let (bpId, ok) := breakpointId.toIntegerOk
  if !ok then
    assert b false w
  else
    let w := emit (.JsDiagRemoveBreakpoint bpId) w
    let err := native
    assert b (decide (err = none ∨ err = some .JsErrorInvalidArgument)) w

/-- Embeds `V8Debugger::markContext` (v8-debugger.cc:325).  The result is the
returned id, the context with its new embedder data, and the world, in which
every held handle to the context reads the new marker.  The increment of the
`int` member wraps at 32 bits. -/
def markContext (b : Build) (info : V8ContextInfo) (w : World) :
    Except Crash (Int × Context × World) :=
  match DCHECK b info.inDebuggerIsolate w with
  | .error c => .error c
  | .ok w =>
    let contextId := String16.toInt32 (w.m_lastContextId + 1)
    let w := { w with m_lastContextId := contextId }
    let debugData := String16.fromInteger info.contextGroupId ++ [','] ++
      String16.fromInteger contextId ++ [','] ++ info.auxData
    let w := SetEmbedderData info.context.handle debugData w
    .ok (contextId, { info.context with debugId := .string debugData }, w)

/-- Embeds `V8Debugger::allAsyncTasksCanceled` (v8-debugger.cc:381).  The body is
empty; the call is recorded in the trace so that it can be observed. -/
def allAsyncTasksCanceled (w : World) : World := emit .allAsyncTasksCanceled w

/-- Embeds `V8Debugger::setAsyncCallStackDepth`, lines 338-341: the update of
`m_maxAsyncCallStackDepthMap`.  The map is kept as a list of entries with
distinct keys; the order of the entries has no meaning. -/
def setAsyncCallStackDepth_map (agent : V8DebuggerAgentImpl) (depth : Int)
    (map : List (V8DebuggerAgentImpl × Int)) : List (V8DebuggerAgentImpl × Int) :=
  if depth ≤ 0 then
    map.filter (fun pair => decide (pair.1 ≠ agent))
  else
    (agent, depth) :: map.filter (fun pair => decide (pair.1 ≠ agent))

/-- Embeds `V8Debugger::setAsyncCallStackDepth`, lines 343-347: the largest depth
in the map, 0 for an empty map. -/
def setAsyncCallStackDepth_max (map : List (V8DebuggerAgentImpl × Int)) : Int :=
  map.foldl
    (fun maxAsyncCallStackDepth pair =>
      if pair.2 > maxAsyncCallStackDepth then pair.2 else maxAsyncCallStackDepth) 0

/-- Embeds `V8Debugger::setAsyncCallStackDepth` (v8-debugger.cc:337). -/
def setAsyncCallStackDepth (agent : V8DebuggerAgentImpl) (depth : Int) (w : World) : World :=
  let w := { w with m_maxAsyncCallStackDepthMap :=
    setAsyncCallStackDepth_map agent depth w.m_maxAsyncCallStackDepthMap }
  let maxAsyncCallStackDepth := setAsyncCallStackDepth_max w.m_maxAsyncCallStackDepthMap
  if w.m_maxAsyncCallStackDepth = maxAsyncCallStackDepth then w else
  let w := { w with m_maxAsyncCallStackDepth := maxAsyncCallStackDepth }
  if maxAsyncCallStackDepth = 0 then allAsyncTasksCanceled w else w

/-- Embeds `V8Debugger::setScriptSource` (v8-debugger.cc:260).  `outputs` holds
what the four pointer arguments point at on entry; the result is the returned
flag with what they point at on return. -/
def setScriptSource (b : Build) (_sourceID : String16) (_newSource : String16) (_dryRun : Bool)
    (outputs : SetScriptSourceOutputs) (w : World) :
    Except Crash (Bool × SetScriptSourceOutputs × World) :=
  match assert b false w with
  | .error c => .error c
  | .ok w => .ok (false, outputs, w)

/-- Embeds `V8Debugger::internalProperties` (v8-debugger.cc:307); `none` is the
empty `MaybeLocal`. -/
def internalProperties (b : Build) (_context : Context) (_value : JsValueRef) (w : World) :
    Except Crash (Option (List JsValueRef) × World) :=
  match assert b false w with
  | .error c => .error c
  | .ok w => .ok (none, w)

/-- Embeds `V8Debugger::debuggerContext` (v8-debugger.cc:413). -/
def debuggerContext (b : Build) (w : World) : Except Crash Bool :=
  match DCHECK b w.m_debuggerContext w with
  | .error c => .error c
  | .ok w => .ok w.m_debuggerContext

/-- Embeds `V8Debugger::currentCallFrames`, lines 289-299: the loop over the
frames.  `remaining` is `length - i`. -/
def currentCallFrames_loop (b : Build) (stackTrace : StackTrace) (w : World) :
    (remaining : Nat) → (i : Nat) → (callFrames : List JavaScriptCallFrame) →
    Except Crash (List JavaScriptCallFrame)
  | 0, _, callFrames => .ok callFrames
  | remaining + 1, i, callFrames =>
    match stackTrace.GetIndexedProperty i with
    | .error _ =>
      match assert b false w with
      | .error c => .error c
      | .ok _ => .ok []
    | .ok callFrameValue =>
      match debuggerContext b w with
      | .error c => .error c
      | .ok context =>
        currentCallFrames_loop b stackTrace w remaining (i + 1)
          (callFrames ++ [⟨context, callFrameValue⟩])

/-- Embeds `V8Debugger::currentCallFrames` (v8-debugger.cc:271).  `stackTrace` is
what `JsDiagGetStackTrace` hands back. -/
def currentCallFrames (b : Build) (limit : Int) (stackTrace : StackTrace) (w : World) :
    Except Crash (List JavaScriptCallFrame × World) :=
  if !w.inContext then .ok ([], w) else
  let w := emit .JsDiagGetStackTrace w
  match stackTrace.length with
  | .error _ =>
    match assert b false w with
    | .error c => .error c
    | .ok w => .ok ([], w)
  | .ok length =>
    let length := if limit > 0 ∧ limit < length then limit else length
    match currentCallFrames_loop b stackTrace w length.toNat 0 [] with
    | .error c => .error c
    | .ok callFrames => .ok (callFrames, w)

/-- Embeds `V8Debugger::HandleSourceEvents` (v8-debugger.cc:444). -/
def HandleSourceEvents (currentContext : Context) (eventData : EventData) (success : Bool)
    (w : World) : World :=
  match enabledDebuggerAgentForGroup w (getGroupId currentContext) with
  | some agent => emit (.didParseSource agent eventData.ref success) w
  | none => w

/-- Embeds `V8Debugger::HandleBreak`, lines 519-527: what follows the pause. -/
def HandleBreak_finish (result : SkipPauseRequest) (w : World) : World :=
  let w := { w with m_pausedContext := none }
  if result = .RequestStepFrame ∨ result = .RequestStepInto then
    emit (.JsDiagSetStepType .StepIn) w
  else if result = .RequestStepOut then
    emit (.JsDiagSetStepType .StepOut) w
  else w

/-- Embeds `V8Debugger::HandleBreak`, lines 513-527: from the return of
`runMessageLoopOnPause` to the end.  Line 515 reads the group of
`pausedContext` again: `frame.pausedContext` carries the marker the context
has now, which a `markContext` inside the loop may have replaced. -/
def HandleBreak_resume (frame : HandleBreakFrame) (w : World) : World :=
  -- The agent may have been removed in the nested loop.
  let w := match enabledDebuggerAgentForGroup w (getGroupId frame.pausedContext) with
    | some agent => emit (.didContinue agent) w
    | none => w
  let w := { w with m_runningNestedMessageLoop := false }
  HandleBreak_finish frame.result w

/-- Embeds `V8Debugger::HandleBreak`, lines 468-488: the breakpoint ids read from the
payload, given what `HasProperty(eventData, "breakpointId")` answered. -/
def HandleBreak_breakpointIds (b : Build) (eventData : EventData) (hasBreakpointId : Bool)
    (w : World) : Except Crash (List String16) :=
  if hasBreakpointId then
    match eventData.breakpointId with
    | .ok breakpointId => .ok [String16.fromInteger breakpointId]
    | .error _ =>
      match assert b false w with
      | .ok _ => .ok []
      | .error c => .error c
  else .ok []

/-- Embeds `V8Debugger::HandleBreak`, lines 497-503: the uncaught flag read from the
payload, given what `HasProperty(eventData, "uncaught")` answered. -/
def HandleBreak_isUncaught (eventData : EventData) (hasUncaught : Bool) : Bool :=
  if hasUncaught then
    match eventData.uncaught with
    | .ok v => v
    | .error _ => false
  else false

/-- Embeds `V8Debugger::HandleBreak`, lines 505-512 and, when the agent asks to skip
the pause, 519-527: notify the agent and enter the nested loop. -/
def HandleBreak_pause (b : Build) (agent : V8DebuggerAgentImpl) (pausedContext : Context)
    (exception : Nat) (breakpointIds : List String16) (isUncaught : Bool)
    (answer : SkipPauseRequest) (w : World) : Except Crash World :=
  let w := { w with m_pausedContext := some pausedContext }
  let w := emit (.didPause agent pausedContext exception breakpointIds false isUncaught) w
  let result := answer
  if result = .RequestNoSkip then
    let w := { w with m_runningNestedMessageLoop := true }
    let groupId := getGroupId pausedContext
    match DCHECK b (decide (groupId ≠ 0)) w with
    | .error c => .error c
    | .ok w =>
      let w := emit (.runMessageLoopOnPause groupId) w
      .ok { w with suspended := ⟨pausedContext, result⟩ :: w.suspended }
  else
    .ok (HandleBreak_finish result w)

/-- Embeds `V8Debugger::HandleBreak` (v8-debugger.cc:455), up to the call of
`runMessageLoopOnPause`, or to the end when that call is not made.
`currentContext` is `m_isolate->GetCurrentContext()` and `answer` is what the
agent returns from `didPause`. -/
def HandleBreak (b : Build) (currentContext : Context) (eventData : EventData)
    (answer : SkipPauseRequest) (w : World) : Except Crash World :=
  -- Don't allow nested breaks.
  if w.m_runningNestedMessageLoop then .ok w else
  let pausedContext := currentContext
  let exception := WrapRuntimeException eventData
  match enabledDebuggerAgentForGroup w (getGroupId pausedContext) with
  | none => .ok w
  | some agent =>
    match eventData.hasBreakpointId with
    | .error _ => assert b false w
    | .ok hasBreakpointId =>
      match HandleBreak_breakpointIds b eventData hasBreakpointId w with
      | .error c => .error c
      | .ok breakpointIds =>
        match eventData.hasUncaught with
        | .error _ => assert b false w
        | .ok hasUncaught =>
          let isUncaught := HandleBreak_isUncaught eventData hasUncaught
          HandleBreak_pause b agent pausedContext exception breakpointIds isUncaught answer w

/-- Embeds `V8Debugger::DebugEventHandler` (v8-debugger.cc:418). -/
def DebugEventHandler (b : Build) (currentContext : Context) (debugEvent : JsDiagDebugEvent)
    (eventData : EventData) (answer : SkipPauseRequest) (w : World) : Except Crash World :=
  match debugEvent with
  | .SourceCompile | .CompileError =>
    pure (HandleSourceEvents currentContext eventData
      (decide (debugEvent = .SourceCompile)) w)
  | .Breakpoint | .StepComplete | .DebuggerStatement | .RuntimeException =>
    HandleBreak b currentContext eventData answer w
  | .AsyncBreak =>
    if w.m_pauseOnNextStatement then
      let w := { w with m_pauseOnNextStatement := false }
      HandleBreak b currentContext eventData answer w
    else pure w
  | .other _ => pure w

/-! ## The state machine -/

/-- What can happen to the debugger: a call of one of its methods, a native
debug event, the return of the message-loop hook, or a change of the agents
registered with the inspector. -/
inductive Input
  | enable
  | disable
  | setBreakpointsActivated (activated : Bool)
  | setPauseOnNextStatement (pause : Bool)
  | continueProgram
  | stepIntoStatement
  | stepOverStatement
  | stepOutOfFunction
  | clearStepping
  /-- The engine delivers `debugEvent` with `eventData` while `currentContext`
  is current; `answer` is what the agent will return from `didPause`. -/
  | debugEvent (currentContext : Context) (debugEvent : JsDiagDebugEvent)
      (eventData : EventData) (answer : SkipPauseRequest)
  /-- The innermost `runMessageLoopOnPause` returns. -/
  | messageLoopReturns
  /-- An agent for the group is enabled at the inspector. -/
  | agentEnabled (groupId : Int)
  /-- The agent of the group is disabled or its session ends. -/
  | agentRemoved (groupId : Int)
  /-- The isolate enters or leaves a context. -/
  | setInContext (inContext : Bool)
  /-- The listener sets a breakpoint; `native` is the answer of the engine. -/
  | setBreakpoint (sourceID : String16) (scriptBreakpoint : ScriptBreakpoint)
      (native : Except JsErrorCode BreakpointObject)
  /-- The listener removes a breakpoint; `native` is the answer of the engine. -/
  | removeBreakpoint (breakpointId : String16) (native : Option JsErrorCode)
  /-- The inspector marks a context. -/
  | markContext (info : V8ContextInfo)
  /-- An agent sets its async call stack depth. -/
  | setAsyncCallStackDepth (agent : V8DebuggerAgentImpl) (depth : Int)
deriving DecidableEq

/-- One transition of the debugger. -/
def step (b : Build) (w : World) : Input → Except Crash World
  | .enable => pure (enable w)
  | .disable => pure (disable w)
  | .setBreakpointsActivated activated => pure (setBreakpointsActivated activated w)
  | .setPauseOnNextStatement pause => pure (setPauseOnNextStatement pause w)
  | .continueProgram => pure (continueProgram w)
  | .stepIntoStatement => stepIntoStatement b w
  | .stepOverStatement => stepOverStatement b w
  | .stepOutOfFunction => stepOutOfFunction b w
  | .clearStepping => clearStepping b w
  | .debugEvent currentContext debugEvent eventData answer =>
    DebugEventHandler b currentContext debugEvent eventData answer w
  | .messageLoopReturns =>
    match w.suspended with
    | [] => pure w
    | frame :: rest => pure (HandleBreak_resume frame { w with suspended := rest })
  | .agentEnabled groupId => pure { w with agents := groupId :: w.agents }
  | .agentRemoved groupId => pure { w with agents := w.agents.filter (· ≠ groupId) }
  | .setInContext inContext => pure { w with inContext := inContext }
  | .setBreakpoint sourceID scriptBreakpoint native =>
    pure (setBreakpoint sourceID scriptBreakpoint native w).2
  | .removeBreakpoint breakpointId native => removeBreakpoint b breakpointId native w
  | .markContext info =>
    -- every handle the debugger holds to the marked context reads the new
    -- marker in `w1` (`SetEmbedderData`), the waiting activations included
    match markContext b info w with
    | .ok (_, _, w1) => pure w1
    | .error c => .error c
  | .setAsyncCallStackDepth agent depth => pure (setAsyncCallStackDepth agent depth w)

/-- Run a sequence of inputs, stopping at the first failed check. -/
def run (b : Build) (w : World) : List Input → Except Crash World
  | [] => pure w
  | i :: is =>
    match step b w i with
    | .ok w1 => run b w1 is
    | .error c => .error c

/-! ## Vocabulary of the statements -/

/-- The native event kinds that the demultiplexer sends to the break path. -/
def JsDiagDebugEvent.isBreak : JsDiagDebugEvent → Bool
  | .Breakpoint | .StepComplete | .DebuggerStatement | .RuntimeException | .AsyncBreak => true
  | _ => false

/-- The event reaches `HandleBreak`: it is one of the four unconditional break
kinds, or an `AsyncBreak` that finds the pause-on-next-statement flag armed. -/
def takesBreakPath (e : JsDiagDebugEvent) (w : World) : Bool :=
  match e with
  | .Breakpoint | .StepComplete | .DebuggerStatement | .RuntimeException => true
  | .AsyncBreak => w.m_pauseOnNextStatement
  | _ => false

/-- The calls that make up the pause protocol with the listener and the
embedder: `didPause`, `didContinue` and `runMessageLoopOnPause`. -/
def Effect.isPauseProtocol : Effect → Bool
  | .didPause .. | .didContinue _ | .runMessageLoopOnPause _ => true
  | _ => false

/-- The calls that set the native step mode. -/
def Effect.isSetStepType : Effect → Bool
  | .JsDiagSetStepType _ => true
  | _ => false

/-- The commands that resume execution: `continueProgram` and the three
stepping commands that end in it. -/
def Input.isResume : Input → Bool
  | .continueProgram | .stepIntoStatement | .stepOverStatement | .stepOutOfFunction => true
  | _ => false

/-- The inputs that only keep books: breakpoints, context markers and async
call stack depths.  They leave the pause session alone. -/
def Input.isBookkeeping : Input → Bool
  | .setBreakpoint .. | .removeBreakpoint .. | .markContext _
  | .setAsyncCallStackDepth .. => true
  | _ => false

/-- The PauseSession invariant of the data model: an active nested loop has a
paused context. -/
def PauseSessionInvariant (w : World) : Prop :=
  w.m_runningNestedMessageLoop = true → w.m_pausedContext ≠ none

/-- The calls made between `w` and a later world `w1`. -/
def newEffects (w w1 : World) : List Effect := w1.trace.drop w.trace.length

/-- The world in which `HandleBreak` starts when `DebugEventHandler` receives
`e` in `w`: an `AsyncBreak` disarms the pause-on-next-statement flag first. -/
def breakEntry (e : JsDiagDebugEvent) (w : World) : World :=
  if e = .AsyncBreak then { w with m_pauseOnNextStatement := false } else w

/-- The world right after `didPause` was called for a break in `ctx` whose
payload carries the breakpoint id `bp` and the uncaught flag `unc`. -/
def afterDidPause (g : Int) (ctx : Context) (bp : Option Int) (unc : Option Bool)
    (exc : Nat) (w : World) : World :=
  emit (.didPause g ctx exc (bp.map String16.fromInteger).toList false (unc.getD false))
    { w with m_pausedContext := some ctx }

/-- The world an outcome ends in. -/
def outcomeWorld : Except Crash World → World
  | .ok w => w
  | .error c => c.world

/-! ## Concrete worlds used as examples -/

/-- A build with `assert` and `DCHECK` compiled in. -/
def debugBuild : Build := ⟨true, true⟩

/-- A build with `assert` and `DCHECK` compiled out. -/
def releaseBuild : Build := ⟨false, false⟩

/-- A context marked `"1,1,"`: group 1, context 1, no auxiliary data. -/
def exampleContext : Context := ⟨1, .string ['1', ',', '1', ',']⟩

/-- A breakpoint-hit payload: breakpoint 7, `uncaught = false`. -/
def examplePayload : EventData := EventData.wellFormed 0 (some 7) (some false) 0

/-- A breakpoint hit in `exampleContext`, answered by the agent with `answer`. -/
def exampleBreak (answer : SkipPauseRequest) : Input :=
  .debugEvent exampleContext .Breakpoint examplePayload answer

/-- An async break in `exampleContext`, answered by the agent with `answer`. -/
def exampleAsyncBreak (answer : SkipPauseRequest) : Input :=
  .debugEvent exampleContext .AsyncBreak examplePayload answer

/-- An enabled debugger with an agent for group 1, inside a context. -/
def exampleRunning : World := enable (World.fresh [1] true)

/-- The same debugger inside the nested message loop of a breakpoint pause. -/
def examplePaused : World :=
  outcomeWorld (run debugBuild exampleRunning [exampleBreak .RequestNoSkip])

/-- A requested breakpoint location: line 10, column 4. -/
def exampleScriptBreakpoint : ScriptBreakpoint := ⟨10, 4⟩

/-- A script id that parses: `"5"`. -/
def exampleScriptId : String16 := ['5']

/-- A string that does not parse as an integer: `"abc"`. -/
def exampleNotANumber : String16 := ['a', 'b', 'c']

/-- A context that was never marked. -/
def unmarkedContext : Context := ⟨2, .empty⟩

/-- The request to mark `unmarkedContext` for group 1 with the auxiliary data `"a,b"`. -/
def exampleInfo : V8ContextInfo := ⟨unmarkedContext, 1, ['a', ',', 'b'], true⟩

/-- The context `unmarkedContext` once marked `"1,1,a,b"`. -/
def markedContext : Context := ⟨2, .string ['1', ',', '1', ',', 'a', ',', 'b']⟩

/-- The marker `"5,7"`: one comma only. -/
def exampleShortMarker : String16 := ['5', ',', '7']

/-- A fresh debugger after `markContext` has marked `unmarkedContext` with `"1,1,a,b"`. -/
def markedWorld : World :=
  emit (.SetEmbedderData 2 ['1', ',', '1', ',', 'a', ',', 'b'])
    { World.fresh [] true with m_lastContextId := 1 }

/-- The number of `markContext` calls among the inputs. -/
def markCount : List Input → Nat
  | [] => 0
  | .markContext _ :: rest => markCount rest + 1
  | _ :: rest => markCount rest

/-- The depth last given for `agent` once the input `i` is handled, `init` being
the depth last given before it: a `setAsyncCallStackDepth` call for `agent`
replaces it, every other input keeps it. -/
def latestDepthAfter (agent : V8DebuggerAgentImpl) (init : Option Int) : Input → Option Int
  | .setAsyncCallStackDepth a d => if a = agent then some d else init
  | _ => init

/-- The depth given by the latest `setAsyncCallStackDepth` call for `agent` among
the inputs, and `init` when there is none. -/
def latestDepthFrom (agent : V8DebuggerAgentImpl) (init : Option Int) : List Input → Option Int
  | [] => init
  | i :: rest => latestDepthFrom agent (latestDepthAfter agent init i) rest

/-- The depth given by the latest `setAsyncCallStackDepth` call for `agent`, if
there was one. -/
def latestDepth (inputs : List Input) (agent : V8DebuggerAgentImpl) : Option Int :=
  latestDepthFrom agent none inputs

/-- The registration an agent holds after a call with depth `d`: the depth when
it is positive, none otherwise. -/
def registeredDepth (latest : Option Int) : Option Int :=
  latest.filter (fun d => decide (0 < d))

/-- Three agents register the depths 3, 7 and 2. -/
def exampleDepthCalls : List Input :=
  [.setAsyncCallStackDepth 1 3, .setAsyncCallStackDepth 2 7, .setAsyncCallStackDepth 3 2]

/-- The fresh debugger after the calls of `exampleDepthCalls`. -/
def exampleDepthWorld : World :=
  outcomeWorld (run debugBuild (World.fresh [] true) exampleDepthCalls)

/-- The fresh debugger after one agent has registered the depth 3. -/
def exampleOneDepthWorld : World :=
  outcomeWorld (run debugBuild (World.fresh [] true) [.setAsyncCallStackDepth 1 3])

/-- The effective async call stack depth of a registration map: the largest
registered depth, 0 when there is none. -/
def effectiveDepth (map : List (V8DebuggerAgentImpl × Int)) : Int :=
  (map.map Prod.snd).foldr max 0

/-- Output locations of `setScriptSource` that hold nothing yet. -/
def exampleOutputs : SetScriptSourceOutputs := ⟨[], none, [], none⟩

/-- A native stack trace whose frames are all readable: `length` reads as the
number of frames and index `i` reads as the frame `i` of the stack, innermost
first; an index past the end does not read. -/
def StackTrace.readable (frames : List JsValueRef) : StackTrace :=
  { length := .ok frames.length
    GetIndexedProperty := fun i =>
      match frames.get? i with
      | some callFrameValue => .ok callFrameValue
      | none => .error .JsErrorInvalidArgument }

/-- A native stack of three frames. -/
def exampleFrames : List JsValueRef := [11, 12, 13]

/-- Whether the native debug-event callback is installed after the calls of
`trace`: what the latest `SetDebugEventHandler` call installed, and nothing
before the first. -/
def handlerInstalled (trace : List Effect) : Bool :=
  trace.foldl (fun installed e =>
    match e with
    | .SetDebugEventHandler i => i
    | _ => installed) false

/-- Two sessions enable the debugger and the first one leaves. -/
def exampleEnableCalls : List Input := [.enable, .enable, .disable]

/-- The fresh debugger after the calls of `exampleEnableCalls`. -/
def exampleEnabledWorld : World :=
  outcomeWorld (run debugBuild (World.fresh [] true) exampleEnableCalls)

/-- What identifies a waiting `HandleBreak` activation: the context it paused in
and the answer it got from `didPause`. -/
def HandleBreakFrame.activation (frame : HandleBreakFrame) : Nat × SkipPauseRequest :=
  (frame.pausedContext.handle, frame.result)

/-- The marker `markContext` stores for `info` when it assigns the id `contextId`. -/
def markContext_debugData (info : V8ContextInfo) (contextId : Int) : String16 :=
  String16.fromInteger info.contextGroupId ++ [','] ++
    String16.fromInteger contextId ++ [','] ++ info.auxData

/-- The waiting activations after `SetEmbedderData` stored `debugData` in the
context `handle`. -/
def remarked (handle : Nat) (debugData : String16) (suspended : List HandleBreakFrame) :
    List HandleBreakFrame :=
  suspended.map (fun frame =>
    { frame with pausedContext := frame.pausedContext.afterSetEmbedderData handle debugData })

/-- The input is a `markContext` call on the context `handle`. -/
def marksContext (handle : Nat) : Input → Bool
  | .markContext info => decide (info.context.handle = handle)
  | _ => false

/-- The request to mark `exampleContext` again, now for group 2. -/
def exampleRemark : V8ContextInfo := ⟨exampleContext, 2, [], true⟩

/-- An ordinary session: `enable`, a breakpoint pause, `continueProgram` from
inside the nested loop, the return of the hook, and a second breakpoint pause. -/
def exampleSession : List Input :=
  [.enable, exampleBreak .RequestNoSkip, .continueProgram, .messageLoopReturns,
    exampleBreak .RequestNoSkip]

/-- The debugger in the second pause of `exampleSession`. -/
def exampleSecondPause : World :=
  outcomeWorld (run debugBuild (World.fresh [1] true) exampleSession)

/-! ## Lemmas on strings -/

theorem digitChar_props (k : Nat) (hk : k < 10) :
    (Nat.digitChar k).isDigit = true ∧ (Nat.digitChar k).toNat - '0'.toNat = k ∧
    String16.isSpace (Nat.digitChar k) = false ∧ (Nat.digitChar k).toNat < 128 ∧
    (Nat.digitChar k).toNat ≠ 0 ∧ Nat.digitChar k ≠ ',' ∧ Nat.digitChar k ≠ '-' ∧
    Nat.digitChar k ≠ '+' := by
  interval_cases k <;> decide

theorem toDigitsCore_append (fuel : Nat) :
    ∀ (n : Nat) (ds : List Char),
      Nat.toDigitsCore 10 fuel n ds = Nat.toDigitsCore 10 fuel n [] ++ ds := by
  induction fuel with
  | zero => intro n ds; simp [Nat.toDigitsCore]
  | succ fuel ih =>
    intro n ds
    simp only [Nat.toDigitsCore]
    split
    · simp
    · rw [ih (n / 10) (Nat.digitChar (n % 10) :: ds), ih (n / 10) [Nat.digitChar (n % 10)]]
      simp

theorem digitsValue_snoc (xs : List Char) (d : Char) :
    String16.digitsValue (xs ++ [d]) = 10 * String16.digitsValue xs + (d.toNat - '0'.toNat) := by
  simp [String16.digitsValue, List.foldl_append]

theorem toDigitsCore_spec (fuel : Nat) :
    ∀ n : Nat, n < fuel →
      String16.digitsValue (Nat.toDigitsCore 10 fuel n []) = n ∧
      Nat.toDigitsCore 10 fuel n [] ≠ [] ∧
      ∀ c ∈ Nat.toDigitsCore 10 fuel n [], ∃ k, k < 10 ∧ c = Nat.digitChar k := by
  induction fuel with
  | zero => intro n hn; omega
  | succ fuel ih =>
    intro n hn
    simp only [Nat.toDigitsCore]
    have hmod : n % 10 < 10 := Nat.mod_lt _ (by decide)
    split
    · rename_i h0
      refine ⟨?_, by simp, ?_⟩
      · have := (digitChar_props _ hmod).2.1
        simp only [String16.digitsValue, List.foldl_cons, List.foldl_nil, Nat.mul_zero,
          Nat.zero_add]
        rw [this]
        omega
      · intro c hc
        simp only [List.mem_singleton] at hc
        exact ⟨n % 10, hmod, hc⟩
    · rename_i h0
      have hlt : n / 10 < fuel := by omega
      obtain ⟨i1, i2, i3⟩ := ih (n / 10) hlt
      rw [toDigitsCore_append]
      refine ⟨?_, by simp, ?_⟩
      · rw [digitsValue_snoc, i1, (digitChar_props _ hmod).2.1]
        omega
      · intro c hc
        rcases List.mem_append.1 hc with hc | hc
        · exact i3 c hc
        · simp only [List.mem_singleton] at hc
          exact ⟨n % 10, hmod, hc⟩

theorem toDigits_spec (m : Nat) :
    String16.digitsValue (Nat.toDigits 10 m) = m ∧ Nat.toDigits 10 m ≠ [] ∧
    ∀ c ∈ Nat.toDigits 10 m, ∃ k, k < 10 ∧ c = Nat.digitChar k :=
  toDigitsCore_spec (m + 1) m (Nat.lt_succ_self m)

theorem toInt32_of_range (z : Int) (h1 : -2147483648 ≤ z) (h2 : z < 2147483648) :
    String16.toInt32 z = z := by
  unfold String16.toInt32
  omega

theorem String16.toInt32_of_nonneg_lt (z : Int) (h1 : 0 ≤ z) (h2 : z < 2147483648) :
    String16.toInt32 z = z := by
  unfold String16.toInt32
  omega

theorem toInt32_range (z : Int) :
    -2147483648 ≤ String16.toInt32 z ∧ String16.toInt32 z < 2147483648 := by
  unfold String16.toInt32
  omega

/-- What the parser makes of a run of decimal digits, with or without a minus sign. -/
theorem toIntegerOk_digits (ds : List Char) (neg : Bool) (hne : ds ≠ [])
    (hd : ∀ c ∈ ds, ∃ k, k < 10 ∧ c = Nat.digitChar k) :
    String16.toIntegerOk (if neg then '-' :: ds else ds) =
      (String16.toInt32 (if neg then -(String16.digitsValue ds : Int)
        else (String16.digitsValue ds : Int)), true) := by
  have hdig : ∀ c ∈ ds, c.isDigit = true := by
    intro c hc
    obtain ⟨k, hk, rfl⟩ := hd c hc
    exact (digitChar_props k hk).1
  have hascii : ∀ c ∈ ds, ¬ (128 ≤ c.toNat) := by
    intro c hc
    obtain ⟨k, hk, rfl⟩ := hd c hc
    have := (digitChar_props k hk).2.2.2.1
    omega
  have hnul : ∀ c ∈ ds, c.toNat ≠ 0 := by
    intro c hc
    obtain ⟨k, hk, rfl⟩ := hd c hc
    exact (digitChar_props k hk).2.2.2.2.1
  obtain ⟨c0, tl, rfl⟩ := List.exists_cons_of_ne_nil hne
  obtain ⟨k0, hk0, hc0⟩ := hd c0 (by simp)
  have p0 := digitChar_props k0 hk0
  rw [← hc0] at p0
  have htake : List.takeWhile Char.isDigit (c0 :: tl) = c0 :: tl :=
    List.takeWhile_eq_self_iff.2 (by simpa using hdig)
  have hdrop : List.dropWhile Char.isDigit (c0 :: tl) = [] :=
    List.dropWhile_eq_nil_iff.2 (by simpa using hdig)
  have hbuf : List.takeWhile (fun c => decide (c.toNat ≠ 0)) (c0 :: tl) = c0 :: tl :=
    List.takeWhile_eq_self_iff.2 (by simpa using hnul)
  cases neg
  · have hany : (c0 :: tl).any (fun c => decide (128 ≤ c.toNat)) = false := by
      rw [List.any_eq_false]
      intro c hc
      simpa using hascii c hc
    unfold String16.toIntegerOk
    simp only [Bool.false_eq_true, if_false, hany, hbuf]
    have hbody : List.dropWhile String16.isSpace (c0 :: tl) = c0 :: tl := by
      simp [List.dropWhile, p0.2.2.1]
    simp only [hbody, List.head?_cons, Option.some.injEq, p0.2.2.2.2.2.1, p0.2.2.2.2.2.2,
      or_self, if_false, htake, hdrop]
    simp
  · have hany : ('-' :: c0 :: tl).any (fun c => decide (128 ≤ c.toNat)) = false := by
      rw [List.any_eq_false]
      intro c hc
      rcases List.mem_cons.1 hc with rfl | hc
      · decide
      · simpa using hascii c hc
    have hbuf2 : List.takeWhile (fun c => decide (c.toNat ≠ 0)) ('-' :: c0 :: tl)
        = '-' :: c0 :: tl := by
      rw [List.takeWhile_cons_of_pos (by decide), hbuf]
    unfold String16.toIntegerOk
    simp only [if_true, hany, hbuf2, Bool.false_eq_true, if_false]
    have hbody : List.dropWhile String16.isSpace ('-' :: c0 :: tl) = '-' :: c0 :: tl := by
      rw [List.dropWhile_cons_of_neg (by decide)]
    simp only [hbody, List.head?_cons, true_or, if_true, List.tail_cons, htake, hdrop]
    simp

theorem toIntegerOk_fromInteger (n : Int) (h1 : -2147483648 ≤ n) (h2 : n < 2147483648) :
    String16.toIntegerOk (String16.fromInteger n) = (n, true) := by
  cases n with
  | ofNat m =>
    obtain ⟨q1, q2, q3⟩ := toDigits_spec m
    have := toIntegerOk_digits (Nat.toDigits 10 m) false q2 q3
    simp only [Bool.false_eq_true, if_false, q1] at this
    simp only [String16.fromInteger, this]
    rw [toInt32_of_range _ (by omega) (by simpa using h2)]
    rfl
  | negSucc m =>
    obtain ⟨q1, q2, q3⟩ := toDigits_spec (m + 1)
    have := toIntegerOk_digits (Nat.toDigits 10 (m + 1)) true q2 q3
    simp only [if_true, q1] at this
    have hm : Int.negSucc m = -((m + 1 : Nat) : Int) := by
      rw [Int.negSucc_eq]; push_cast; ring
    rw [hm] at h1 h2
    simp only [String16.fromInteger, this]
    rw [toInt32_of_range _ h1 h2, hm]

theorem fromInteger_no_comma (n : Int) : ',' ∉ String16.fromInteger n := by
  have key : ∀ m : Nat, ',' ∉ Nat.toDigits 10 m := by
    intro m hm
    obtain ⟨k, hk, hc⟩ := (toDigits_spec m).2.2 _ hm
    exact (digitChar_props k hk).2.2.2.2.2.1 hc.symm
  cases n with
  | ofNat m => exact key m
  | negSucc m =>
    simp only [String16.fromInteger, List.mem_cons, not_or]
    exact ⟨by decide, key (m + 1)⟩

theorem findFrom_zero_none (c : Char) (s : String16) :
    String16.findFrom c s 0 = none ↔ c ∉ s := by
  induction s with
  | nil => simp [String16.findFrom]
  | cons x xs ih =>
    simp only [String16.findFrom, List.mem_cons, not_or]
    by_cases hx : x = c
    · simp [hx]
    · simp only [hx, if_false, Option.map_eq_none', ih]
      constructor
      · intro h; exact ⟨fun h2 => hx h2.symm, h⟩
      · intro h; exact h.2

theorem findFrom_zero_append (c : Char) (xs ys : String16) (h : c ∉ xs) :
    String16.findFrom c (xs ++ c :: ys) 0 = some xs.length := by
  induction xs with
  | nil => simp [String16.findFrom]
  | cons x xs ih =>
    simp only [List.mem_cons, not_or] at h
    have hx : ¬ x = c := fun h2 => h.1 h2.symm
    simp [String16.findFrom, hx, ih h.2]

theorem findFrom_skip (c : Char) (xs ys : String16) (k : Nat) :
    String16.findFrom c (xs ++ ys) (xs.length + k) =
      (String16.findFrom c ys k).map (· + xs.length) := by
  induction xs with
  | nil => simp
  | cons x xs ih =>
    have : (x :: xs).length + k = (xs.length + k) + 1 := by simp; omega
    rw [List.cons_append, this, String16.findFrom, ih]
    cases String16.findFrom c ys k <;> simp
    omega

theorem findFrom_zero_some (c : Char) (s : String16) (p : Nat)
    (h : String16.findFrom c s 0 = some p) :
    ∃ pre rest, s = pre ++ c :: rest ∧ c ∉ pre ∧ p = pre.length := by
  induction s generalizing p with
  | nil => simp [String16.findFrom] at h
  | cons x xs ih =>
    simp only [String16.findFrom] at h
    by_cases hx : x = c
    · simp only [hx, if_true, Option.some.injEq] at h
      exact ⟨[], xs, by simp [hx], by simp, by simp [← h]⟩
    · simp only [hx, if_false, Option.map_eq_some'] at h
      obtain ⟨q, hq, hp⟩ := h
      obtain ⟨pre, rest, h1, h2, h3⟩ := ih q hq
      refine ⟨x :: pre, rest, by simp [h1], ?_, by simp [← hp, h3]⟩
      simp only [List.mem_cons, not_or]
      exact ⟨fun h4 => hx h4.symm, h2⟩

theorem getGroupId_split (handle : Nat) (pre rest : String16) (hpre : ',' ∉ pre) :
    getGroupId ⟨handle, .string (pre ++ ',' :: rest)⟩ = String16.toInteger pre := by
  simp [getGroupId, String16.isEmpty, String16.find, findFrom_zero_append ',' pre rest hpre,
    String16.substring]

theorem contextId_split (handle : Nat) (pre mid rest : String16) (hpre : ',' ∉ pre)
    (hmid : ',' ∉ mid) :
    contextId ⟨handle, .string (pre ++ ',' :: (mid ++ ',' :: rest))⟩ = String16.toInteger mid := by
  have h1 := findFrom_zero_append ',' pre (mid ++ ',' :: rest) hpre
  have h2 : String16.findFrom ',' (pre ++ ',' :: (mid ++ ',' :: rest)) (pre.length + 1) =
      some (pre.length + 1 + mid.length) := by
    have := findFrom_skip ',' (pre ++ [',']) (mid ++ ',' :: rest) 0
    simp only [List.length_append, List.length_singleton, Nat.add_zero, List.append_assoc,
      List.singleton_append] at this
    rw [this, findFrom_zero_append ',' mid rest hmid]
    simp
    omega
  simp only [contextId, String16.isEmpty, String16.find, h1, h2]
  have hlen : pre.length + 1 + mid.length - pre.length - 1 = mid.length := by omega
  have hdrop : List.drop (pre.length + 1) (pre ++ ',' :: (mid ++ ',' :: rest))
      = mid ++ ',' :: rest := by
    have : pre ++ ',' :: (mid ++ ',' :: rest) = (pre ++ [',']) ++ (mid ++ ',' :: rest) := by
      simp
    rw [this, List.drop_append_of_le_length (by simp)]
    simp
  simp [String16.substring, hlen, hdrop]

theorem contextId_few_commas (handle : Nat) (s : String16) (h : s.count ',' < 2) :
    contextId ⟨handle, .string s⟩ = 0 := by
  simp only [contextId, String16.find]
  split
  · rfl
  · cases h1 : String16.findFrom ',' s 0 with
    | none => rfl
    | some p =>
      obtain ⟨pre, rest, hs, hpre, hp⟩ := findFrom_zero_some ',' s p h1
      have hrest : ',' ∉ rest := by
        intro hmem
        have hc : 0 < List.count ',' rest := List.count_pos_iff.2 hmem
        rw [hs] at h
        simp only [List.count_append, List.count_cons_self] at h
        omega
      have h2 : String16.findFrom ',' s (p + 1) = none := by
        have := findFrom_skip ',' (pre ++ [',']) rest 0
        simp only [List.length_append, List.length_singleton, Nat.add_zero, List.append_assoc,
          List.singleton_append] at this
        rw [hs, hp, this, (findFrom_zero_none ',' rest).2 hrest]
        rfl
      simp [h2]

theorem getGroupId_no_comma (handle : Nat) (s : String16) (h : ',' ∉ s) :
    getGroupId ⟨handle, .string s⟩ = 0 := by
  simp only [getGroupId, String16.find, (findFrom_zero_none ',' s).2 h]
  split <;> rfl

/-! ## Lemmas on the demultiplexer and `HandleBreak` -/

theorem HandleBreak_nested (b : Build) (ctx : Context) (data : EventData)
    (answer : SkipPauseRequest) (w : World) (h : w.m_runningNestedMessageLoop = true) :
    HandleBreak b ctx data answer w = .ok w := by
  simp [HandleBreak, h, pure, Except.pure]

theorem HandleBreak_noAgent (b : Build) (ctx : Context) (data : EventData)
    (answer : SkipPauseRequest) (w : World)
    (h : enabledDebuggerAgentForGroup w (getGroupId ctx) = none) :
    HandleBreak b ctx data answer w = .ok w := by
  unfold HandleBreak
  split
  · rfl
  · simp [h, pure, Except.pure]

theorem agent_eq_group (w : World) (g : Int) (a : V8DebuggerAgentImpl)
    (h : enabledDebuggerAgentForGroup w g = some a) : a = g ∧ g ≠ 0 := by
  unfold enabledDebuggerAgentForGroup at h
  split at h
  · rename_i hg
    simp at h
    exact ⟨h.symm, hg.1⟩
  · simp at h

theorem disarm_of_unarmed (w : World) (h : w.m_pauseOnNextStatement = false) :
    { w with m_pauseOnNextStatement := false } = w := by
  rcases w with ⟨⟨⟩, _, _, _, _⟩
  simp_all

theorem breakEntry_fields (e : JsDiagDebugEvent) (w : World) :
    (breakEntry e w).m_runningNestedMessageLoop = w.m_runningNestedMessageLoop ∧
    (breakEntry e w).m_pausedContext = w.m_pausedContext ∧
    (breakEntry e w).agents = w.agents ∧
    (breakEntry e w).suspended = w.suspended ∧
    (breakEntry e w).trace = w.trace := by
  unfold breakEntry
  split <;> simp

theorem DebugEventHandler_breakPath (b : Build) (ctx : Context) (e : JsDiagDebugEvent)
    (data : EventData) (answer : SkipPauseRequest) (w : World)
    (he : takesBreakPath e w = true) :
    DebugEventHandler b ctx e data answer w = HandleBreak b ctx data answer (breakEntry e w) := by
  cases e <;> simp [takesBreakPath] at he <;> simp [DebugEventHandler, breakEntry, he]

theorem DebugEventHandler_unarmed (b : Build) (ctx : Context) (data : EventData)
    (answer : SkipPauseRequest) (w : World) (h : w.m_pauseOnNextStatement = false) :
    DebugEventHandler b ctx .AsyncBreak data answer w = .ok w := by
  simp [DebugEventHandler, h, pure, Except.pure]

theorem DebugEventHandler_nested (b : Build) (ctx : Context) (e : JsDiagDebugEvent)
    (data : EventData) (answer : SkipPauseRequest) (w : World)
    (hloop : w.m_runningNestedMessageLoop = true) (he : e.isBreak = true) :
    DebugEventHandler b ctx e data answer w = .ok (breakEntry e w) := by
  cases e <;> simp [JsDiagDebugEvent.isBreak] at he
  case AsyncBreak =>
    by_cases hp : w.m_pauseOnNextStatement = true
    · simp only [DebugEventHandler, hp, if_true, breakEntry]
      exact HandleBreak_nested b ctx data answer _ hloop
    · simp only [Bool.not_eq_true] at hp
      simp only [DebugEventHandler, hp, breakEntry, if_true, disarm_of_unarmed w hp]
      rfl
  all_goals simp [DebugEventHandler, HandleBreak_nested, hloop, breakEntry]

theorem agent_of_world_eq (w w0 : World) (g : Int) (h : w0.agents = w.agents) :
    enabledDebuggerAgentForGroup w0 g = enabledDebuggerAgentForGroup w g := by
  simp [enabledDebuggerAgentForGroup, h]

theorem HandleBreak_wellFormed (b : Build) (ctx : Context) (ref : Nat) (bp : Option Int)
    (unc : Option Bool) (exc : Nat) (answer : SkipPauseRequest) (w : World) (g : Int)
    (hrun : w.m_runningNestedMessageLoop = false)
    (hag : enabledDebuggerAgentForGroup w (getGroupId ctx) = some g) :
    HandleBreak b ctx (EventData.wellFormed ref bp unc exc) answer w =
      .ok (if answer = .RequestNoSkip then
            { emit (.runMessageLoopOnPause g)
                { afterDidPause g ctx bp unc exc w with m_runningNestedMessageLoop := true } with
              suspended := ⟨ctx, .RequestNoSkip⟩ :: w.suspended }
          else HandleBreak_finish answer (afterDidPause g ctx bp unc exc w)) := by
  obtain ⟨hg, hne⟩ := agent_eq_group w _ g hag
  subst hg
  unfold HandleBreak
  simp only [hrun, hag]
  cases bp <;> cases unc <;> cases answer <;>
    simp [EventData.wellFormed, WrapRuntimeException, afterDidPause, DCHECK, hne, emit, hrun,
      HandleBreak_breakpointIds, HandleBreak_isUncaught, HandleBreak_pause]

theorem afterDidPause_fields (g : Int) (ctx : Context) (bp : Option Int) (unc : Option Bool)
    (exc : Nat) (w : World) :
    (afterDidPause g ctx bp unc exc w).m_runningNestedMessageLoop = w.m_runningNestedMessageLoop ∧
    (afterDidPause g ctx bp unc exc w).m_pauseOnNextStatement = w.m_pauseOnNextStatement ∧
    (afterDidPause g ctx bp unc exc w).suspended = w.suspended ∧
    (afterDidPause g ctx bp unc exc w).agents = w.agents ∧
    (afterDidPause g ctx bp unc exc w).trace = w.trace ++
      [Effect.didPause g ctx exc (bp.map String16.fromInteger).toList false (unc.getD false)] := by
  simp [afterDidPause, emit]

theorem HandleBreak_finish_fields (result : SkipPauseRequest) (w : World) :
    (HandleBreak_finish result w).m_pausedContext = none ∧
    (HandleBreak_finish result w).m_runningNestedMessageLoop = w.m_runningNestedMessageLoop ∧
    (HandleBreak_finish result w).m_pauseOnNextStatement = w.m_pauseOnNextStatement ∧
    (HandleBreak_finish result w).suspended = w.suspended ∧
    (HandleBreak_finish result w).agents = w.agents ∧
    (HandleBreak_finish result w).trace = w.trace ++
      (match result with
        | .RequestNoSkip => []
        | .RequestStepInto => [.JsDiagSetStepType .StepIn]
        | .RequestStepOut => [.JsDiagSetStepType .StepOut]
        | .RequestStepFrame => [.JsDiagSetStepType .StepIn]) := by
  cases result <;> simp [HandleBreak_finish, emit]

theorem HandleBreak_resume_fields (frame : HandleBreakFrame) (w : World) :
    (HandleBreak_resume frame w).m_pausedContext = none ∧
    (HandleBreak_resume frame w).m_runningNestedMessageLoop = false ∧
    (HandleBreak_resume frame w).m_pauseOnNextStatement = w.m_pauseOnNextStatement ∧
    (HandleBreak_resume frame w).suspended = w.suspended ∧
    (HandleBreak_resume frame w).agents = w.agents ∧
    (HandleBreak_resume frame w).trace = w.trace ++
      (match enabledDebuggerAgentForGroup w (getGroupId frame.pausedContext) with
        | some agent => [.didContinue agent]
        | none => []) ++
      (match frame.result with
        | .RequestNoSkip => []
        | .RequestStepInto => [.JsDiagSetStepType .StepIn]
        | .RequestStepOut => [.JsDiagSetStepType .StepOut]
        | .RequestStepFrame => [.JsDiagSetStepType .StepIn]) := by
  unfold HandleBreak_resume
  cases enabledDebuggerAgentForGroup w (getGroupId frame.pausedContext) <;>
    simp [HandleBreak_finish_fields, emit]

/-! ## Lemmas on the bookkeeping operations -/

theorem assert_ok (b : Build) (cond : Bool) (w v : World) (h : assert b cond w = .ok v) :
    v = w := by
  unfold assert at h
  split at h
  · cases h
  · cases h; rfl

theorem DCHECK_ok (b : Build) (cond : Bool) (w v : World) (h : DCHECK b cond w = .ok v) :
    v = w := by
  unfold DCHECK at h
  split at h
  · cases h
  · cases h; rfl

theorem setBreakpoint_world (sourceID : String16) (bp : ScriptBreakpoint)
    (native : Except JsErrorCode BreakpointObject) (w : World) :
    (setBreakpoint sourceID bp native w).2 = w ∨
    (setBreakpoint sourceID bp native w).2 =
      emit (.JsDiagSetBreakpoint sourceID.toIntegerOk.1 bp.lineNumber bp.columnNumber) w := by
  unfold setBreakpoint
  simp only
  split
  · exact Or.inl rfl
  · right
    split
    · rfl
    · split
      · rfl
      · split
        · rfl
        · split <;> rfl

theorem removeBreakpoint_world (b : Build) (breakpointId : String16)
    (native : Option JsErrorCode) (w w1 : World)
    (h : removeBreakpoint b breakpointId native w = .ok w1) :
    w1 = w ∨ w1 = emit (.JsDiagRemoveBreakpoint breakpointId.toIntegerOk.1) w := by
  unfold removeBreakpoint at h
  simp only at h
  split at h
  · exact Or.inl (assert_ok _ _ _ _ h)
  · exact Or.inr (assert_ok _ _ _ _ h)

theorem afterSetEmbedderData_handle (handle : Nat) (debugData : String16) (c : Context) :
    (c.afterSetEmbedderData handle debugData).handle = c.handle := by
  unfold Context.afterSetEmbedderData
  split <;> rfl

theorem afterSetEmbedderData_other (handle : Nat) (debugData : String16) (c : Context)
    (h : c.handle ≠ handle) : c.afterSetEmbedderData handle debugData = c := by
  simp [Context.afterSetEmbedderData, h]

theorem afterSetEmbedderData_same (handle : Nat) (debugData : String16) (c : Context)
    (h : c.handle = handle) :
    c.afterSetEmbedderData handle debugData = ⟨handle, .string debugData⟩ := by
  cases c
  simp only at h
  subst h
  simp [Context.afterSetEmbedderData]

theorem SetEmbedderData_fields (handle : Nat) (debugData : String16) (w : World) :
    (SetEmbedderData handle debugData w).m_runningNestedMessageLoop =
      w.m_runningNestedMessageLoop ∧
    ((SetEmbedderData handle debugData w).m_pausedContext = none ↔ w.m_pausedContext = none) ∧
    (SetEmbedderData handle debugData w).m_pauseOnNextStatement = w.m_pauseOnNextStatement ∧
    (SetEmbedderData handle debugData w).suspended.map HandleBreakFrame.activation =
      w.suspended.map HandleBreakFrame.activation ∧
    (SetEmbedderData handle debugData w).agents = w.agents ∧
    (SetEmbedderData handle debugData w).trace =
      w.trace ++ [Effect.SetEmbedderData handle debugData] ∧
    (SetEmbedderData handle debugData w).suspended = remarked handle debugData w.suspended := by
  refine ⟨rfl, by simp [SetEmbedderData, emit], rfl, ?_, rfl, rfl, rfl⟩
  simp only [SetEmbedderData, emit, List.map_map]
  apply List.map_congr_left
  intro f _
  simp [HandleBreakFrame.activation, afterSetEmbedderData_handle]

theorem remarked_activation (handle : Nat) (debugData : String16)
    (l : List HandleBreakFrame) :
    (remarked handle debugData l).map HandleBreakFrame.activation =
      l.map HandleBreakFrame.activation := by
  simp only [remarked, List.map_map]
  apply List.map_congr_left
  intro f _
  simp [HandleBreakFrame.activation, afterSetEmbedderData_handle]

theorem markContext_ok (b : Build) (info : V8ContextInfo) (w : World)
    (r : Int × Context × World) (h : markContext b info w = .ok r) :
    r = (String16.toInt32 (w.m_lastContextId + 1),
      ({ info.context with
          debugId := EmbedderData.string (String16.fromInteger info.contextGroupId ++ [','] ++
            String16.fromInteger (String16.toInt32 (w.m_lastContextId + 1)) ++ [','] ++
            info.auxData) } : Context),
      SetEmbedderData info.context.handle
          (String16.fromInteger info.contextGroupId ++ [','] ++
            String16.fromInteger (String16.toInt32 (w.m_lastContextId + 1)) ++ [','] ++
            info.auxData)
        { w with m_lastContextId := String16.toInt32 (w.m_lastContextId + 1) }) := by
  unfold markContext at h
  cases hd : DCHECK b info.inDebuggerIsolate w with
  | error c => simp [hd] at h
  | ok v =>
    have hv := DCHECK_ok _ _ _ _ hd
    subst hv
    simp only [hd, Except.ok.injEq] at h
    exact h.symm

theorem setAsyncCallStackDepth_world (agent : V8DebuggerAgentImpl) (depth : Int) (w : World) :
    setAsyncCallStackDepth agent depth w =
      { w with
        m_maxAsyncCallStackDepthMap :=
          setAsyncCallStackDepth_map agent depth w.m_maxAsyncCallStackDepthMap
        m_maxAsyncCallStackDepth := setAsyncCallStackDepth_max
          (setAsyncCallStackDepth_map agent depth w.m_maxAsyncCallStackDepthMap) } ∨
    setAsyncCallStackDepth agent depth w =
      emit .allAsyncTasksCanceled
        { w with
          m_maxAsyncCallStackDepthMap :=
            setAsyncCallStackDepth_map agent depth w.m_maxAsyncCallStackDepthMap
          m_maxAsyncCallStackDepth := setAsyncCallStackDepth_max
            (setAsyncCallStackDepth_map agent depth w.m_maxAsyncCallStackDepthMap) } := by
  unfold setAsyncCallStackDepth
  simp only
  split
  · rename_i heq
    left
    rw [← heq]
  · split
    · exact Or.inr rfl
    · exact Or.inl rfl

theorem step_bookkeeping (b : Build) (w w1 : World) (i : Input)
    (hi : i.isBookkeeping = true) (h : step b w i = .ok w1) :
    w1.m_runningNestedMessageLoop = w.m_runningNestedMessageLoop ∧
    (w1.m_pausedContext = none ↔ w.m_pausedContext = none) ∧
    w1.m_pauseOnNextStatement = w.m_pauseOnNextStatement ∧
    (w1.suspended = w.suspended ∨
      ∃ info, i = Input.markContext info ∧
        w1.suspended = remarked info.context.handle
          (markContext_debugData info (String16.toInt32 (w.m_lastContextId + 1)))
          w.suspended) ∧
    w1.agents = w.agents ∧
    w1.trace = w.trace ++ newEffects w w1 ∧
    ∀ e ∈ newEffects w w1, e.isPauseProtocol = false := by
  cases i <;> simp only [Input.isBookkeeping, reduceCtorEq] at hi
  case setBreakpoint sourceID bp native =>
    simp only [step, pure, Except.pure, Except.ok.injEq] at h
    subst h
    rcases setBreakpoint_world sourceID bp native w with h2 | h2 <;> rw [h2] <;>
      simp [newEffects, emit, Effect.isPauseProtocol]
  case removeBreakpoint breakpointId native =>
    simp only [step] at h
    rcases removeBreakpoint_world b breakpointId native w w1 h with rfl | rfl <;>
      simp [newEffects, emit, Effect.isPauseProtocol]
  case markContext info =>
    simp only [step] at h
    cases hm : markContext b info w with
    | error c => simp [hm] at h
    | ok r =>
      have hr := markContext_ok b info w r hm
      subst hr
      simp only [hm, pure, Except.pure, Except.ok.injEq] at h
      subst h
      obtain ⟨f1, f2, f3, _, f5, f6, f7⟩ := SetEmbedderData_fields info.context.handle
        (String16.fromInteger info.contextGroupId ++ [','] ++
          String16.fromInteger (String16.toInt32 (w.m_lastContextId + 1)) ++ [','] ++
          info.auxData)
        { w with m_lastContextId := String16.toInt32 (w.m_lastContextId + 1) }
      refine ⟨f1, f2, f3, Or.inr ⟨info, rfl, f7⟩, f5, ?_, ?_⟩
      · rw [newEffects, f6]; simp
      · intro e he
        rw [newEffects, f6] at he
        simp only [List.drop_left, List.mem_singleton] at he
        subst he
        rfl
  case setAsyncCallStackDepth agent depth =>
    simp only [step, pure, Except.pure, Except.ok.injEq] at h
    subst h
    rcases setAsyncCallStackDepth_world agent depth w with h2 | h2 <;> rw [h2] <;>
      simp [newEffects, emit, Effect.isPauseProtocol]

/-! ## Lemmas on runs inside the nested loop -/

theorem step_inLoop (b : Build) (w w1 : World) (i : Input)
    (hloop : w.m_runningNestedMessageLoop = true) (hi : i ≠ .messageLoopReturns)
    (h : step b w i = .ok w1) :
    w1.m_runningNestedMessageLoop = true ∧
      (w1.suspended = w.suspended ∨
        ∃ info, i = Input.markContext info ∧
          w1.suspended = remarked info.context.handle
            (markContext_debugData info (String16.toInt32 (w.m_lastContextId + 1)))
            w.suspended) ∧
      w1.trace = w.trace ++ newEffects w w1 ∧
      ∀ e ∈ newEffects w w1, e.isPauseProtocol = false := by
  cases i with
  | messageLoopReturns => exact absurd rfl hi
  | debugEvent ctx e data answer =>
    by_cases he : e.isBreak = true
    · simp only [step, DebugEventHandler_nested b ctx e data answer w hloop he,
        Except.ok.injEq] at h
      subst h
      simp [newEffects, hloop, breakEntry_fields]
    · cases e <;> simp [JsDiagDebugEvent.isBreak] at he <;>
        simp only [step, DebugEventHandler, HandleSourceEvents, pure, Except.pure,
          Except.ok.injEq] at h <;> subst h <;> (try split) <;>
        simp [newEffects, hloop, emit, Effect.isPauseProtocol]
  | setBreakpoint _ _ _ | removeBreakpoint _ _ | markContext _ | setAsyncCallStackDepth _ _ =>
    obtain ⟨k1, _, _, k4, _, k6, k7⟩ := step_bookkeeping b w w1 _ (by rfl) h
    exact ⟨k1.trans hloop, k4, k6, k7⟩
  | _ =>
    simp only [step, enable, disable, setBreakpointsActivated, setPauseOnNextStatement,
      continueProgram, stepIntoStatement, stepOverStatement, stepOutOfFunction, clearStepping,
      DCHECK, emit, pure, Except.pure, bind, Except.bind] at h
    (try split_ifs at h) <;> simp only [Except.ok.injEq, reduceCtorEq] at h <;> subst h <;>
      (try split_ifs) <;> simp [newEffects, hloop, Effect.isPauseProtocol]

theorem step_inLoop_activation (b : Build) (w w1 : World) (i : Input)
    (hloop : w.m_runningNestedMessageLoop = true) (hi : i ≠ .messageLoopReturns)
    (h : step b w i = .ok w1) :
    w1.suspended.map HandleBreakFrame.activation =
      w.suspended.map HandleBreakFrame.activation := by
  rcases (step_inLoop b w w1 i hloop hi h).2.1 with h1 | ⟨info, _, h1⟩
  · rw [h1]
  · rw [h1, remarked_activation]

theorem run_inLoop (b : Build) (inner : List Input) :
    ∀ (w w2 : World), w.m_runningNestedMessageLoop = true →
      (∀ i ∈ inner, i ≠ Input.messageLoopReturns) → run b w inner = .ok w2 →
      w2.m_runningNestedMessageLoop = true ∧
        w2.suspended.map HandleBreakFrame.activation =
          w.suspended.map HandleBreakFrame.activation ∧
        w2.trace = w.trace ++ newEffects w w2 ∧
        ∀ e ∈ newEffects w w2, e.isPauseProtocol = false := by
  induction inner with
  | nil =>
    intro w w2 hloop _ h
    simp only [run, pure, Except.pure, Except.ok.injEq] at h
    subst h
    simp [newEffects, hloop]
  | cons i is ih =>
    intro w w2 hloop hin h
    simp only [run] at h
    cases hs : step b w i with
    | error c => simp [hs] at h
    | ok w1 =>
      simp only [hs] at h
      obtain ⟨p1, _, p3, p4⟩ := step_inLoop b w w1 i hloop (hin i (by simp)) hs
      have p2 := step_inLoop_activation b w w1 i hloop (hin i (by simp)) hs
      obtain ⟨q1, q2, q3, q4⟩ := ih w1 w2 p1 (fun j hj => hin j (by simp [hj])) h
      have key : newEffects w w2 = newEffects w w1 ++ newEffects w1 w2 := by
        unfold newEffects at *
        rw [q3, p3]
        simp
      refine ⟨q1, q2.trans p2, ?_, ?_⟩
      · rw [key, q3, p3]
        simp [newEffects]
      · intro e he
        rw [key] at he
        rcases List.mem_append.1 he with he | he
        · exact p4 e he
        · exact q4 e he

theorem activation_head (l1 l2 : List HandleBreakFrame) (f : HandleBreakFrame)
    (rest : List HandleBreakFrame) (h2 : l2 = f :: rest)
    (h : l1.map HandleBreakFrame.activation = l2.map HandleBreakFrame.activation) :
    ∃ f1 rest1, l1 = f1 :: rest1 ∧ f1.result = f.result ∧
      f1.pausedContext.handle = f.pausedContext.handle := by
  subst h2
  cases l1 with
  | nil => simp at h
  | cons f1 rest1 =>
    simp only [List.map_cons, List.cons.injEq, HandleBreakFrame.activation,
      Prod.mk.injEq] at h
    exact ⟨f1, rest1, rfl, h.1.2, h.1.1⟩

theorem remarked_head_other (handle : Nat) (debugData : String16) (f : HandleBreakFrame)
    (rest : List HandleBreakFrame) (h : f.pausedContext.handle ≠ handle) :
    remarked handle debugData (f :: rest) = f :: remarked handle debugData rest := by
  simp [remarked, afterSetEmbedderData_other handle debugData f.pausedContext h]

theorem remarked_head_same (handle : Nat) (debugData : String16) (f : HandleBreakFrame)
    (rest : List HandleBreakFrame) (h : f.pausedContext.handle = handle) :
    remarked handle debugData (f :: rest) =
      ⟨⟨handle, .string debugData⟩, f.result⟩ :: remarked handle debugData rest := by
  simp [remarked, afterSetEmbedderData_same handle debugData f.pausedContext h]

theorem step_inLoop_unmarked (b : Build) (w w1 : World) (i : Input)
    (hloop : w.m_runningNestedMessageLoop = true) (hi : i ≠ .messageLoopReturns)
    (h : step b w i = .ok w1) (f : HandleBreakFrame) (rest : List HandleBreakFrame)
    (hs : w.suspended = f :: rest) (hm : marksContext f.pausedContext.handle i = false) :
    ∃ rest1, w1.suspended = f :: rest1 := by
  rcases (step_inLoop b w w1 i hloop hi h).2.1 with h1 | ⟨info, hinfo, h1⟩
  · exact ⟨rest, h1.trans hs⟩
  · subst hinfo
    simp only [marksContext, decide_eq_false_iff_not] at hm
    rw [hs, remarked_head_other _ _ f rest (fun a => hm a.symm)] at h1
    exact ⟨_, h1⟩

theorem run_inLoop_unmarked (b : Build) (inner : List Input) :
    ∀ (w w2 : World) (f : HandleBreakFrame) (rest : List HandleBreakFrame),
      w.m_runningNestedMessageLoop = true →
      (∀ i ∈ inner, i ≠ Input.messageLoopReturns) → run b w inner = .ok w2 →
      w.suspended = f :: rest →
      (∀ i ∈ inner, marksContext f.pausedContext.handle i = false) →
      ∃ rest2, w2.suspended = f :: rest2 := by
  induction inner with
  | nil =>
    intro w w2 f rest _ _ h hs _
    simp only [run, pure, Except.pure, Except.ok.injEq] at h
    subst h
    exact ⟨rest, hs⟩
  | cons i is ih =>
    intro w w2 f rest hloop hin h hs hm
    simp only [run] at h
    cases hst : step b w i with
    | error c => simp [hst] at h
    | ok w1 =>
      simp only [hst] at h
      obtain ⟨rest1, h1⟩ := step_inLoop_unmarked b w w1 i hloop (hin i (by simp)) hst f rest hs
        (hm i (by simp))
      exact ih w1 w2 f rest1 (step_inLoop b w w1 i hloop (hin i (by simp)) hst).1
        (fun j hj => hin j (by simp [hj])) h h1 (fun j hj => hm j (by simp [hj]))

theorem getGroupId_debugData (handle : Nat) (info : V8ContextInfo) (contextId : Int)
    (hlo : -2147483648 ≤ info.contextGroupId) (hhi : info.contextGroupId < 2147483648) :
    getGroupId ⟨handle, .string (markContext_debugData info contextId)⟩ =
      info.contextGroupId := by
  have hm : markContext_debugData info contextId =
      String16.fromInteger info.contextGroupId ++ ',' ::
        (String16.fromInteger contextId ++ ',' :: info.auxData) := by
    simp [markContext_debugData]
  rw [hm, getGroupId_split handle _ _ (fromInteger_no_comma _), String16.toInteger,
    toIntegerOk_fromInteger info.contextGroupId hlo hhi]

theorem step_markContext_head (b : Build) (w w1 : World) (info : V8ContextInfo)
    (h : step b w (.markContext info) = .ok w1) (f : HandleBreakFrame)
    (rest : List HandleBreakFrame) (hs : w.suspended = f :: rest)
    (hm : info.context.handle = f.pausedContext.handle)
    (hlo : -2147483648 ≤ info.contextGroupId) (hhi : info.contextGroupId < 2147483648) :
    ∃ f1 rest1, w1.suspended = f1 :: rest1 ∧ f1.result = f.result ∧
      f1.pausedContext.handle = f.pausedContext.handle ∧
      getGroupId f1.pausedContext = info.contextGroupId := by
  simp only [step] at h
  cases hmc : markContext b info w with
  | error c => simp [hmc] at h
  | ok r =>
    have hr := markContext_ok b info w r hmc
    subst hr
    simp only [hmc, pure, Except.pure, Except.ok.injEq] at h
    subst h
    have h1 := (SetEmbedderData_fields info.context.handle
      (markContext_debugData info (String16.toInt32 (w.m_lastContextId + 1)))
      { w with m_lastContextId := String16.toInt32 (w.m_lastContextId + 1) }).2.2.2.2.2.2
    have hs1 : ({ w with m_lastContextId := String16.toInt32 (w.m_lastContextId + 1) } :
        World).suspended = f :: rest := hs
    have h2 := h1.trans ((congrArg (remarked info.context.handle
      (markContext_debugData info (String16.toInt32 (w.m_lastContextId + 1)))) hs1).trans
      (remarked_head_same _ _ f rest hm.symm))
    exact ⟨⟨⟨info.context.handle,
        .string (markContext_debugData info (String16.toInt32 (w.m_lastContextId + 1)))⟩,
        f.result⟩, _, h2, rfl, hm, getGroupId_debugData _ info _ hlo hhi⟩

theorem HandleBreak_pause_cases (b : Build) (g : V8DebuggerAgentImpl) (ctx : Context) (exc : Nat)
    (ids : List String16) (u : Bool) (answer : SkipPauseRequest) (w w1 : World)
    (h : HandleBreak_pause b g ctx exc ids u answer w = .ok w1) :
    (answer = .RequestNoSkip ∧
      w1 = { emit (.runMessageLoopOnPause (getGroupId ctx))
              { emit (.didPause g ctx exc ids false u) { w with m_pausedContext := some ctx } with
                m_runningNestedMessageLoop := true } with
            suspended := ⟨ctx, .RequestNoSkip⟩ :: w.suspended }) ∨
    (answer ≠ .RequestNoSkip ∧
      w1 = HandleBreak_finish answer
        (emit (.didPause g ctx exc ids false u) { w with m_pausedContext := some ctx })) := by
  unfold HandleBreak_pause at h
  by_cases hns : answer = .RequestNoSkip
  · simp only [hns, if_true] at h
    split at h
    · cases h
    · rename_i v hd
      have hv := DCHECK_ok _ _ _ _ hd
      subst hv
      cases h
      exact Or.inl ⟨hns, rfl⟩
  · simp only [hns, if_false, Except.ok.injEq] at h
    exact Or.inr ⟨hns, h.symm⟩

theorem HandleBreak_cases (b : Build) (ctx : Context) (data : EventData)
    (answer : SkipPauseRequest) (w w1 : World)
    (h : HandleBreak b ctx data answer w = .ok w1) :
    w1 = w ∨
    (∃ g ids u, w.m_runningNestedMessageLoop = false ∧
      HandleBreak_pause b g ctx (WrapRuntimeException data) ids u answer w = .ok w1) := by
  unfold HandleBreak at h
  by_cases hrun : w.m_runningNestedMessageLoop = true
  · simp only [hrun, if_true, Except.ok.injEq] at h
    exact Or.inl h.symm
  · simp only [Bool.not_eq_true] at hrun
    simp only [hrun] at h
    cases hag : enabledDebuggerAgentForGroup w (getGroupId ctx) with
    | none =>
      simp only [hag, Bool.false_eq_true, if_false, Except.ok.injEq] at h
      exact Or.inl h.symm
    | some g =>
      simp only [hag, Bool.false_eq_true, if_false] at h
      cases hhb : data.hasBreakpointId with
      | error c =>
        simp only [hhb] at h
        exact Or.inl (assert_ok _ _ _ _ h)
      | ok hasBp =>
        simp only [hhb] at h
        cases hids : HandleBreak_breakpointIds b data hasBp w with
        | error c => simp [hids] at h
        | ok ids =>
          simp only [hids] at h
          cases hhu : data.hasUncaught with
          | error c =>
            simp only [hhu] at h
            exact Or.inl (assert_ok _ _ _ _ h)
          | ok hasUncaught =>
            simp only [hhu] at h
            exact Or.inr ⟨_, _, _, hrun, h⟩

theorem HandleBreak_flag (b : Build) (ctx : Context) (data : EventData)
    (answer : SkipPauseRequest) (w w1 : World)
    (h : HandleBreak b ctx data answer w = .ok w1) :
    w1.m_pauseOnNextStatement = w.m_pauseOnNextStatement := by
  rcases HandleBreak_cases b ctx data answer w w1 h with rfl | ⟨g, ids, u, _, hp⟩
  · rfl
  · rcases HandleBreak_pause_cases _ _ _ _ _ _ _ _ _ hp with ⟨_, rfl⟩ | ⟨_, rfl⟩
    · simp [emit]
    · simp [(HandleBreak_finish_fields _ _).2.2.1, emit]

theorem HandleBreak_invariant (b : Build) (ctx : Context) (data : EventData)
    (answer : SkipPauseRequest) (w w1 : World) (hinv : PauseSessionInvariant w)
    (h : HandleBreak b ctx data answer w = .ok w1) :
    PauseSessionInvariant w1 := by
  rcases HandleBreak_cases b ctx data answer w w1 h with rfl | ⟨g, ids, u, hrun, hp⟩
  · exact hinv
  · rcases HandleBreak_pause_cases _ _ _ _ _ _ _ _ _ hp with ⟨_, rfl⟩ | ⟨_, rfl⟩
    · intro _
      simp [emit]
    · intro hr
      rw [(HandleBreak_finish_fields _ _).2.1] at hr
      simp [emit, hrun] at hr

/-! ## Lemmas on single steps and runs -/

theorem DebugEventHandler_flag (b : Build) (ctx : Context) (e : JsDiagDebugEvent)
    (data : EventData) (answer : SkipPauseRequest) (w w1 : World)
    (hf : w.m_pauseOnNextStatement = false)
    (h : DebugEventHandler b ctx e data answer w = .ok w1) :
    w1.m_pauseOnNextStatement = false := by
  cases e <;> simp only [DebugEventHandler, HandleSourceEvents, hf, pure, Except.pure,
    Bool.false_eq_true, if_false] at h
  case SourceCompile => cases h; split <;> simp [emit, hf]
  case CompileError => cases h; split <;> simp [emit, hf]
  case AsyncBreak => cases h; exact hf
  case other => cases h; exact hf
  all_goals exact (HandleBreak_flag b ctx data answer w w1 h).trans hf

theorem step_keeps_disarmed (b : Build) (w w1 : World) (i : Input)
    (hf : w.m_pauseOnNextStatement = false) (hi : i ≠ .setPauseOnNextStatement true)
    (h : step b w i = .ok w1) : w1.m_pauseOnNextStatement = false := by
  cases i with
  | debugEvent ctx e data answer => exact DebugEventHandler_flag b ctx e data answer w w1 hf h
  | setPauseOnNextStatement p =>
    cases p
    · simp only [step, setPauseOnNextStatement, pure, Except.pure, Except.ok.injEq] at h
      subst h
      split <;> simp [hf]
    · exact absurd rfl hi
  | messageLoopReturns =>
    simp only [step, pure, Except.pure] at h
    split at h
    · cases h; exact hf
    · cases h
      rw [(HandleBreak_resume_fields _ _).2.2.1]
      exact hf
  | setBreakpoint _ _ _ | removeBreakpoint _ _ | markContext _ | setAsyncCallStackDepth _ _ =>
    exact (step_bookkeeping b w w1 _ (by rfl) h).2.2.1.trans hf
  | _ =>
    simp only [step, enable, disable, setBreakpointsActivated,
      continueProgram, stepIntoStatement, stepOverStatement, stepOutOfFunction, clearStepping,
      DCHECK, emit, pure, Except.pure, bind, Except.bind] at h
    (try split_ifs at h) <;> simp only [Except.ok.injEq, reduceCtorEq] at h <;> subst h <;>
      (try split_ifs) <;> simp [hf]

theorem run_keeps_disarmed (b : Build) (mid : List Input) :
    ∀ (w w2 : World), w.m_pauseOnNextStatement = false →
      (∀ i ∈ mid, i ≠ Input.setPauseOnNextStatement true) → run b w mid = .ok w2 →
      w2.m_pauseOnNextStatement = false := by
  induction mid with
  | nil =>
    intro w w2 hf _ h
    simp only [run, pure, Except.pure, Except.ok.injEq] at h
    exact h ▸ hf
  | cons i is ih =>
    intro w w2 hf hin h
    simp only [run] at h
    cases hs : step b w i with
    | error c => simp [hs] at h
    | ok w1 =>
      simp only [hs] at h
      exact ih w1 w2 (step_keeps_disarmed b w w1 i hf (hin i (by simp)) hs)
        (fun j hj => hin j (by simp [hj])) h

theorem continueProgram_fields (w : World) :
    (continueProgram w).m_pausedContext = none ∧
    (continueProgram w).m_runningNestedMessageLoop = w.m_runningNestedMessageLoop ∧
    (continueProgram w).m_pauseOnNextStatement = w.m_pauseOnNextStatement ∧
    (continueProgram w).suspended = w.suspended ∧
    (continueProgram w).agents = w.agents ∧
    (continueProgram w).trace = w.trace ++
      (if isPaused w = true then [Effect.quitMessageLoopOnPause] else []) := by
  unfold continueProgram
  split <;> simp [emit]

theorem stepIntoStatement_ok (b : Build) (w w1 : World)
    (h : step b w .stepIntoStatement = .ok w1) :
    w1 = continueProgram (emit (.JsDiagSetStepType .StepIn) w) := by
  simp only [step, stepIntoStatement, bind, Except.bind, pure, Except.pure] at h
  cases hd : DCHECK b (isPaused w) w with
  | error c => simp [hd] at h
  | ok v =>
    have hv := DCHECK_ok _ _ _ _ hd
    subst hv
    simp only [hd, Except.ok.injEq] at h
    exact h.symm

theorem stepOverStatement_ok (b : Build) (w w1 : World)
    (h : step b w .stepOverStatement = .ok w1) :
    w1 = continueProgram (emit (.JsDiagSetStepType .StepOver) w) := by
  simp only [step, stepOverStatement, bind, Except.bind, pure, Except.pure] at h
  cases hd : DCHECK b (isPaused w) w with
  | error c => simp [hd] at h
  | ok v =>
    have hv := DCHECK_ok _ _ _ _ hd
    subst hv
    simp only [hd, Except.ok.injEq] at h
    exact h.symm

theorem stepOutOfFunction_ok (b : Build) (w w1 : World)
    (h : step b w .stepOutOfFunction = .ok w1) :
    w1 = continueProgram (emit (.JsDiagSetStepType .StepOut) w) := by
  simp only [step, stepOutOfFunction, bind, Except.bind, pure, Except.pure] at h
  cases hd : DCHECK b (isPaused w) w with
  | error c => simp [hd] at h
  | ok v =>
    have hv := DCHECK_ok _ _ _ _ hd
    subst hv
    simp only [hd, Except.ok.injEq] at h
    exact h.symm

theorem step_preserves_invariant (b : Build) (w w1 : World) (i : Input)
    (hinv : PauseSessionInvariant w)
    (hi : i.isResume = true → w.m_runningNestedMessageLoop = false)
    (h : step b w i = .ok w1) : PauseSessionInvariant w1 := by
  cases i with
  | debugEvent ctx e data answer =>
    cases e <;> simp only [step, DebugEventHandler, HandleSourceEvents, pure, Except.pure] at h
    case SourceCompile => cases h; split <;> exact hinv
    case CompileError => cases h; split <;> exact hinv
    case other => cases h; exact hinv
    case AsyncBreak =>
      split at h
      · have hinv0 : PauseSessionInvariant { w with m_pauseOnNextStatement := false } := hinv
        exact HandleBreak_invariant b ctx data answer _ w1 hinv0 h
      · cases h; exact hinv
    all_goals exact HandleBreak_invariant b ctx data answer w w1 hinv h
  | messageLoopReturns =>
    simp only [step, pure, Except.pure] at h
    split at h
    · cases h; exact hinv
    · cases h
      intro hr
      rw [(HandleBreak_resume_fields _ _).2.1] at hr
      cases hr
  | continueProgram =>
    simp only [step, pure, Except.pure, Except.ok.injEq] at h
    subst h
    intro hr1
    rw [(continueProgram_fields w).2.1, hi rfl] at hr1
    cases hr1
  | stepIntoStatement =>
    have h2 := stepIntoStatement_ok b w w1 h
    subst h2
    intro hr1
    rw [(continueProgram_fields _).2.1] at hr1
    simp [emit, hi rfl] at hr1
  | stepOverStatement =>
    have h2 := stepOverStatement_ok b w w1 h
    subst h2
    intro hr1
    rw [(continueProgram_fields _).2.1] at hr1
    simp [emit, hi rfl] at hr1
  | stepOutOfFunction =>
    have h2 := stepOutOfFunction_ok b w w1 h
    subst h2
    intro hr1
    rw [(continueProgram_fields _).2.1] at hr1
    simp [emit, hi rfl] at hr1
  | setBreakpoint _ _ _ | removeBreakpoint _ _ | markContext _ | setAsyncCallStackDepth _ _ =>
    obtain ⟨k1, k2, _⟩ := step_bookkeeping b w w1 _ (by rfl) h
    intro hr hnone
    exact hinv (k1 ▸ hr) (k2.1 hnone)
  | _ =>
    simp only [step, enable, disable, setBreakpointsActivated, setPauseOnNextStatement,
      clearStepping, DCHECK, emit, pure, Except.pure, bind, Except.bind] at h
    (try split_ifs at h) <;> simp only [Except.ok.injEq, reduceCtorEq] at h <;> subst h <;>
      exact hinv

theorem run_preserves_invariant (b : Build) (inputs : List Input) :
    ∀ (w0 w : World), PauseSessionInvariant w0 → run b w0 inputs = .ok w →
      (∀ pre i post wp, inputs = pre ++ i :: post → i.isResume = true →
        run b w0 pre = .ok wp → wp.m_runningNestedMessageLoop = false) →
      PauseSessionInvariant w := by
  induction inputs with
  | nil =>
    intro w0 w hinv h _
    simp only [run, pure, Except.pure, Except.ok.injEq] at h
    exact h ▸ hinv
  | cons i is ih =>
    intro w0 w hinv h hres
    simp only [run] at h
    cases hs : step b w0 i with
    | error c => simp [hs] at h
    | ok w1 =>
      simp only [hs] at h
      have h1 : PauseSessionInvariant w1 :=
        step_preserves_invariant b w0 w1 i hinv
          (fun hr => hres [] i is w0 rfl hr rfl) hs
      refine ih w1 w h1 h ?_
      intro pre j post wp hsplit hj hpre
      refine hres (i :: pre) j post wp (by simp [hsplit]) hj ?_
      simp only [run, hs]
      exact hpre

theorem step_messageLoopReturns (b : Build) (w : World) (frame : HandleBreakFrame)
    (rest : List HandleBreakFrame) (h : w.suspended = frame :: rest) :
    step b w .messageLoopReturns = .ok (HandleBreak_resume frame { w with suspended := rest }) := by
  simp [step, h, pure, Except.pure]

theorem examplePaused_reached :
    run debugBuild exampleRunning [exampleBreak .RequestNoSkip] = .ok examplePaused := by
  decide

/-! ## C1: no re-entrant pause -/

/-- C1. A break-type native event (Breakpoint, StepComplete, DebuggerStatement,
RuntimeException or AsyncBreak, armed or not) delivered while the nested message
loop is active is handled without failure and leaves `m_pausedContext`,
`m_runningNestedMessageLoop` and the waiting `HandleBreak` activations as they
were; the trace is unchanged, so neither `didPause`, `didContinue` nor
`runMessageLoopOnPause` is called. -/
theorem C1_no_reentrant_pause (b : Build) (ctx : Context) (e : JsDiagDebugEvent)
    (data : EventData) (answer : SkipPauseRequest) (w : World)
    (hloop : w.m_runningNestedMessageLoop = true) (he : e.isBreak = true) :
    ∃ w1, DebugEventHandler b ctx e data answer w = .ok w1 ∧
      w1.m_pausedContext = w.m_pausedContext ∧
      w1.m_runningNestedMessageLoop = w.m_runningNestedMessageLoop ∧
      w1.suspended = w.suspended ∧
      w1.trace = w.trace := by
  refine ⟨breakEntry e w, DebugEventHandler_nested b ctx e data answer w hloop he, ?_⟩
  obtain ⟨h1, h2, _, h4, h5⟩ := breakEntry_fields e w
  exact ⟨h2, h1, h4, h5⟩

/-- C1 at a concrete input: a second breakpoint hit while `examplePaused` sits
in the nested loop. -/
theorem C1_no_reentrant_pause_witness :
    examplePaused.m_runningNestedMessageLoop = true ∧
    ∃ w1, DebugEventHandler debugBuild exampleContext .Breakpoint examplePayload
        .RequestNoSkip examplePaused = .ok w1 ∧
      w1.m_pausedContext = examplePaused.m_pausedContext ∧
      w1.m_runningNestedMessageLoop = examplePaused.m_runningNestedMessageLoop ∧
      w1.suspended = examplePaused.suspended ∧
      w1.trace = examplePaused.trace :=
  ⟨by decide, C1_no_reentrant_pause debugBuild exampleContext .Breakpoint examplePayload
    .RequestNoSkip examplePaused (by decide) (by decide)⟩

/-! ## C2: the PauseSession invariant -/

theorem HandleBreak_waiting (b : Build) (ctx : Context) (data : EventData)
    (answer : SkipPauseRequest) (w w1 : World)
    (hw : w.m_runningNestedMessageLoop = true → w.suspended ≠ [])
    (h : HandleBreak b ctx data answer w = .ok w1) :
    w1.m_runningNestedMessageLoop = true → w1.suspended ≠ [] := by
  rcases HandleBreak_cases b ctx data answer w w1 h with rfl | ⟨g, ids, u, hrun, hp⟩
  · exact hw
  · rcases HandleBreak_pause_cases _ _ _ _ _ _ _ _ _ hp with ⟨_, rfl⟩ | ⟨_, rfl⟩
    · intro _
      simp
    · intro hr
      rw [(HandleBreak_finish_fields _ _).2.1] at hr
      simp [emit, hrun] at hr

theorem remarked_ne_nil (handle : Nat) (debugData : String16) (l : List HandleBreakFrame)
    (h : l ≠ []) : remarked handle debugData l ≠ [] := by
  cases l with
  | nil => exact absurd rfl h
  | cons f rest => simp [remarked]

theorem step_keeps_waiting (b : Build) (w w1 : World) (i : Input)
    (hw : w.m_runningNestedMessageLoop = true → w.suspended ≠ [])
    (h : step b w i = .ok w1) :
    w1.m_runningNestedMessageLoop = true → w1.suspended ≠ [] := by
  cases i with
  | debugEvent ctx e data answer =>
    cases e <;> simp only [step, DebugEventHandler, HandleSourceEvents, pure, Except.pure] at h
    case SourceCompile => cases h; split <;> exact hw
    case CompileError => cases h; split <;> exact hw
    case other => cases h; exact hw
    case AsyncBreak =>
      split at h
      · have hw0 : ({ w with m_pauseOnNextStatement := false } : World).m_runningNestedMessageLoop
            = true → ({ w with m_pauseOnNextStatement := false } : World).suspended ≠ [] := hw
        exact HandleBreak_waiting b ctx data answer _ w1 hw0 h
      · cases h; exact hw
    all_goals exact HandleBreak_waiting b ctx data answer w w1 hw h
  | messageLoopReturns =>
    simp only [step, pure, Except.pure] at h
    split at h
    · cases h; exact hw
    · cases h
      intro hr
      rw [(HandleBreak_resume_fields _ _).2.1] at hr
      cases hr
  | continueProgram =>
    simp only [step, pure, Except.pure, Except.ok.injEq] at h
    subst h
    rw [(continueProgram_fields w).2.1, (continueProgram_fields w).2.2.2.1]
    exact hw
  | stepIntoStatement =>
    have h2 := stepIntoStatement_ok b w w1 h
    subst h2
    rw [(continueProgram_fields _).2.1, (continueProgram_fields _).2.2.2.1]
    exact hw
  | stepOverStatement =>
    have h2 := stepOverStatement_ok b w w1 h
    subst h2
    rw [(continueProgram_fields _).2.1, (continueProgram_fields _).2.2.2.1]
    exact hw
  | stepOutOfFunction =>
    have h2 := stepOutOfFunction_ok b w w1 h
    subst h2
    rw [(continueProgram_fields _).2.1, (continueProgram_fields _).2.2.2.1]
    exact hw
  | setBreakpoint _ _ _ | removeBreakpoint _ _ | markContext _ | setAsyncCallStackDepth _ _ =>
    obtain ⟨k1, _, _, k4, _⟩ := step_bookkeeping b w w1 _ (by rfl) h
    intro hr
    rcases k4 with k4 | ⟨info, _, k4⟩
    · rw [k4]
      exact hw (k1 ▸ hr)
    · rw [k4]
      exact remarked_ne_nil _ _ _ (hw (k1 ▸ hr))
  | _ =>
    simp only [step, enable, disable, setBreakpointsActivated, setPauseOnNextStatement,
      clearStepping, DCHECK, emit, pure, Except.pure, bind, Except.bind] at h
    (try split_ifs at h) <;> simp only [Except.ok.injEq, reduceCtorEq] at h <;> subst h <;>
      exact hw

theorem run_restores_invariant (b : Build) (inputs : List Input) :
    ∀ (w0 w : World),
      (PauseSessionInvariant w0 ∨ Input.messageLoopReturns ∈ inputs) →
      (w0.m_runningNestedMessageLoop = true → w0.suspended ≠ []) →
      run b w0 inputs = .ok w →
      (∀ pre i post wp, inputs = pre ++ i :: post → i.isResume = true →
        run b w0 pre = .ok wp → wp.m_runningNestedMessageLoop = true →
        Input.messageLoopReturns ∈ post) →
      PauseSessionInvariant w := by
  induction inputs with
  | nil =>
    intro w0 w hp _ h _
    simp only [run, pure, Except.pure, Except.ok.injEq] at h
    subst h
    rcases hp with hp | hp
    · exact hp
    · cases hp
  | cons i rest ih =>
    intro w0 w hp hw h hres
    simp only [run] at h
    cases hs : step b w0 i with
    | error c => simp [hs] at h
    | ok w1 =>
      simp only [hs] at h
      have hw1 := step_keeps_waiting b w0 w1 i hw hs
      have hres1 : ∀ pre j post wp, rest = pre ++ j :: post → j.isResume = true →
          run b w1 pre = .ok wp → wp.m_runningNestedMessageLoop = true →
          Input.messageLoopReturns ∈ post := by
        intro pre j post wp hsplit hj hpre hflag
        refine hres (i :: pre) j post wp (by simp [hsplit]) hj ?_ hflag
        simp only [run, hs]
        exact hpre
      refine ih w1 w ?_ hw1 h hres1
      by_cases hm : i = Input.messageLoopReturns
      · subst hm
        left
        simp only [step, pure, Except.pure] at hs
        split at hs
        · rename_i hnil
          cases hs
          intro hr
          exact absurd hnil (hw hr)
        · cases hs
          intro hr
          rw [(HandleBreak_resume_fields _ _).2.1] at hr
          cases hr
      · by_cases hr : i.isResume = true
        · by_cases hf : w0.m_runningNestedMessageLoop = true
          · exact Or.inr (hres [] i rest w0 rfl hr rfl hf)
          · have hf2 : w0.m_runningNestedMessageLoop = false := by
              simpa using hf
            exact Or.inl (step_preserves_invariant b w0 w1 i
              (fun a => absurd a hf) (fun _ => hf2) hs)
        · rcases hp with hp | hp
          · exact Or.inl (step_preserves_invariant b w0 w1 i hp (fun a => absurd a hr) hs)
          · rcases List.mem_cons.1 hp with hp | hp
            · exact absurd hp.symm hm
            · exact Or.inr hp

/-- C2 as stated fails.  From a fresh debugger: `enable`, a breakpoint hit that
the agent answers with `RequestNoSkip`, then `continueProgram` from inside the
nested loop.  The hook has not returned, so `m_runningNestedMessageLoop` is
still true, but `continueProgram` has already cleared `m_pausedContext`. -/
theorem C2_counterexample :
    ∃ w, run debugBuild (World.fresh [1] true)
        [.enable, exampleBreak .RequestNoSkip, .continueProgram] = .ok w ∧
      w.m_runningNestedMessageLoop = true ∧ w.m_pausedContext = none :=
  ⟨_, rfl, rfl, rfl⟩

/-- C2, amended.  In every state reached from a fresh debugger an active nested
loop implies a non-empty `m_pausedContext`, except between a resume command
(`continueProgram`, `stepIntoStatement`, `stepOverStatement` or
`stepOutOfFunction`) issued inside the loop and the return of the hook: the
implication holds whenever every resume command issued inside a loop has been
followed by a return of the hook.  More generally, from any state in which the
implication holds it holds after every sequence of inputs in which the resume
commands are issued outside the loop.  Issued inside the loop,
`continueProgram` (with which the three stepping commands end) empties
`m_pausedContext` and leaves `m_runningNestedMessageLoop` true. -/
theorem C2_pause_session_invariant (b : Build) (inputs : List Input) :
    (∀ (agents : List Int) (inContext : Bool) (w : World),
      run b (World.fresh agents inContext) inputs = .ok w →
      (∀ pre i post wp, inputs = pre ++ i :: post → i.isResume = true →
        run b (World.fresh agents inContext) pre = .ok wp →
        wp.m_runningNestedMessageLoop = true → Input.messageLoopReturns ∈ post) →
      (w.m_runningNestedMessageLoop = true → w.m_pausedContext ≠ none)) ∧
    (∀ (w0 w : World),
      (w0.m_runningNestedMessageLoop = true → w0.m_pausedContext ≠ none) →
      run b w0 inputs = .ok w →
      (∀ pre i post wp, inputs = pre ++ i :: post → i.isResume = true →
        run b w0 pre = .ok wp → wp.m_runningNestedMessageLoop = false) →
      (w.m_runningNestedMessageLoop = true → w.m_pausedContext ≠ none)) ∧
    ∀ v : World, v.m_runningNestedMessageLoop = true →
      (continueProgram v).m_runningNestedMessageLoop = true ∧
      (continueProgram v).m_pausedContext = none := by
  refine ⟨?_, ?_, ?_⟩
  · intro agents inContext w hrun hres
    refine run_restores_invariant b inputs (World.fresh agents inContext) w
      (Or.inl ?_) ?_ hrun hres
    · intro h
      cases h
    · intro h
      cases h
  · intro w0 w h0 hrun hres
    exact run_preserves_invariant b inputs w0 w h0 hrun hres
  · intro v hv
    exact ⟨(continueProgram_fields v).2.1.trans hv, (continueProgram_fields v).1⟩

/-- C2, amended, at a concrete run: the ordinary session `exampleSession`, in
which `continueProgram` is issued inside the first nested loop and the hook
returns before the second breakpoint hit; in the second pause the nested loop
is active and `m_pausedContext` is set. -/
theorem C2_pause_session_invariant_witness :
    run debugBuild (World.fresh [1] true) exampleSession = .ok exampleSecondPause ∧
    exampleSecondPause.m_runningNestedMessageLoop = true ∧
    exampleSecondPause.m_pausedContext ≠ none :=
  ⟨by decide, by decide,
    (C2_pause_session_invariant debugBuild exampleSession).1 [1] true exampleSecondPause
      (by decide)
      (by
        intro pre i post wp hsplit hi hpre hflag
        simp only [exampleSession] at hsplit
        rcases pre with _ | ⟨p1, _ | ⟨p2, _ | ⟨p3, _ | ⟨p4, _ | ⟨p5, pre⟩⟩⟩⟩⟩
        · simp only [List.nil_append, List.cons.injEq] at hsplit
          rw [← hsplit.1] at hi
          exact absurd hi (by decide)
        · simp only [List.cons_append, List.nil_append, List.cons.injEq] at hsplit
          rw [← hsplit.2.1] at hi
          exact absurd hi (by decide)
        · simp only [List.cons_append, List.nil_append, List.cons.injEq] at hsplit
          rw [← hsplit.2.2.2]
          decide
        · simp only [List.cons_append, List.nil_append, List.cons.injEq] at hsplit
          rw [← hsplit.2.2.2.1] at hi
          exact absurd hi (by decide)
        · simp only [List.cons_append, List.nil_append, List.cons.injEq] at hsplit
          rw [← hsplit.2.2.2.2.1] at hi
          exact absurd hi (by decide)
        · simp at hsplit)
      (by decide)⟩

/-! ## C3: the pause and resume trace -/

theorem run_append (b : Build) (xs ys : List Input) :
    ∀ (w w2 : World), run b w (xs ++ ys) = .ok w2 →
      ∃ wm, run b w xs = .ok wm ∧ run b wm ys = .ok w2 := by
  induction xs with
  | nil =>
    intro w w2 h
    exact ⟨w, rfl, h⟩
  | cons i rest ih =>
    intro w w2 h
    simp only [List.cons_append, run] at h ⊢
    cases hs : step b w i with
    | error c => simp [hs] at h
    | ok w1 =>
      simp only [hs] at h ⊢
      exact ih w1 w2 h

/-- C3 as stated fails.  A breakpoint hit in `exampleContext` (group 1) pauses;
inside the nested loop `markContext` marks the paused context again, for group
2, which has no agent; the hook returns.  The agent of group 1 is still
registered, but after the loop the handler looks up the group the context now
carries and calls no `didContinue`: the only calls of the pause protocol are
`didPause` and `runMessageLoopOnPause`. -/
theorem C3_counterexample :
    ∃ w3, run debugBuild exampleRunning
        [exampleBreak .RequestNoSkip, .markContext exampleRemark, .messageLoopReturns] = .ok w3 ∧
      getGroupId exampleContext = 1 ∧
      enabledDebuggerAgentForGroup w3 1 = some 1 ∧
      w3.trace.filter Effect.isPauseProtocol =
        [Effect.didPause 1 exampleContext 0 [['7']] false false,
         Effect.runMessageLoopOnPause 1] :=
  ⟨_, rfl, by decide, by decide, by decide⟩

/-- C3, amended. A break event that reaches `HandleBreak` while no nested loop is
active, in a context whose group `g` has an enabled agent, with a payload whose
`breakpointId` is `bp` and whose `uncaught` is `unc`: `didPause` is called once,
with the breakpoint ids `[fromInteger n]` for `bp = some n` and `[]` for
`bp = none`, and with `isUncaught = u` for `unc = some u` and `false` for
`unc = none`.  When the agent answers `RequestNoSkip` the next call is
`runMessageLoopOnPause g`; nothing that is handled inside the loop calls
`didPause`, `didContinue` or `runMessageLoopOnPause`; and when the hook returns
`didContinue` is called once if an agent is then enabled for the group the
paused context then carries and not at all otherwise, and nothing else is
called.  The paused context carries the marker it had, so the group is `g`,
when `markContext` was not called on it inside the loop; after such a call it
carries the group of the latest one. -/
theorem C3_pause_resume_trace (b : Build) (ctx : Context) (e : JsDiagDebugEvent) (ref : Nat)
    (bp : Option Int) (unc : Option Bool) (exc : Nat) (answer : SkipPauseRequest)
    (w : World) (g : Int)
    (hrun : w.m_runningNestedMessageLoop = false)
    (he : takesBreakPath e w = true)
    (hag : enabledDebuggerAgentForGroup w (getGroupId ctx) = some g) :
    ∃ w1, DebugEventHandler b ctx e (EventData.wellFormed ref bp unc exc) answer w = .ok w1 ∧
      g = getGroupId ctx ∧
      w1.trace = w.trace ++
        Effect.didPause g ctx exc (bp.map String16.fromInteger).toList false (unc.getD false) ::
          (match answer with
            | .RequestNoSkip => [Effect.runMessageLoopOnPause g]
            | .RequestStepInto => [Effect.JsDiagSetStepType .StepIn]
            | .RequestStepOut => [Effect.JsDiagSetStepType .StepOut]
            | .RequestStepFrame => [Effect.JsDiagSetStepType .StepIn]) ∧
      (answer = .RequestNoSkip →
        ∀ (inner : List Input) (w2 : World),
          (∀ i ∈ inner, i ≠ Input.messageLoopReturns) → run b w1 inner = .ok w2 →
          w2.trace = w1.trace ++ newEffects w1 w2 ∧
          (∀ x ∈ newEffects w1 w2, x.isPauseProtocol = false) ∧
          ∃ ctx2 rest2 w3, w2.suspended = ⟨ctx2, .RequestNoSkip⟩ :: rest2 ∧
            ctx2.handle = ctx.handle ∧
            ((∀ i ∈ inner, marksContext ctx.handle i = false) → ctx2 = ctx) ∧
            (∀ pre info post, inner = pre ++ Input.markContext info :: post →
              info.context.handle = ctx.handle →
              (∀ i ∈ post, marksContext ctx.handle i = false) →
              -2147483648 ≤ info.contextGroupId → info.contextGroupId < 2147483648 →
              getGroupId ctx2 = info.contextGroupId) ∧
            step b w2 .messageLoopReturns = .ok w3 ∧
            w3.trace = w2.trace ++
              (if (enabledDebuggerAgentForGroup w2 (getGroupId ctx2)).isSome
                then [Effect.didContinue (getGroupId ctx2)] else [])) := by
  obtain ⟨h1, h2, h3, h4, h5⟩ := breakEntry_fields e w
  have hag0 : enabledDebuggerAgentForGroup (breakEntry e w) (getGroupId ctx) = some g :=
    (agent_of_world_eq w (breakEntry e w) _ h3).trans hag
  have hw1 := HandleBreak_wellFormed b ctx ref bp unc exc answer (breakEntry e w) g
    (h1.trans hrun) hag0
  rw [← DebugEventHandler_breakPath b ctx e _ answer w he] at hw1
  obtain ⟨hg, _⟩ := agent_eq_group w _ g hag
  refine ⟨_, hw1, hg, ?_, ?_⟩
  · cases answer <;>
      simp [afterDidPause, emit, h5, (HandleBreak_finish_fields _ _).2.2.2.2.2]
  · intro hns inner w2 hin hrun2
    subst hns
    simp only [if_true] at hrun2 ⊢
    obtain ⟨_, _, a3, _, _⟩ := afterDidPause_fields g ctx bp unc exc (breakEntry e w)
    obtain ⟨q1, q2, q3, q4⟩ := run_inLoop b inner _ w2 (by simp [emit]) hin hrun2
    obtain ⟨f2, rest2, hs2, hres2, hh2⟩ := activation_head _ _ ⟨ctx, .RequestNoSkip⟩ w.suspended
      (by simp [emit, h4, a3]) q2
    obtain ⟨ctx2, res2⟩ := f2
    simp only at hres2 hh2
    subst hres2
    refine ⟨q3, q4, ctx2, rest2, _, hs2, hh2, ?_, ?_,
      step_messageLoopReturns b w2 ⟨ctx2, .RequestNoSkip⟩ rest2 hs2, ?_⟩
    · intro hun
      obtain ⟨rest3, hs3⟩ := run_inLoop_unmarked b inner _ w2 ⟨ctx, .RequestNoSkip⟩ w.suspended
        (by simp [emit]) hin hrun2 (by simp [emit, h4, a3]) hun
      rw [hs2] at hs3
      simp only [List.cons.injEq, HandleBreakFrame.mk.injEq] at hs3
      exact hs3.1.1
    · intro pre info post hsplit hmark hpost hlo hhi
      subst hsplit
      obtain ⟨wa, hra, hrb⟩ := run_append b pre _ _ w2 hrun2
      simp only [run] at hrb
      cases hst : step b wa (.markContext info) with
      | error c => simp [hst] at hrb
      | ok wb =>
        simp only [hst] at hrb
        have hinpre : ∀ i ∈ pre, i ≠ Input.messageLoopReturns :=
          fun i hi => hin i (by simp [hi])
        have hinpost : ∀ i ∈ post, i ≠ Input.messageLoopReturns :=
          fun i hi => hin i (by simp [hi])
        obtain ⟨a1, a2, _, _⟩ := run_inLoop b pre _ wa (by simp [emit]) hinpre hra
        obtain ⟨fa, resta, hsa, hresa, hha⟩ :=
          activation_head _ _ ⟨ctx, .RequestNoSkip⟩ w.suspended (by simp [emit, h4, a3]) a2
        simp only at hresa hha
        obtain ⟨f1, rest1, hsb, hresb, hhb, hgb⟩ := step_markContext_head b wa wb info hst
          fa resta hsa (hmark.trans hha.symm) hlo hhi
        have hloopb := (step_inLoop b wa wb _ a1 (by simp) hst).1
        obtain ⟨rest3, hs3⟩ := run_inLoop_unmarked b post wb w2 f1 rest1 hloopb hinpost hrb hsb
          (by rw [hhb, hha]; exact hpost)
        rw [hs2] at hs3
        simp only [List.cons.injEq] at hs3
        rw [← hgb, ← hs3.1]
    · rw [(HandleBreak_resume_fields _ _).2.2.2.2.2]
      have : enabledDebuggerAgentForGroup { w2 with suspended := rest2 } (getGroupId ctx2)
          = enabledDebuggerAgentForGroup w2 (getGroupId ctx2) :=
        agent_of_world_eq w2 _ _ rfl
      simp only [this]
      cases hx : enabledDebuggerAgentForGroup w2 (getGroupId ctx2) with
      | none => simp
      | some a =>
        obtain ⟨ha, _⟩ := agent_eq_group w2 _ a hx
        simp [ha]

/-- C3, amended, at a concrete input: breakpoint 7 hit in `exampleContext`
(group 1), answered with `RequestNoSkip`. -/
theorem C3_pause_resume_trace_witness :
    exampleRunning.m_runningNestedMessageLoop = false ∧
    takesBreakPath .Breakpoint exampleRunning = true ∧
    enabledDebuggerAgentForGroup exampleRunning (getGroupId exampleContext) = some 1 ∧
    ∃ w1, DebugEventHandler debugBuild exampleContext .Breakpoint
        (EventData.wellFormed 0 (some 7) (some false) 0) .RequestNoSkip exampleRunning = .ok w1 ∧
      (1 : Int) = getGroupId exampleContext ∧
      w1.trace = exampleRunning.trace ++
        Effect.didPause 1 exampleContext 0 ((some (7 : Int)).map String16.fromInteger).toList
            false ((some false).getD false) ::
          (match SkipPauseRequest.RequestNoSkip with
            | .RequestNoSkip => [Effect.runMessageLoopOnPause 1]
            | .RequestStepInto => [Effect.JsDiagSetStepType .StepIn]
            | .RequestStepOut => [Effect.JsDiagSetStepType .StepOut]
            | .RequestStepFrame => [Effect.JsDiagSetStepType .StepIn]) ∧
      (SkipPauseRequest.RequestNoSkip = .RequestNoSkip →
        ∀ (inner : List Input) (w2 : World),
          (∀ i ∈ inner, i ≠ Input.messageLoopReturns) → run debugBuild w1 inner = .ok w2 →
          w2.trace = w1.trace ++ newEffects w1 w2 ∧
          (∀ x ∈ newEffects w1 w2, x.isPauseProtocol = false) ∧
          ∃ ctx2 rest2 w3, w2.suspended = ⟨ctx2, .RequestNoSkip⟩ :: rest2 ∧
            ctx2.handle = exampleContext.handle ∧
            ((∀ i ∈ inner, marksContext exampleContext.handle i = false) →
              ctx2 = exampleContext) ∧
            (∀ pre info post, inner = pre ++ Input.markContext info :: post →
              info.context.handle = exampleContext.handle →
              (∀ i ∈ post, marksContext exampleContext.handle i = false) →
              -2147483648 ≤ info.contextGroupId → info.contextGroupId < 2147483648 →
              getGroupId ctx2 = info.contextGroupId) ∧
            step debugBuild w2 .messageLoopReturns = .ok w3 ∧
            w3.trace = w2.trace ++
              (if (enabledDebuggerAgentForGroup w2 (getGroupId ctx2)).isSome
                then [Effect.didContinue (getGroupId ctx2)] else [])) :=
  ⟨by decide, by decide, by decide,
    C3_pause_resume_trace debugBuild exampleContext .Breakpoint 0 (some 7) (some false) 0
      .RequestNoSkip exampleRunning 1 (by decide) (by decide) (by decide)⟩

/-! ## C4: a break with no listener -/

/-- C4. A break event in a context whose group has no enabled agent: `HandleBreak`
returns the world it was given, and `DebugEventHandler` returns without any
call to a collaborator (no `didPause`, `didContinue`, `runMessageLoopOnPause`
or `JsDiagSetStepType`), with `m_pausedContext`, `m_runningNestedMessageLoop`
and the waiting activations unchanged. -/
theorem C4_break_without_listener (b : Build) (ctx : Context) (e : JsDiagDebugEvent)
    (data : EventData) (answer : SkipPauseRequest) (w : World)
    (hag : enabledDebuggerAgentForGroup w (getGroupId ctx) = none)
    (he : e.isBreak = true) :
    HandleBreak b ctx data answer w = .ok w ∧
    ∃ w1, DebugEventHandler b ctx e data answer w = .ok w1 ∧
      w1.trace = w.trace ∧
      w1.m_pausedContext = w.m_pausedContext ∧
      w1.m_runningNestedMessageLoop = w.m_runningNestedMessageLoop ∧
      w1.suspended = w.suspended := by
  refine ⟨HandleBreak_noAgent b ctx data answer w hag, ?_⟩
  obtain ⟨h1, h2, h3, h4, h5⟩ := breakEntry_fields e w
  by_cases hb : takesBreakPath e w = true
  · refine ⟨breakEntry e w, ?_, h5, h2, h1, h4⟩
    rw [DebugEventHandler_breakPath b ctx e data answer w hb]
    exact HandleBreak_noAgent b ctx data answer _
      ((agent_of_world_eq w (breakEntry e w) _ h3).trans hag)
  · refine ⟨w, ?_, rfl, rfl, rfl, rfl⟩
    cases e <;> simp [JsDiagDebugEvent.isBreak] at he <;> simp [takesBreakPath] at hb
    exact DebugEventHandler_unarmed b ctx data answer w hb

/-- C4 at a concrete input: a breakpoint hit in `exampleContext` (group 1) when
no agent is registered. -/
theorem C4_break_without_listener_witness :
    enabledDebuggerAgentForGroup (World.fresh [] true) (getGroupId exampleContext) = none ∧
    JsDiagDebugEvent.isBreak .Breakpoint = true ∧
    (HandleBreak debugBuild exampleContext examplePayload .RequestNoSkip (World.fresh [] true)
        = .ok (World.fresh [] true) ∧
      ∃ w1, DebugEventHandler debugBuild exampleContext .Breakpoint examplePayload
          .RequestNoSkip (World.fresh [] true) = .ok w1 ∧
        w1.trace = (World.fresh [] true).trace ∧
        w1.m_pausedContext = (World.fresh [] true).m_pausedContext ∧
        w1.m_runningNestedMessageLoop = (World.fresh [] true).m_runningNestedMessageLoop ∧
        w1.suspended = (World.fresh [] true).suspended) :=
  ⟨by decide, by decide,
    C4_break_without_listener debugBuild exampleContext .Breakpoint examplePayload
      .RequestNoSkip (World.fresh [] true) (by decide) (by decide)⟩

/-! ## C5: no resume notification when the pause is skipped -/

/-- C5 as stated fails.  A breakpoint hit in group 1, whose agent stays
registered and answers `RequestStepInto`: the handler calls `didPause` and
`JsDiagSetStepType(StepIn)` and nothing else, so `didContinue` (onResume) is
not called. -/
theorem C5_counterexample :
    ∃ w1, step debugBuild exampleRunning (exampleBreak .RequestStepInto) = .ok w1 ∧
      enabledDebuggerAgentForGroup w1 (getGroupId exampleContext) = some 1 ∧
      newEffects exampleRunning w1 =
        [Effect.didPause 1 exampleContext 0 [['7']] false false,
         Effect.JsDiagSetStepType .StepIn] :=
  ⟨_, rfl, by decide, by decide⟩

/-- C5, amended.  When `didPause` returns a decision other than `RequestNoSkip`
the handler returns without calling `runMessageLoopOnPause` and without
calling `didContinue`, whether or not the agent is still registered: no
activation is left waiting, the nested-loop flag stays false, and the calls
made are `didPause` followed by the step command only. -/
theorem C5_skip_without_resume (b : Build) (ctx : Context) (e : JsDiagDebugEvent) (ref : Nat)
    (bp : Option Int) (unc : Option Bool) (exc : Nat) (answer : SkipPauseRequest)
    (w : World) (g : Int)
    (hrun : w.m_runningNestedMessageLoop = false)
    (he : takesBreakPath e w = true)
    (hag : enabledDebuggerAgentForGroup w (getGroupId ctx) = some g)
    (hskip : answer ≠ .RequestNoSkip) :
    ∃ w1, DebugEventHandler b ctx e (EventData.wellFormed ref bp unc exc) answer w = .ok w1 ∧
      w1.suspended = w.suspended ∧
      w1.m_runningNestedMessageLoop = false ∧
      w1.trace = w.trace ++ newEffects w w1 ∧
      (∀ x ∈ newEffects w w1, ∀ a : Int,
        x ≠ Effect.didContinue a ∧ x ≠ Effect.runMessageLoopOnPause a) ∧
      enabledDebuggerAgentForGroup w1 (getGroupId ctx) = some g := by
  obtain ⟨h1, h2, h3, h4, h5⟩ := breakEntry_fields e w
  have hag0 : enabledDebuggerAgentForGroup (breakEntry e w) (getGroupId ctx) = some g :=
    (agent_of_world_eq w (breakEntry e w) _ h3).trans hag
  have hw1 := HandleBreak_wellFormed b ctx ref bp unc exc answer (breakEntry e w) g
    (h1.trans hrun) hag0
  rw [← DebugEventHandler_breakPath b ctx e _ answer w he] at hw1
  simp only [hskip, if_false] at hw1
  obtain ⟨f1, f2, f3, f4, f5, f6⟩ :=
    HandleBreak_finish_fields answer (afterDidPause g ctx bp unc exc (breakEntry e w))
  obtain ⟨a1, a2, a3, a4, a5⟩ := afterDidPause_fields g ctx bp unc exc (breakEntry e w)
  rw [a1] at f2
  rw [a3] at f4
  rw [a4] at f5
  rw [a5, h5] at f6
  refine ⟨_, hw1, f4.trans h4, f2.trans (h1.trans hrun), ?_, ?_, ?_⟩
  · rw [newEffects, f6]; simp
  · intro x hx a
    rw [newEffects, f6] at hx
    simp only [List.append_assoc, List.drop_left] at hx
    cases answer <;> simp at hx <;> rcases hx with rfl | rfl <;> simp
  · rw [agent_of_world_eq w _ _ (f5.trans h3)]
    exact hag

/-- C5, amended, at a concrete input: the breakpoint hit in `exampleContext`
answered with `RequestStepOut`. -/
theorem C5_skip_without_resume_witness :
    exampleRunning.m_runningNestedMessageLoop = false ∧
    takesBreakPath .Breakpoint exampleRunning = true ∧
    enabledDebuggerAgentForGroup exampleRunning (getGroupId exampleContext) = some 1 ∧
    SkipPauseRequest.RequestStepOut ≠ .RequestNoSkip ∧
    ∃ w1, DebugEventHandler debugBuild exampleContext .Breakpoint
        (EventData.wellFormed 0 (some 7) (some false) 0) .RequestStepOut exampleRunning = .ok w1 ∧
      w1.suspended = exampleRunning.suspended ∧
      w1.m_runningNestedMessageLoop = false ∧
      w1.trace = exampleRunning.trace ++ newEffects exampleRunning w1 ∧
      (∀ x ∈ newEffects exampleRunning w1, ∀ a : Int,
        x ≠ Effect.didContinue a ∧ x ≠ Effect.runMessageLoopOnPause a) ∧
      enabledDebuggerAgentForGroup w1 (getGroupId exampleContext) = some 1 :=
  ⟨by decide, by decide, by decide, by decide,
    C5_skip_without_resume debugBuild exampleContext .Breakpoint 0 (some 7) (some false) 0
      .RequestStepOut exampleRunning 1 (by decide) (by decide) (by decide) (by decide)⟩

/-! ## C6: from the pause back to running -/

/-- C6 as stated fails.  A breakpoint hit answered with `RequestStepFrame` (the
spec's StepOverToFrame): the only step command issued is
`JsDiagSetStepType(StepIn)`, not `StepOver`. -/
theorem C6_counterexample :
    ∃ w1, step debugBuild exampleRunning (exampleBreak .RequestStepFrame) = .ok w1 ∧
      (newEffects exampleRunning w1).filter Effect.isSetStepType =
        [Effect.JsDiagSetStepType .StepIn] :=
  ⟨_, rfl, by decide⟩

/-- C6, amended.  A break that reached `didPause` ends with `m_pausedContext`
empty and `m_runningNestedMessageLoop` false.  The step commands the handler
issues are: `StepIn` for `RequestStepInto` and for `RequestStepFrame`, `StepOut`
for `RequestStepOut`, issued right after `didPause`; and none for
`RequestNoSkip`, neither before the nested loop nor after the hook returns. -/
theorem C6_resuming_to_running (b : Build) (ctx : Context) (e : JsDiagDebugEvent) (ref : Nat)
    (bp : Option Int) (unc : Option Bool) (exc : Nat) (answer : SkipPauseRequest)
    (w : World) (g : Int)
    (hrun : w.m_runningNestedMessageLoop = false)
    (he : takesBreakPath e w = true)
    (hag : enabledDebuggerAgentForGroup w (getGroupId ctx) = some g) :
    ∃ w1, DebugEventHandler b ctx e (EventData.wellFormed ref bp unc exc) answer w = .ok w1 ∧
      (newEffects w w1).filter Effect.isSetStepType =
        (match answer with
          | .RequestNoSkip => []
          | .RequestStepInto => [Effect.JsDiagSetStepType .StepIn]
          | .RequestStepOut => [Effect.JsDiagSetStepType .StepOut]
          | .RequestStepFrame => [Effect.JsDiagSetStepType .StepIn]) ∧
      (answer ≠ .RequestNoSkip →
        w1.m_pausedContext = none ∧ w1.m_runningNestedMessageLoop = false) ∧
      (answer = .RequestNoSkip →
        ∀ (inner : List Input) (w2 : World),
          (∀ i ∈ inner, i ≠ Input.messageLoopReturns) → run b w1 inner = .ok w2 →
          ∃ w3, step b w2 .messageLoopReturns = .ok w3 ∧
            w3.m_pausedContext = none ∧ w3.m_runningNestedMessageLoop = false ∧
            (newEffects w2 w3).filter Effect.isSetStepType = []) := by
  obtain ⟨h1, h2, h3, h4, h5⟩ := breakEntry_fields e w
  have hag0 : enabledDebuggerAgentForGroup (breakEntry e w) (getGroupId ctx) = some g :=
    (agent_of_world_eq w (breakEntry e w) _ h3).trans hag
  have hw1 := HandleBreak_wellFormed b ctx ref bp unc exc answer (breakEntry e w) g
    (h1.trans hrun) hag0
  rw [← DebugEventHandler_breakPath b ctx e _ answer w he] at hw1
  obtain ⟨f1, f2, f3, f4, f5, f6⟩ :=
    HandleBreak_finish_fields answer (afterDidPause g ctx bp unc exc (breakEntry e w))
  obtain ⟨a1, a2, a3, a4, a5⟩ := afterDidPause_fields g ctx bp unc exc (breakEntry e w)
  rw [a1] at f2
  rw [a5, h5] at f6
  refine ⟨_, hw1, ?_, ?_, ?_⟩
  · by_cases hns : answer = .RequestNoSkip
    · subst hns
      simp [newEffects, emit, a5, h5, Effect.isSetStepType]
    · simp only [hns, if_false]
      rw [newEffects, f6]
      cases answer <;> simp [Effect.isSetStepType] at hns ⊢
  · intro hskip
    simp only [hskip, if_false]
    exact ⟨f1, f2.trans (h1.trans hrun)⟩
  · intro hns inner w2 hin hrun2
    subst hns
    simp only [if_true] at hrun2
    obtain ⟨q1, q2, q3, q4⟩ := run_inLoop b inner _ w2 (by simp [emit]) hin hrun2
    obtain ⟨f2, rest2, hs2, hres2, _⟩ := activation_head _ _ ⟨ctx, .RequestNoSkip⟩ w.suspended
      (by simp [emit, h4, a3]) q2
    refine ⟨_, step_messageLoopReturns b w2 f2 rest2 hs2, ?_⟩
    obtain ⟨r1, r2, r3, r4, r5, r6⟩ :=
      HandleBreak_resume_fields f2 { w2 with suspended := rest2 }
    refine ⟨r1, r2, ?_⟩
    rw [newEffects, r6, hres2]
    cases enabledDebuggerAgentForGroup { w2 with suspended := rest2 }
        (getGroupId f2.pausedContext) <;>
      simp [Effect.isSetStepType]

/-- C6, amended, at a concrete input: the breakpoint hit in `exampleContext`
answered with `RequestStepFrame`. -/
theorem C6_resuming_to_running_witness :
    exampleRunning.m_runningNestedMessageLoop = false ∧
    takesBreakPath .Breakpoint exampleRunning = true ∧
    enabledDebuggerAgentForGroup exampleRunning (getGroupId exampleContext) = some 1 ∧
    ∃ w1, DebugEventHandler debugBuild exampleContext .Breakpoint
        (EventData.wellFormed 0 (some 7) (some false) 0) .RequestStepFrame exampleRunning
          = .ok w1 ∧
      (newEffects exampleRunning w1).filter Effect.isSetStepType =
        (match SkipPauseRequest.RequestStepFrame with
          | .RequestNoSkip => []
          | .RequestStepInto => [Effect.JsDiagSetStepType .StepIn]
          | .RequestStepOut => [Effect.JsDiagSetStepType .StepOut]
          | .RequestStepFrame => [Effect.JsDiagSetStepType .StepIn]) ∧
      (SkipPauseRequest.RequestStepFrame ≠ .RequestNoSkip →
        w1.m_pausedContext = none ∧ w1.m_runningNestedMessageLoop = false) ∧
      (SkipPauseRequest.RequestStepFrame = .RequestNoSkip →
        ∀ (inner : List Input) (w2 : World),
          (∀ i ∈ inner, i ≠ Input.messageLoopReturns) → run debugBuild w1 inner = .ok w2 →
          ∃ w3, step debugBuild w2 .messageLoopReturns = .ok w3 ∧
            w3.m_pausedContext = none ∧ w3.m_runningNestedMessageLoop = false ∧
            (newEffects w2 w3).filter Effect.isSetStepType = []) :=
  ⟨by decide, by decide, by decide,
    C6_resuming_to_running debugBuild exampleContext .Breakpoint 0 (some 7) (some false) 0
      .RequestStepFrame exampleRunning 1 (by decide) (by decide) (by decide)⟩

/-! ## C7: AsyncBreak gating -/

/-- C7.  An `AsyncBreak` that finds the pause-on-next-statement flag unarmed
returns the world unchanged (no state change, no call).  One that finds it
armed clears the flag and then runs `HandleBreak`; the flag is still clear when
the handler returns, and stays clear through any later inputs other than
`setPauseOnNextStatement(true)`, so that the next `AsyncBreak` is discarded:
one arming gives at most one pause. -/
theorem C7_async_break_gating (b : Build) (ctx : Context) (data : EventData)
    (answer : SkipPauseRequest) (w : World) :
    (w.m_pauseOnNextStatement = false →
      DebugEventHandler b ctx .AsyncBreak data answer w = .ok w) ∧
    (w.m_pauseOnNextStatement = true →
      DebugEventHandler b ctx .AsyncBreak data answer w =
        HandleBreak b ctx data answer { w with m_pauseOnNextStatement := false } ∧
      ∀ w1, DebugEventHandler b ctx .AsyncBreak data answer w = .ok w1 →
        w1.m_pauseOnNextStatement = false ∧
        ∀ (mid : List Input) (w2 : World),
          (∀ i ∈ mid, i ≠ Input.setPauseOnNextStatement true) → run b w1 mid = .ok w2 →
          ∀ (ctx2 : Context) (data2 : EventData) (answer2 : SkipPauseRequest),
            DebugEventHandler b ctx2 .AsyncBreak data2 answer2 w2 = .ok w2) := by
  refine ⟨DebugEventHandler_unarmed b ctx data answer w, ?_⟩
  intro harmed
  have hpath : DebugEventHandler b ctx .AsyncBreak data answer w =
      HandleBreak b ctx data answer { w with m_pauseOnNextStatement := false } := by
    simp [DebugEventHandler, harmed]
  refine ⟨hpath, ?_⟩
  intro w1 h1
  rw [hpath] at h1
  have hf : w1.m_pauseOnNextStatement = false := HandleBreak_flag b ctx data answer _ w1 h1
  refine ⟨hf, ?_⟩
  intro mid w2 hmid hrun ctx2 data2 answer2
  exact DebugEventHandler_unarmed b ctx2 data2 answer2 w2
    (run_keeps_disarmed b mid w1 w2 hf hmid hrun)

/-- C7 at a concrete input: an armed debugger (after
`setPauseOnNextStatement(true)`) receiving an `AsyncBreak`. -/
theorem C7_async_break_gating_witness :
    (setPauseOnNextStatement true exampleRunning).m_pauseOnNextStatement = true ∧
    ∃ w1, DebugEventHandler debugBuild exampleContext .AsyncBreak examplePayload
        .RequestStepInto (setPauseOnNextStatement true exampleRunning) = .ok w1 ∧
      w1.m_pauseOnNextStatement = false ∧
      DebugEventHandler debugBuild exampleContext .AsyncBreak examplePayload
        .RequestStepInto w1 = .ok w1 :=
  ⟨by decide, _, rfl,
    (((C7_async_break_gating debugBuild exampleContext examplePayload .RequestStepInto
      (setPauseOnNextStatement true exampleRunning)).2 (by decide)).2 _ rfl).1,
    (((C7_async_break_gating debugBuild exampleContext examplePayload .RequestStepInto
      (setPauseOnNextStatement true exampleRunning)).2 (by decide)).2 _ rfl).2 [] _
        (by simp) rfl exampleContext examplePayload .RequestStepInto⟩

/-! ## C8: cancelling a pending async break -/

/-- C8 as stated fails.  The flag is armed, a breakpoint pause enters the nested
loop, and `setPauseOnNextStatement(false)` is called inside the loop: the call
returns at the nested-loop guard and the flag stays armed.  After the loop has
ended the `AsyncBreak` is honoured: `didPause` is called again. -/
theorem C8_counterexample :
    ∃ w1 w2,
      run debugBuild exampleRunning
        [.setPauseOnNextStatement true, exampleBreak .RequestNoSkip,
         .setPauseOnNextStatement false] = .ok w1 ∧
      w1.m_pauseOnNextStatement = true ∧
      run debugBuild w1
        [.continueProgram, .messageLoopReturns, exampleAsyncBreak .RequestStepOut] = .ok w2 ∧
      newEffects w1 w2 =
        [Effect.quitMessageLoopOnPause, Effect.didContinue 1,
         Effect.didPause 1 exampleContext 0 [['7']] false false,
         Effect.JsDiagSetStepType .StepOut] :=
  ⟨_, _, rfl, by decide, rfl, by decide⟩

/-- C8, amended.  While no nested loop is active, `setPauseOnNextStatement(false)`
clears the flag without calling anything, and an `AsyncBreak` that arrives after
any inputs other than `setPauseOnNextStatement(true)` is discarded: the world
is unchanged, so no pause is entered and no listener is notified.  While a
nested loop is active the call changes nothing, the flag included. -/
theorem C8_cancel_pending_async_break (b : Build) (w : World) :
    (w.m_runningNestedMessageLoop = false →
      (setPauseOnNextStatement false w).m_pauseOnNextStatement = false ∧
      (setPauseOnNextStatement false w).trace = w.trace ∧
      ∀ (mid : List Input) (w2 : World),
        (∀ i ∈ mid, i ≠ Input.setPauseOnNextStatement true) →
        run b (setPauseOnNextStatement false w) mid = .ok w2 →
        ∀ (ctx : Context) (data : EventData) (answer : SkipPauseRequest),
          DebugEventHandler b ctx .AsyncBreak data answer w2 = .ok w2) ∧
    (w.m_runningNestedMessageLoop = true → setPauseOnNextStatement false w = w) := by
  constructor
  · intro hrun
    have hf : (setPauseOnNextStatement false w).m_pauseOnNextStatement = false := by
      simp [setPauseOnNextStatement, hrun]
    refine ⟨hf, by simp [setPauseOnNextStatement, hrun], ?_⟩
    intro mid w2 hmid h ctx data answer
    exact DebugEventHandler_unarmed b ctx data answer w2
      (run_keeps_disarmed b mid _ w2 hf hmid h)
  · intro hrun
    simp [setPauseOnNextStatement, hrun]

/-- C8, amended, at a concrete input: an armed debugger outside any loop. -/
theorem C8_cancel_pending_async_break_witness :
    (setPauseOnNextStatement true exampleRunning).m_runningNestedMessageLoop = false ∧
    (setPauseOnNextStatement true exampleRunning).m_pauseOnNextStatement = true ∧
    (setPauseOnNextStatement false
      (setPauseOnNextStatement true exampleRunning)).m_pauseOnNextStatement = false ∧
    examplePaused.m_runningNestedMessageLoop = true ∧
    setPauseOnNextStatement false examplePaused = examplePaused :=
  ⟨by decide, by decide,
    ((C8_cancel_pending_async_break debugBuild
      (setPauseOnNextStatement true exampleRunning)).1 (by decide)).1,
    by decide,
    (C8_cancel_pending_async_break debugBuild examplePaused).2 (by decide)⟩

/-! ## C9: stepping while not paused -/

/-- C9 as stated fails.  On an enabled debugger that is not paused,
`clearStepping` succeeds in a debug and in a release build and issues
`JsDiagSetStepType(Continue)`; and `stepIntoStatement` in a release build
succeeds and issues `JsDiagSetStepType(StepIn)`. -/
theorem C9_counterexample :
    isPaused exampleRunning = false ∧
    clearStepping debugBuild exampleRunning =
      .ok (emit (.JsDiagSetStepType .Continue) exampleRunning) ∧
    clearStepping releaseBuild exampleRunning =
      .ok (emit (.JsDiagSetStepType .Continue) exampleRunning) ∧
    stepIntoStatement releaseBuild exampleRunning =
      .ok (emit (.JsDiagSetStepType .StepIn) exampleRunning) := by
  decide

/-- C9, amended.  Called while not paused, `stepIntoStatement`,
`stepOverStatement` and `stepOutOfFunction` stop at `DCHECK(isPaused())` when
DCHECKs are compiled in, before any call is made; with DCHECKs compiled out
they issue their `JsDiagSetStepType` command and nothing else, in particular
not `quitMessageLoopOnPause`.  `clearStepping` does not look at the pause
state: it stops at `DCHECK(enabled())` when DCHECKs are compiled in and the
debugger is not enabled, and otherwise issues `JsDiagSetStepType(Continue)`;
it never calls `quitMessageLoopOnPause`. -/
theorem C9_stepping_when_not_paused (b : Build) (w : World) (hnp : isPaused w = false) :
    (b.dcheckOn = true →
      stepIntoStatement b w = .error ⟨.dcheckFailed, w⟩ ∧
      stepOverStatement b w = .error ⟨.dcheckFailed, w⟩ ∧
      stepOutOfFunction b w = .error ⟨.dcheckFailed, w⟩) ∧
    (b.dcheckOn = false →
      stepIntoStatement b w = .ok (emit (.JsDiagSetStepType .StepIn) w) ∧
      stepOverStatement b w = .ok (emit (.JsDiagSetStepType .StepOver) w) ∧
      stepOutOfFunction b w = .ok (emit (.JsDiagSetStepType .StepOut) w)) ∧
    (b.dcheckOn = true ∧ enabled w = false →
      clearStepping b w = .error ⟨.dcheckFailed, w⟩) ∧
    (b.dcheckOn = false ∨ enabled w = true →
      clearStepping b w = .ok (emit (.JsDiagSetStepType .Continue) w)) := by
  have hpc : w.m_pausedContext = none := by
    cases hp : w.m_pausedContext with
    | none => rfl
    | some c => simp [isPaused, hp] at hnp
  have hcont : ∀ e : Effect, continueProgram (emit e w) = emit e w := by
    intro e
    rcases w with ⟨⟨⟩, _, _, _, _⟩
    simp only at hpc
    subst hpc
    simp [continueProgram, isPaused, emit]
  refine ⟨?_, ?_, ?_, ?_⟩
  · intro hd
    simp [stepIntoStatement, stepOverStatement, stepOutOfFunction, DCHECK, hd, hnp, bind,
      Except.bind]
  · intro hd
    simp [stepIntoStatement, stepOverStatement, stepOutOfFunction, DCHECK, hd, bind,
      Except.bind, pure, Except.pure, hcont]
  · rintro ⟨hd, hen⟩
    simp [clearStepping, DCHECK, hd, hen, bind, Except.bind]
  · rintro (hd | hen)
    · simp [clearStepping, DCHECK, hd, bind, Except.bind, pure, Except.pure]
    · simp [clearStepping, DCHECK, hen, bind, Except.bind, pure, Except.pure]

/-- C9, amended, at a concrete input: the enabled, unpaused `exampleRunning` in
a debug build. -/
theorem C9_stepping_when_not_paused_witness :
    isPaused exampleRunning = false ∧
    stepIntoStatement debugBuild exampleRunning = .error ⟨.dcheckFailed, exampleRunning⟩ ∧
    clearStepping debugBuild exampleRunning =
      .ok (emit (.JsDiagSetStepType .Continue) exampleRunning) :=
  ⟨by decide,
    ((C9_stepping_when_not_paused debugBuild exampleRunning (by decide)).1 (by decide)).1,
    (C9_stepping_when_not_paused debugBuild exampleRunning (by decide)).2.2.2
      (Or.inr (by decide))⟩

/-! ## C10: the breakpoint kill-switch -/

/-- C10.  `setBreakpointsActivated` has an empty body and stores nothing, so
`m_breakpointsActivated` keeps the value `true` given by the constructor: on a
fresh debugger with a context active, `canBreakProgram()` returns true after
`setBreakpointsActivated(false)`, where the claim requires false. -/
theorem C10_kill_switch_not_stored :
    (setBreakpointsActivated false (World.fresh [] true)).m_breakpointsActivated = true ∧
    (setBreakpointsActivated false (World.fresh [] true)).inContext = true ∧
    canBreakProgram (setBreakpointsActivated false (World.fresh [] true)) = true := by
  decide

/-! ## Lemmas on the fields that only the bookkeeping operations change -/

theorem HandleBreak_finish_registry (result : SkipPauseRequest) (w : World) :
    (HandleBreak_finish result w).m_lastContextId = w.m_lastContextId ∧
    (HandleBreak_finish result w).m_maxAsyncCallStackDepthMap = w.m_maxAsyncCallStackDepthMap ∧
    (HandleBreak_finish result w).m_maxAsyncCallStackDepth = w.m_maxAsyncCallStackDepth := by
  cases result <;> simp [HandleBreak_finish, emit]

theorem HandleBreak_resume_registry (frame : HandleBreakFrame) (w : World) :
    (HandleBreak_resume frame w).m_lastContextId = w.m_lastContextId ∧
    (HandleBreak_resume frame w).m_maxAsyncCallStackDepthMap = w.m_maxAsyncCallStackDepthMap ∧
    (HandleBreak_resume frame w).m_maxAsyncCallStackDepth = w.m_maxAsyncCallStackDepth := by
  unfold HandleBreak_resume
  cases enabledDebuggerAgentForGroup w (getGroupId frame.pausedContext) <;>
    simp [HandleBreak_finish_registry, emit]

theorem HandleBreak_registry (b : Build) (ctx : Context) (data : EventData)
    (answer : SkipPauseRequest) (w w1 : World)
    (h : HandleBreak b ctx data answer w = .ok w1) :
    w1.m_lastContextId = w.m_lastContextId ∧
    w1.m_maxAsyncCallStackDepthMap = w.m_maxAsyncCallStackDepthMap ∧
    w1.m_maxAsyncCallStackDepth = w.m_maxAsyncCallStackDepth := by
  rcases HandleBreak_cases b ctx data answer w w1 h with rfl | ⟨g, ids, u, _, hp⟩
  · exact ⟨rfl, rfl, rfl⟩
  · rcases HandleBreak_pause_cases _ _ _ _ _ _ _ _ _ hp with ⟨_, rfl⟩ | ⟨_, rfl⟩
    · simp [emit]
    · simp [HandleBreak_finish_registry, emit]

theorem DebugEventHandler_registry (b : Build) (ctx : Context) (e : JsDiagDebugEvent)
    (data : EventData) (answer : SkipPauseRequest) (w w1 : World)
    (h : DebugEventHandler b ctx e data answer w = .ok w1) :
    w1.m_lastContextId = w.m_lastContextId ∧
    w1.m_maxAsyncCallStackDepthMap = w.m_maxAsyncCallStackDepthMap ∧
    w1.m_maxAsyncCallStackDepth = w.m_maxAsyncCallStackDepth := by
  cases e <;> simp only [DebugEventHandler, HandleSourceEvents, pure, Except.pure] at h
  case SourceCompile => cases h; split <;> simp [emit]
  case CompileError => cases h; split <;> simp [emit]
  case other => cases h; exact ⟨rfl, rfl, rfl⟩
  case AsyncBreak =>
    split at h
    · have h0 := HandleBreak_registry _ _ _ _ _ _ h
      exact h0
    · cases h; exact ⟨rfl, rfl, rfl⟩
  all_goals exact HandleBreak_registry b ctx data answer w w1 h

theorem step_registry (b : Build) (w w1 : World) (i : Input) :
    step b w i = .ok w1 →
    w1.m_lastContextId =
      (match i with
        | .markContext _ => String16.toInt32 (w.m_lastContextId + 1)
        | _ => w.m_lastContextId) ∧
    w1.m_maxAsyncCallStackDepthMap =
      (match i with
        | .setAsyncCallStackDepth agent depth =>
          setAsyncCallStackDepth_map agent depth w.m_maxAsyncCallStackDepthMap
        | _ => w.m_maxAsyncCallStackDepthMap) ∧
    w1.m_maxAsyncCallStackDepth =
      (match i with
        | .setAsyncCallStackDepth agent depth =>
          setAsyncCallStackDepth_max
            (setAsyncCallStackDepth_map agent depth w.m_maxAsyncCallStackDepthMap)
        | _ => w.m_maxAsyncCallStackDepth) := by
  intro h
  cases i with
  | debugEvent ctx e data answer => exact DebugEventHandler_registry b ctx e data answer w w1 h
  | messageLoopReturns =>
    simp only [step, pure, Except.pure] at h
    split at h
    · cases h; exact ⟨rfl, rfl, rfl⟩
    · cases h
      exact HandleBreak_resume_registry _ _
  | stepIntoStatement =>
    have h2 := stepIntoStatement_ok b w w1 h
    subst h2
    simp [continueProgram, emit]
    split <;> simp
  | stepOverStatement =>
    have h2 := stepOverStatement_ok b w w1 h
    subst h2
    simp [continueProgram, emit]
    split <;> simp
  | stepOutOfFunction =>
    have h2 := stepOutOfFunction_ok b w w1 h
    subst h2
    simp [continueProgram, emit]
    split <;> simp
  | setBreakpoint sourceID bp native =>
    simp only [step, pure, Except.pure, Except.ok.injEq] at h
    subst h
    rcases setBreakpoint_world sourceID bp native w with h2 | h2 <;> rw [h2] <;> simp [emit]
  | removeBreakpoint breakpointId native =>
    simp only [step] at h
    rcases removeBreakpoint_world b breakpointId native w w1 h with rfl | rfl <;> simp [emit]
  | markContext info =>
    simp only [step] at h
    cases hm : markContext b info w with
    | error c => simp [hm] at h
    | ok r =>
      have hr := markContext_ok b info w r hm
      subst hr
      simp only [hm, pure, Except.pure, Except.ok.injEq] at h
      subst h
      simp [SetEmbedderData, emit]
  | setAsyncCallStackDepth agent depth =>
    simp only [step, pure, Except.pure, Except.ok.injEq] at h
    subst h
    rcases setAsyncCallStackDepth_world agent depth w with h2 | h2 <;> rw [h2] <;> simp [emit]
  | _ =>
    simp only [step, enable, disable, setBreakpointsActivated, setPauseOnNextStatement,
      continueProgram, clearStepping, DCHECK, emit, pure, Except.pure, bind, Except.bind] at h
    (try split_ifs at h) <;> simp only [Except.ok.injEq, reduceCtorEq] at h <;> subst h <;>
      simp

theorem run_lastContextId (b : Build) (inputs : List Input) :
    ∀ (w w1 : World), run b w inputs = .ok w1 → 0 ≤ w.m_lastContextId →
      w.m_lastContextId + markCount inputs < 2147483648 →
      w1.m_lastContextId = w.m_lastContextId + markCount inputs := by
  induction inputs with
  | nil =>
    intro w w1 h _ _
    simp only [run, pure, Except.pure, Except.ok.injEq] at h
    subst h
    simp [markCount]
  | cons i rest ih =>
    intro w w1 h h0 hlt
    simp only [run] at h
    cases hs : step b w i with
    | error c => simp [hs] at h
    | ok w2 =>
      simp only [hs] at h
      have hreg := (step_registry b w w2 i hs).1
      cases i with
      | markContext info =>
        simp only at hreg
        simp only [markCount, Nat.cast_add, Nat.cast_one] at hlt ⊢
        rw [String16.toInt32_of_nonneg_lt _ (by omega) (by omega)] at hreg
        rw [ih w2 w1 h (by omega) (by omega), hreg]
        omega
      | _ =>
        simp only at hreg
        simp only [markCount] at hlt ⊢
        rw [ih w2 w1 h (by omega) (by omega), hreg]

/-! ## Lemmas on the async call stack depth map -/

theorem lookup_filter_ne (k a : Int) (m : List (Int × Int)) :
    List.lookup a (m.filter (fun pair => decide (pair.1 ≠ k))) =
      if a = k then none else List.lookup a m := by
  induction m with
  | nil => simp
  | cons p m ih =>
    obtain ⟨pk, pv⟩ := p
    by_cases hpk : pk = k
    · subst hpk
      simp only [ne_eq, not_true_eq_false, decide_False, Bool.false_eq_true, not_false_eq_true,
        List.filter_cons_of_neg, ih]
      by_cases ha : a = pk
      · simp [ha]
      · have : (a == pk) = false := by simpa using ha
        simp [ha, List.lookup, this]
    · have hd : decide (pk ≠ k) = true := by simpa using hpk
      rw [List.filter_cons_of_pos (by simpa using hpk)]
      by_cases ha : a = pk
      · subst ha
        simp [List.lookup, hpk]
      · have : (a == pk) = false := by simpa using ha
        simp only [List.lookup, this, ih]

theorem lookup_setAsyncCallStackDepth_map (k : Int) (d : Int) (a : Int) (m : List (Int × Int)) :
    List.lookup a (setAsyncCallStackDepth_map k d m) =
      if a = k then registeredDepth (some d) else List.lookup a m := by
  unfold setAsyncCallStackDepth_map
  by_cases hd : d ≤ 0
  · have hnot : ¬ 0 < d := by omega
    simp only [hd, if_true, lookup_filter_ne, registeredDepth, Option.filter, hnot,
      decide_False, Bool.false_eq_true, if_false]
  · have hpos : 0 < d := by omega
    simp only [hd, if_false, registeredDepth, Option.filter, hpos, decide_True, if_true]
    by_cases ha : a = k
    · subst ha
      simp [List.lookup]
    · have : (a == k) = false := by simpa using ha
      simp only [List.lookup, this, lookup_filter_ne, ha, if_false]

theorem keys_setAsyncCallStackDepth_map (k : Int) (d : Int) (m : List (Int × Int))
    (h : (m.map Prod.fst).Nodup) (hpos : ∀ p ∈ m, 0 < p.2) :
    ((setAsyncCallStackDepth_map k d m).map Prod.fst).Nodup ∧
    ∀ p ∈ setAsyncCallStackDepth_map k d m, 0 < p.2 := by
  have hf : ((m.filter (fun pair => decide (pair.1 ≠ k))).map Prod.fst).Nodup :=
    (h.sublist ((List.filter_sublist m).map Prod.fst))
  have hk : k ∉ (m.filter (fun pair => decide (pair.1 ≠ k))).map Prod.fst := by
    simp
  have hfpos : ∀ p ∈ m.filter (fun pair => decide (pair.1 ≠ k)), 0 < p.2 :=
    fun p hp => hpos p (List.mem_of_mem_filter hp)
  unfold setAsyncCallStackDepth_map
  split
  · exact ⟨hf, hfpos⟩
  · rename_i hd
    refine ⟨?_, ?_⟩
    · rw [List.map_cons, List.nodup_cons]
      exact ⟨hk, hf⟩
    · intro p hp
      rcases List.mem_cons.1 hp with rfl | hp
      · simp only; omega
      · exact hfpos p hp

theorem foldr_max_nonneg (l : List Int) : 0 ≤ l.foldr max 0 := by
  induction l with
  | nil => simp
  | cons x l ih =>
    simp only [List.foldr_cons]
    exact le_trans ih (le_max_right _ _)

theorem foldl_max_eq (m : List (Int × Int)) :
    ∀ a : Int, 0 ≤ a →
      m.foldl (fun acc pair => if pair.2 > acc then pair.2 else acc) a =
        max a ((m.map Prod.snd).foldr max 0) := by
  induction m with
  | nil =>
    intro a ha
    simp [ha]
  | cons p m ih =>
    intro a ha
    simp only [List.foldl_cons, List.map_cons, List.foldr_cons]
    have hacc : (if p.2 > a then p.2 else a) = max a p.2 := by
      split
      · rename_i h; exact (max_eq_right (le_of_lt h)).symm
      · rename_i h; exact (max_eq_left (not_lt.1 h)).symm
    rw [hacc, ih (max a p.2) (le_trans ha (le_max_left _ _)), max_assoc]

theorem setAsyncCallStackDepth_max_eq (m : List (Int × Int)) :
    setAsyncCallStackDepth_max m = (m.map Prod.snd).foldr max 0 := by
  unfold setAsyncCallStackDepth_max
  rw [foldl_max_eq m 0 (le_refl 0)]
  exact max_eq_right (foldr_max_nonneg _)

theorem le_foldr_max (l : List Int) : ∀ x ∈ l, x ≤ l.foldr max 0 := by
  induction l with
  | nil => intro x hx; cases hx
  | cons y l ih =>
    intro x hx
    simp only [List.foldr_cons]
    rcases List.mem_cons.1 hx with rfl | hx
    · exact le_max_left _ _
    · exact le_trans (ih x hx) (le_max_right _ _)

theorem foldr_max_mem (l : List Int) (hne : l ≠ []) (hpos : ∀ x ∈ l, 0 < x) :
    l.foldr max 0 ∈ l := by
  induction l with
  | nil => exact absurd rfl hne
  | cons y l ih =>
    simp only [List.foldr_cons]
    by_cases hl : l = []
    · subst hl
      have hy : 0 < y := hpos y (by simp)
      simp [max_eq_left (le_of_lt hy)]
    · have hmem := ih hl (fun x hx => hpos x (by simp [hx]))
      rcases max_choice y (l.foldr max 0) with h | h
      · rw [h]; simp
      · rw [h]; exact List.mem_cons_of_mem _ hmem

theorem run_asyncDepth (b : Build) (inputs : List Input) :
    ∀ (w w1 : World), run b w inputs = .ok w1 →
      (w.m_maxAsyncCallStackDepthMap.map Prod.fst).Nodup →
      (∀ p ∈ w.m_maxAsyncCallStackDepthMap, 0 < p.2) →
      w.m_maxAsyncCallStackDepth =
        (w.m_maxAsyncCallStackDepthMap.map Prod.snd).foldr max 0 →
      (w1.m_maxAsyncCallStackDepthMap.map Prod.fst).Nodup ∧
      (∀ p ∈ w1.m_maxAsyncCallStackDepthMap, 0 < p.2) ∧
      w1.m_maxAsyncCallStackDepth =
        (w1.m_maxAsyncCallStackDepthMap.map Prod.snd).foldr max 0 ∧
      ∀ (agent : Int) (init : Option Int),
        List.lookup agent w.m_maxAsyncCallStackDepthMap = registeredDepth init →
        List.lookup agent w1.m_maxAsyncCallStackDepthMap =
          registeredDepth (latestDepthFrom agent init inputs) := by
  induction inputs with
  | nil =>
    intro w w1 h h1 h2 h3
    simp only [run, pure, Except.pure, Except.ok.injEq] at h
    subst h
    exact ⟨h1, h2, h3, fun agent init hi => hi⟩
  | cons i rest ih =>
    intro w w1 h h1 h2 h3
    simp only [run] at h
    cases hs : step b w i with
    | error c => simp [hs] at h
    | ok w2 =>
      simp only [hs] at h
      obtain ⟨_, r2, r3⟩ := step_registry b w w2 i hs
      have key : (w2.m_maxAsyncCallStackDepthMap.map Prod.fst).Nodup ∧
          (∀ p ∈ w2.m_maxAsyncCallStackDepthMap, 0 < p.2) ∧
          w2.m_maxAsyncCallStackDepth =
            (w2.m_maxAsyncCallStackDepthMap.map Prod.snd).foldr max 0 ∧
          ∀ (agent : Int) (init : Option Int),
            List.lookup agent w.m_maxAsyncCallStackDepthMap = registeredDepth init →
            List.lookup agent w2.m_maxAsyncCallStackDepthMap =
              registeredDepth (latestDepthAfter agent init i) := by
        cases i with
        | setAsyncCallStackDepth a d =>
          simp only at r2 r3
          obtain ⟨k1, k2⟩ := keys_setAsyncCallStackDepth_map a d _ h1 h2
          rw [r2, r3]
          refine ⟨k1, k2, setAsyncCallStackDepth_max_eq _, ?_⟩
          intro agent init hi
          rw [lookup_setAsyncCallStackDepth_map]
          by_cases ha : agent = a
          · subst ha; simp [latestDepthAfter]
          · have ha2 : ¬ a = agent := fun h4 => ha h4.symm
            simp [ha, ha2, hi, latestDepthAfter]
        | _ =>
          simp only at r2 r3
          rw [r2, r3]
          exact ⟨h1, h2, h3, fun agent init hi => hi⟩
      obtain ⟨k1, k2, k3, k4⟩ := key
      obtain ⟨q1, q2, q3, q4⟩ := ih w2 w1 h k1 k2 k3
      refine ⟨q1, q2, q3, ?_⟩
      intro agent init hi
      exact q4 agent _ (k4 agent init hi)

theorem setBreakpoint_ok (sourceID : String16) (bp : ScriptBreakpoint) (n l c : Int)
    (w : World) (hsrc : sourceID.toIntegerOk.2 = true) :
    setBreakpoint sourceID bp (.ok ⟨.ok n, .ok l, .ok c⟩) w =
      ((String16.fromInteger n, l, c),
        emit (.JsDiagSetBreakpoint sourceID.toIntegerOk.1 bp.lineNumber bp.columnNumber) w) := by
  simp [setBreakpoint, hsrc]

theorem removeBreakpoint_parsed (b : Build) (breakpointId : String16) (n : Int)
    (native : Option JsErrorCode) (w : World)
    (hparse : breakpointId.toIntegerOk = (n, true)) :
    removeBreakpoint b breakpointId native w =
      assert b (decide (native = none ∨ native = some .JsErrorInvalidArgument))
        (emit (.JsDiagRemoveBreakpoint n) w) := by
  simp [removeBreakpoint, hparse]

theorem removeBreakpoint_unparsed (b : Build) (breakpointId : String16)
    (native : Option JsErrorCode) (w : World)
    (hparse : breakpointId.toIntegerOk.2 = false) :
    removeBreakpoint b breakpointId native w = assert b false w := by
  simp [removeBreakpoint, hparse]

theorem outcomeWorld_assert (b : Build) (cond : Bool) (w : World) :
    outcomeWorld (assert b cond w) = w := by
  unfold assert
  split <;> rfl

/-! ## C11: the breakpoint id round trip -/

/-- C11.  For a script id that parses and an engine answer carrying the
breakpoint id `n` (a 32-bit `int`), `setBreakpoint` returns the decimal string
`fromInteger n`; parsing that string gives `n` back with `ok = true`; and
`removeBreakpoint` on it makes exactly one native call,
`JsDiagRemoveBreakpoint(n)`, whatever the engine then answers, returning
normally when the engine answers `JsNoError`. -/
theorem C11_breakpoint_id_round_trip (b : Build) (sourceID : String16) (bp : ScriptBreakpoint)
    (n l c : Int) (native : Option JsErrorCode) (w : World)
    (hlo : -2147483648 ≤ n) (hhi : n < 2147483648)
    (hsrc : sourceID.toIntegerOk.2 = true) :
    ∃ protocolId w1,
      setBreakpoint sourceID bp (.ok ⟨.ok n, .ok l, .ok c⟩) w = ((protocolId, l, c), w1) ∧
      protocolId = String16.fromInteger n ∧
      String16.toIntegerOk protocolId = (n, true) ∧
      newEffects w1 (outcomeWorld (removeBreakpoint b protocolId native w1)) =
        [Effect.JsDiagRemoveBreakpoint n] ∧
      removeBreakpoint b protocolId none w1 = .ok (emit (.JsDiagRemoveBreakpoint n) w1) := by
  have hrt := toIntegerOk_fromInteger n hlo hhi
  refine ⟨String16.fromInteger n, _, setBreakpoint_ok sourceID bp n l c w hsrc, rfl, hrt,
    ?_, ?_⟩
  · rw [removeBreakpoint_parsed b _ n native _ hrt, outcomeWorld_assert]
    simp [newEffects, emit]
  · rw [removeBreakpoint_parsed b _ n none _ hrt]
    simp [assert]

/-- C11 at a concrete input: script `"5"`, the engine answers breakpoint 7 at
line 10, column 0. -/
theorem C11_breakpoint_id_round_trip_witness :
    (-2147483648 : Int) ≤ 7 ∧ (7 : Int) < 2147483648 ∧
    exampleScriptId.toIntegerOk.2 = true ∧
    ∃ protocolId w1,
      setBreakpoint exampleScriptId exampleScriptBreakpoint (.ok ⟨.ok 7, .ok 10, .ok 0⟩)
        exampleRunning = ((protocolId, 10, 0), w1) ∧
      protocolId = String16.fromInteger 7 ∧
      String16.toIntegerOk protocolId = (7, true) ∧
      newEffects w1 (outcomeWorld (removeBreakpoint debugBuild protocolId none w1)) =
        [Effect.JsDiagRemoveBreakpoint 7] ∧
      removeBreakpoint debugBuild protocolId none w1 =
        .ok (emit (.JsDiagRemoveBreakpoint 7) w1) :=
  ⟨by decide, by decide, by decide,
    C11_breakpoint_id_round_trip debugBuild exampleScriptId exampleScriptBreakpoint 7 10 0 none
      exampleRunning (by decide) (by decide) (by decide)⟩

/-! ## C12: removing a breakpoint -/

/-- C12 as stated fails.  In a build with assertions, `removeBreakpoint("abc")`
stops at `assert(false)`: the id does not parse. -/
theorem C12_counterexample :
    exampleNotANumber.toIntegerOk.2 = false ∧
    removeBreakpoint debugBuild exampleNotANumber none exampleRunning =
      .error ⟨.assertFailed, exampleRunning⟩ := by
  decide

/-- C12, amended.  For an id that parses as the integer `n`, `removeBreakpoint`
makes the one call `JsDiagRemoveBreakpoint(n)` and returns normally whenever the
engine answers `JsNoError` or `JsErrorInvalidArgument`, and a second removal of
the same id does so again; any other answer trips the second assertion when
assertions are compiled in.  For an id that does not parse no native call is
made: the call trips `assert(false)` when assertions are compiled in and
returns silently when they are compiled out. -/
theorem C12_remove_breakpoint (b : Build) (breakpointId : String16)
    (native native2 : Option JsErrorCode) (w : World) :
    (breakpointId.toIntegerOk.2 = true →
      (native = none ∨ native = some .JsErrorInvalidArgument) →
      (native2 = none ∨ native2 = some .JsErrorInvalidArgument) →
      removeBreakpoint b breakpointId native w =
        .ok (emit (.JsDiagRemoveBreakpoint breakpointId.toIntegerOk.1) w) ∧
      removeBreakpoint b breakpointId native2
          (emit (.JsDiagRemoveBreakpoint breakpointId.toIntegerOk.1) w) =
        .ok (emit (.JsDiagRemoveBreakpoint breakpointId.toIntegerOk.1)
          (emit (.JsDiagRemoveBreakpoint breakpointId.toIntegerOk.1) w))) ∧
    (breakpointId.toIntegerOk.2 = true →
      ¬ (native = none ∨ native = some .JsErrorInvalidArgument) →
      removeBreakpoint b breakpointId native w =
        if b.assertOn = true then
          .error ⟨.assertFailed, emit (.JsDiagRemoveBreakpoint breakpointId.toIntegerOk.1) w⟩
        else .ok (emit (.JsDiagRemoveBreakpoint breakpointId.toIntegerOk.1) w)) ∧
    (breakpointId.toIntegerOk.2 = false →
      removeBreakpoint b breakpointId native w =
        if b.assertOn = true then .error ⟨.assertFailed, w⟩ else .ok w) := by
  refine ⟨?_, ?_, ?_⟩
  · intro hp h1 h2
    have hparse : breakpointId.toIntegerOk = (breakpointId.toIntegerOk.1, true) := by
      rw [← hp]
    rw [removeBreakpoint_parsed b _ _ native _ hparse,
      removeBreakpoint_parsed b _ _ native2 _ hparse]
    simp [assert, h1, h2]
  · intro hp h1
    have hparse : breakpointId.toIntegerOk = (breakpointId.toIntegerOk.1, true) := by
      rw [← hp]
    rw [removeBreakpoint_parsed b _ _ native _ hparse]
    cases hb : b.assertOn <;> simp [assert, h1, hb]
  · intro hp
    rw [removeBreakpoint_unparsed b _ native _ hp]
    cases hb : b.assertOn <;> simp [assert, hb]

/-- C12, amended, at a concrete input: removing the id `"5"` twice, the engine
answering `JsNoError` and then `JsErrorInvalidArgument`. -/
theorem C12_remove_breakpoint_witness :
    exampleScriptId.toIntegerOk.2 = true ∧
    removeBreakpoint debugBuild exampleScriptId none exampleRunning =
      .ok (emit (.JsDiagRemoveBreakpoint exampleScriptId.toIntegerOk.1) exampleRunning) ∧
    removeBreakpoint debugBuild exampleScriptId (some .JsErrorInvalidArgument)
        (emit (.JsDiagRemoveBreakpoint exampleScriptId.toIntegerOk.1) exampleRunning) =
      .ok (emit (.JsDiagRemoveBreakpoint exampleScriptId.toIntegerOk.1)
        (emit (.JsDiagRemoveBreakpoint exampleScriptId.toIntegerOk.1) exampleRunning)) :=
  ⟨by decide,
    (C12_remove_breakpoint debugBuild exampleScriptId none (some .JsErrorInvalidArgument)
      exampleRunning).1 (by decide) (Or.inl rfl) (Or.inr rfl)⟩

/-! ## C13: the location `setBreakpoint` returns -/

/-- C13.  When the script id parses and the engine answers with a breakpoint
object whose `breakpointId`, `line` and `column` are `n`, `l` and `c`,
`setBreakpoint` returns `(fromInteger n, l, c)`, whatever line and column were
requested, after the one call `JsDiagSetBreakpoint(scriptId, line, column)`
with the requested location. -/
theorem C13_set_breakpoint_adjusted_location (sourceID : String16) (bp : ScriptBreakpoint)
    (n l c : Int) (w : World) (hsrc : sourceID.toIntegerOk.2 = true) :
    setBreakpoint sourceID bp (.ok ⟨.ok n, .ok l, .ok c⟩) w =
      ((String16.fromInteger n, l, c),
        emit (.JsDiagSetBreakpoint sourceID.toIntegerOk.1 bp.lineNumber bp.columnNumber) w) :=
  setBreakpoint_ok sourceID bp n l c w hsrc

/-- C13 at a concrete input: line 10, column 4 requested in script `"5"`, the
engine answers breakpoint 7 at line 11, column 0. -/
theorem C13_set_breakpoint_adjusted_location_witness :
    exampleScriptId.toIntegerOk.2 = true ∧
    setBreakpoint exampleScriptId exampleScriptBreakpoint (.ok ⟨.ok 7, .ok 11, .ok 0⟩)
        exampleRunning =
      ((String16.fromInteger 7, 11, 0),
        emit (.JsDiagSetBreakpoint exampleScriptId.toIntegerOk.1
          exampleScriptBreakpoint.lineNumber exampleScriptBreakpoint.columnNumber)
          exampleRunning) :=
  ⟨by decide,
    C13_set_breakpoint_adjusted_location exampleScriptId exampleScriptBreakpoint 7 11 0
      exampleRunning (by decide)⟩

/-! ## C14: the failures of `setBreakpoint` -/

/-- C14 as stated fails.  A script id that does not parse (`"abc"`) and a
location the engine rejects give the same result: the empty string with line 0
and column 0.  The caller cannot tell the two failures apart. -/
theorem C14_counterexample :
    exampleNotANumber.toIntegerOk.2 = false ∧
    exampleScriptId.toIntegerOk.2 = true ∧
    (setBreakpoint exampleNotANumber exampleScriptBreakpoint (.ok ⟨.ok 7, .ok 11, .ok 0⟩)
      exampleRunning).1 = ([], 0, 0) ∧
    (setBreakpoint exampleScriptId exampleScriptBreakpoint (.error (.JsErrorOther 1))
      exampleRunning).1 = ([], 0, 0) := by
  decide

/-- C14, amended.  A script id that does not parse makes `setBreakpoint` return
the empty string with line 0 and column 0 without calling the engine; a script
id that parses and a location the engine rejects make it return the same empty
string with line 0 and column 0 after the one call `JsDiagSetBreakpoint`.  The
two results are equal: there is no `InvalidScript` or `SetFailed` value. -/
theorem C14_set_breakpoint_failures (sourceID : String16) (bp : ScriptBreakpoint)
    (native : Except JsErrorCode BreakpointObject) (e : JsErrorCode) (w : World) :
    (sourceID.toIntegerOk.2 = false →
      setBreakpoint sourceID bp native w = (([], 0, 0), w)) ∧
    (sourceID.toIntegerOk.2 = true →
      setBreakpoint sourceID bp (.error e) w =
        (([], 0, 0),
          emit (.JsDiagSetBreakpoint sourceID.toIntegerOk.1 bp.lineNumber bp.columnNumber)
            w)) := by
  constructor
  · intro h
    simp [setBreakpoint, h]
  · intro h
    simp [setBreakpoint, h]

/-- C14, amended, at a concrete input: the script ids `"abc"` and `"5"`. -/
theorem C14_set_breakpoint_failures_witness :
    exampleNotANumber.toIntegerOk.2 = false ∧
    exampleScriptId.toIntegerOk.2 = true ∧
    setBreakpoint exampleNotANumber exampleScriptBreakpoint (.ok ⟨.ok 7, .ok 11, .ok 0⟩)
      exampleRunning = (([], 0, 0), exampleRunning) ∧
    setBreakpoint exampleScriptId exampleScriptBreakpoint (.error (.JsErrorOther 1))
      exampleRunning =
        (([], 0, 0),
          emit (.JsDiagSetBreakpoint exampleScriptId.toIntegerOk.1
            exampleScriptBreakpoint.lineNumber exampleScriptBreakpoint.columnNumber)
            exampleRunning) :=
  ⟨by decide, by decide,
    (C14_set_breakpoint_failures exampleNotANumber exampleScriptBreakpoint
      (.ok ⟨.ok 7, .ok 11, .ok 0⟩) (.JsErrorOther 1) exampleRunning).1 (by decide),
    (C14_set_breakpoint_failures exampleScriptId exampleScriptBreakpoint
      (.ok ⟨.ok 7, .ok 11, .ok 0⟩) (.JsErrorOther 1) exampleRunning).2 (by decide)⟩

theorem markContext_succeeds (b : Build) (info : V8ContextInfo) (w : World)
    (hiso : info.inDebuggerIsolate = true ∨ b.dcheckOn = false) :
    markContext b info w =
      .ok (String16.toInt32 (w.m_lastContextId + 1),
        ({ info.context with
            debugId := EmbedderData.string
              (String16.fromInteger info.contextGroupId ++ [','] ++
                String16.fromInteger (String16.toInt32 (w.m_lastContextId + 1)) ++ [','] ++
                info.auxData) } : Context),
        SetEmbedderData info.context.handle
            (String16.fromInteger info.contextGroupId ++ [','] ++
              String16.fromInteger (String16.toInt32 (w.m_lastContextId + 1)) ++ [','] ++
              info.auxData)
          { w with m_lastContextId := String16.toInt32 (w.m_lastContextId + 1) }) := by
  have hd : DCHECK b info.inDebuggerIsolate w = .ok w := by
    unfold DCHECK
    rcases hiso with h | h <;> simp [h]
  simp [markContext, hd]

/-! ## C15: the context triple round trip -/

/-- C15.  For a group id in the range of `int` and any auxiliary data,
`markContext` (on a context of the isolate of the debugger, or with DCHECKs
compiled out) returns an id `c`, stores the marker
`fromInteger groupId ++ "," ++ fromInteger c ++ "," ++ auxData` on the context,
and on the marked context `contextId` gives `c` and `getGroupId` gives the
group id. -/
theorem C15_context_triple_round_trip (b : Build) (info : V8ContextInfo) (w : World)
    (hlo : -2147483648 ≤ info.contextGroupId) (hhi : info.contextGroupId < 2147483648)
    (hiso : info.inDebuggerIsolate = true ∨ b.dcheckOn = false) :
    ∃ c marked w1, markContext b info w = .ok (c, marked, w1) ∧
      marked.handle = info.context.handle ∧
      marked.debugId = .string (String16.fromInteger info.contextGroupId ++ [','] ++
        String16.fromInteger c ++ [','] ++ info.auxData) ∧
      newEffects w w1 = [Effect.SetEmbedderData info.context.handle
        (String16.fromInteger info.contextGroupId ++ [','] ++
          String16.fromInteger c ++ [','] ++ info.auxData)] ∧
      contextId marked = c ∧
      getGroupId marked = info.contextGroupId := by
  have hm : String16.fromInteger info.contextGroupId ++ [','] ++
      String16.fromInteger (String16.toInt32 (w.m_lastContextId + 1)) ++ [','] ++ info.auxData =
      String16.fromInteger info.contextGroupId ++ ',' ::
        (String16.fromInteger (String16.toInt32 (w.m_lastContextId + 1)) ++ ',' ::
          info.auxData) := by
    simp
  refine ⟨_, _, _, markContext_succeeds b info w hiso, rfl, rfl,
    by simp [newEffects, SetEmbedderData, emit], ?_, ?_⟩
  · have h := contextId_split info.context.handle (String16.fromInteger info.contextGroupId)
      (String16.fromInteger (String16.toInt32 (w.m_lastContextId + 1))) info.auxData
      (fromInteger_no_comma _) (fromInteger_no_comma _)
    have hr := toIntegerOk_fromInteger (String16.toInt32 (w.m_lastContextId + 1))
      (toInt32_range _).1 (toInt32_range _).2
    rw [hm, h, String16.toInteger, hr]
  · have h := getGroupId_split info.context.handle (String16.fromInteger info.contextGroupId)
      (String16.fromInteger (String16.toInt32 (w.m_lastContextId + 1)) ++ ',' :: info.auxData)
      (fromInteger_no_comma _)
    have hr := toIntegerOk_fromInteger info.contextGroupId hlo hhi
    rw [hm, h, String16.toInteger, hr]

/-- C15 at a concrete input: marking `unmarkedContext` for group 1 with the
auxiliary data `"a,b"` on a fresh debugger. -/
theorem C15_context_triple_round_trip_witness :
    (-2147483648 : Int) ≤ exampleInfo.contextGroupId ∧
    exampleInfo.contextGroupId < 2147483648 ∧
    (exampleInfo.inDebuggerIsolate = true ∨ debugBuild.dcheckOn = false) ∧
    markContext debugBuild exampleInfo (World.fresh [] true) =
      .ok (1, markedContext, markedWorld) ∧
    ∃ c marked w1, markContext debugBuild exampleInfo (World.fresh [] true)
        = .ok (c, marked, w1) ∧
      marked.handle = exampleInfo.context.handle ∧
      marked.debugId = .string (String16.fromInteger exampleInfo.contextGroupId ++ [','] ++
        String16.fromInteger c ++ [','] ++ exampleInfo.auxData) ∧
      newEffects (World.fresh [] true) w1 = [Effect.SetEmbedderData exampleInfo.context.handle
        (String16.fromInteger exampleInfo.contextGroupId ++ [','] ++
          String16.fromInteger c ++ [','] ++ exampleInfo.auxData)] ∧
      contextId marked = c ∧
      getGroupId marked = exampleInfo.contextGroupId :=
  ⟨by decide, by decide, by decide, by decide,
    C15_context_triple_round_trip debugBuild exampleInfo (World.fresh [] true)
      (by decide) (by decide) (by decide)⟩

/-! ## C16: an unmarked context -/

/-- C16.  On a context whose debug-id slot is absent, holds a value that is not
a string, or holds the empty string, `contextId` and `getGroupId` both return 0. -/
theorem C16_unmarked_resolves_to_zero (handle : Nat) :
    contextId ⟨handle, .empty⟩ = 0 ∧ getGroupId ⟨handle, .empty⟩ = 0 ∧
    contextId ⟨handle, .notString⟩ = 0 ∧ getGroupId ⟨handle, .notString⟩ = 0 ∧
    contextId ⟨handle, .string []⟩ = 0 ∧ getGroupId ⟨handle, .string []⟩ = 0 :=
  ⟨rfl, rfl, rfl, rfl, rfl, rfl⟩

/-! ## C17: a malformed marker -/

/-- C17 as stated fails.  The marker `"5,7"` has one comma only, and
`getGroupId` returns 5 on it (`contextId` returns 0). -/
theorem C17_counterexample :
    exampleShortMarker.count ',' = 1 ∧
    getGroupId ⟨3, .string exampleShortMarker⟩ = 5 ∧
    contextId ⟨3, .string exampleShortMarker⟩ = 0 := by
  decide

/-- C17, amended.  `contextId` returns 0 on every marker with fewer than two
commas.  `getGroupId` returns 0 on every marker without a comma; on a marker
with a comma it returns the integer read from the text before the first comma,
whatever follows that comma. -/
theorem C17_malformed_marker (handle : Nat) (s : String16) :
    (s.count ',' < 2 → contextId ⟨handle, .string s⟩ = 0) ∧
    (',' ∉ s → getGroupId ⟨handle, .string s⟩ = 0) ∧
    (∀ pre rest : String16, s = pre ++ ',' :: rest → ',' ∉ pre →
      getGroupId ⟨handle, .string s⟩ = String16.toInteger pre) := by
  refine ⟨contextId_few_commas handle s, getGroupId_no_comma handle s, ?_⟩
  intro pre rest hs hpre
  rw [hs]
  exact getGroupId_split handle pre rest hpre

/-- C17, amended, at concrete inputs: the markers `"5,7"` and `"5"`. -/
theorem C17_malformed_marker_witness :
    exampleShortMarker.count ',' < 2 ∧
    contextId ⟨3, .string exampleShortMarker⟩ = 0 ∧
    ',' ∉ ['5'] ∧
    getGroupId ⟨3, .string ['5']⟩ = 0 ∧
    getGroupId ⟨3, .string exampleShortMarker⟩ = String16.toInteger ['5'] :=
  ⟨by decide,
    (C17_malformed_marker 3 exampleShortMarker).1 (by decide),
    by decide,
    (C17_malformed_marker 3 ['5']).2.1 (by decide),
    (C17_malformed_marker 3 exampleShortMarker).2.2 ['5'] ['7'] rfl (by decide)⟩

/-! ## C18: marking a context twice -/

/-- C18 as stated fails.  `markContext` on `markedContext`, which already
carries `"1,1,a,b"`, in a debugger whose last id is 1: the call succeeds,
returns 2, replaces the marker by `"1,2,a,b"` and moves the last id to 2. -/
theorem C18_counterexample :
    markContext debugBuild exampleInfo (World.fresh [] true) =
      .ok (1, markedContext, markedWorld) ∧
    markContext debugBuild { exampleInfo with context := markedContext } markedWorld =
      .ok (2, ⟨2, .string ['1', ',', '2', ',', 'a', ',', 'b']⟩,
        emit (.SetEmbedderData 2 ['1', ',', '2', ',', 'a', ',', 'b'])
          { markedWorld with m_lastContextId := 2 }) ∧
    markedContext.debugId ≠ .string ['1', ',', '2', ',', 'a', ',', 'b'] ∧
    markedWorld.m_lastContextId = 1 := by
  decide

/-- C18, amended.  `markContext` never looks at the marker a context already
carries: called on a context with any earlier marker `old` it does exactly what
it does on the same context without it, that is, it takes the next id, replaces
the marker by the new triple and returns the new id.  There is no
`AlreadyMarked` failure. -/
theorem C18_mark_context_remarks (b : Build) (info : V8ContextInfo) (old : EmbedderData)
    (w : World) (hiso : info.inDebuggerIsolate = true ∨ b.dcheckOn = false) :
    markContext b { info with context := { info.context with debugId := old } } w =
      markContext b info w ∧
    ∃ marked w1,
      markContext b { info with context := { info.context with debugId := old } } w =
        .ok (String16.toInt32 (w.m_lastContextId + 1), marked, w1) ∧
      marked.debugId = .string (String16.fromInteger info.contextGroupId ++ [','] ++
        String16.fromInteger (String16.toInt32 (w.m_lastContextId + 1)) ++ [','] ++
        info.auxData) ∧
      w1.m_lastContextId = String16.toInt32 (w.m_lastContextId + 1) := by
  have h1 := markContext_succeeds b info w hiso
  have h2 := markContext_succeeds b
    { info with context := { info.context with debugId := old } } w hiso
  refine ⟨h2.trans h1.symm, _, _, h2, rfl, rfl⟩

/-- C18, amended, at a concrete input: marking `unmarkedContext` again after it
was given the marker `"1,1,a,b"`. -/
theorem C18_mark_context_remarks_witness :
    (exampleInfo.inDebuggerIsolate = true ∨ debugBuild.dcheckOn = false) ∧
    markContext debugBuild
        { exampleInfo with
          context := { exampleInfo.context with debugId := markedContext.debugId } }
        (World.fresh [] true) =
      markContext debugBuild exampleInfo (World.fresh [] true) :=
  ⟨by decide,
    (C18_mark_context_remarks debugBuild exampleInfo markedContext.debugId (World.fresh [] true)
      (by decide)).1⟩

/-! ## C19: sequential context ids -/

/-- C19.  After any run from a fresh debugger that contains `n - 1` calls of
`markContext` (all of them returned, or the run would have ended), the next
`markContext` call returns `n`, whatever its group id, as long as `n` is below
the overflow of `int`.  Any later call returns a strictly larger id, so no two
calls return the same id. -/
theorem C19_context_ids_sequential (b : Build) (agents : List Int) (inContext : Bool)
    (pre : List Input) (info : V8ContextInfo) (wp : World)
    (hpre : run b (World.fresh agents inContext) pre = .ok wp)
    (hlt : (markCount pre : Int) + 1 < 2147483648)
    (hiso : info.inDebuggerIsolate = true ∨ b.dcheckOn = false) :
    ∃ marked w1,
      markContext b info wp = .ok ((markCount pre : Int) + 1, marked, w1) ∧
      step b wp (.markContext info) = .ok w1 ∧
      ∀ (mid : List Input) (w2 : World) (info2 : V8ContextInfo) (c2 : Int)
        (marked2 : Context) (w3 : World),
        run b w1 mid = .ok w2 →
        (markCount pre : Int) + markCount mid + 2 < 2147483648 →
        markContext b info2 w2 = .ok (c2, marked2, w3) →
        c2 = (markCount pre : Int) + markCount mid + 2 ∧ (markCount pre : Int) + 1 < c2 := by
  have hwp : wp.m_lastContextId = markCount pre := by
    have h0 : (World.fresh agents inContext).m_lastContextId = 0 := rfl
    have := run_lastContextId b pre (World.fresh agents inContext) wp hpre
      (by rw [h0]) (by rw [h0]; omega)
    rw [this, h0]
    omega
  have hnext : String16.toInt32 (wp.m_lastContextId + 1) = (markCount pre : Int) + 1 := by
    rw [hwp]
    exact String16.toInt32_of_nonneg_lt _ (by omega) hlt
  have hm := markContext_succeeds b info wp hiso
  rw [hnext] at hm
  refine ⟨_, _, hm, by simp [step, hm, pure, Except.pure], ?_⟩
  intro mid w2 info2 c2 marked2 w3 hmid hlt2 hm2
  have hw2 := run_lastContextId b mid _ w2 hmid (by simp [SetEmbedderData, emit]; omega)
    (by simp [SetEmbedderData, emit]; omega)
  have hr := markContext_ok b info2 w2 _ hm2
  simp only [Prod.mk.injEq] at hr
  have hc2 : c2 = (markCount pre : Int) + markCount mid + 2 := by
    rw [hr.1, hw2]
    simp only [SetEmbedderData, emit]
    rw [String16.toInt32_of_nonneg_lt _ (by omega) (by omega)]
    omega
  exact ⟨hc2, by omega⟩

/-- C19 at a concrete input: after one `markContext` call and an `enable`, the
second `markContext` call returns 2. -/
theorem C19_context_ids_sequential_witness :
    run debugBuild (World.fresh [] true) [.markContext exampleInfo, .enable] =
      .ok (enable markedWorld) ∧
    ((markCount [Input.markContext exampleInfo, Input.enable] : Nat) : Int) + 1 = 2 ∧
    (exampleInfo.inDebuggerIsolate = true ∨ debugBuild.dcheckOn = false) ∧
    ∃ marked w1,
      markContext debugBuild exampleInfo (enable markedWorld) =
        .ok (((markCount [Input.markContext exampleInfo, Input.enable] : Nat) : Int) + 1,
          marked, w1) ∧
      step debugBuild (enable markedWorld) (.markContext exampleInfo) = .ok w1 ∧
      ∀ (mid : List Input) (w2 : World) (info2 : V8ContextInfo) (c2 : Int)
        (marked2 : Context) (w3 : World),
        run debugBuild w1 mid = .ok w2 →
        ((markCount [Input.markContext exampleInfo, Input.enable] : Nat) : Int) +
          markCount mid + 2 < 2147483648 →
        markContext debugBuild info2 w2 = .ok (c2, marked2, w3) →
        c2 = ((markCount [Input.markContext exampleInfo, Input.enable] : Nat) : Int) +
            markCount mid + 2 ∧
          ((markCount [Input.markContext exampleInfo, Input.enable] : Nat) : Int) + 1 < c2 :=
  ⟨by decide, by decide, by decide,
    C19_context_ids_sequential debugBuild [] true [.markContext exampleInfo, .enable]
      exampleInfo (enable markedWorld) (by decide) (by decide) (by decide)⟩

/-! ## C20: the effective async call stack depth -/

/-- C20.  After any run from a fresh debugger, an agent is in
`m_maxAsyncCallStackDepthMap` exactly when its latest `setAsyncCallStackDepth`
call had a positive depth, and then with that depth; no agent is there twice;
and `m_maxAsyncCallStackDepth` is the maximum of the depths in the map, 0 for
the empty map: it bounds every depth in the map and, when the map is not
empty, is one of them. -/
theorem C20_effective_async_depth (b : Build) (agents : List Int) (inContext : Bool)
    (inputs : List Input) (w : World)
    (hrun : run b (World.fresh agents inContext) inputs = .ok w) :
    (∀ agent : V8DebuggerAgentImpl,
      List.lookup agent w.m_maxAsyncCallStackDepthMap =
        registeredDepth (latestDepth inputs agent)) ∧
    (w.m_maxAsyncCallStackDepthMap.map Prod.fst).Nodup ∧
    w.m_maxAsyncCallStackDepth = (w.m_maxAsyncCallStackDepthMap.map Prod.snd).foldr max 0 ∧
    (w.m_maxAsyncCallStackDepthMap = [] → w.m_maxAsyncCallStackDepth = 0) ∧
    (∀ p ∈ w.m_maxAsyncCallStackDepthMap, 0 < p.2 ∧ p.2 ≤ w.m_maxAsyncCallStackDepth) ∧
    (w.m_maxAsyncCallStackDepthMap ≠ [] →
      ∃ p ∈ w.m_maxAsyncCallStackDepthMap, p.2 = w.m_maxAsyncCallStackDepth) := by
  obtain ⟨q1, q2, q3, q4⟩ := run_asyncDepth b inputs (World.fresh agents inContext) w hrun
    (by simp [World.fresh, V8Debugger.new]) (by simp [World.fresh, V8Debugger.new])
    (by simp [World.fresh, V8Debugger.new])
  refine ⟨?_, q1, q3, ?_, ?_, ?_⟩
  · intro agent
    exact q4 agent none (by simp [World.fresh, V8Debugger.new, registeredDepth])
  · intro hempty
    rw [q3, hempty]
    rfl
  · intro p hp
    refine ⟨q2 p hp, ?_⟩
    rw [q3]
    exact le_foldr_max _ _ (List.mem_map_of_mem _ hp)
  · intro hne
    have hne2 : w.m_maxAsyncCallStackDepthMap.map Prod.snd ≠ [] := by
      simpa using hne
    have hmem := foldr_max_mem _ hne2 (by
      intro x hx
      obtain ⟨p, hp, rfl⟩ := List.mem_map.1 hx
      exact q2 p hp)
    obtain ⟨p, hp, hpe⟩ := List.mem_map.1 hmem
    exact ⟨p, hp, by rw [q3, hpe]⟩

/-- C20 at concrete inputs: the depths 3, 7 and 2 give 7; removing the agent
with depth 7 gives 3; removing all agents gives 0. -/
theorem C20_effective_async_depth_witness :
    run debugBuild (World.fresh [] true) exampleDepthCalls = .ok exampleDepthWorld ∧
    exampleDepthWorld.m_maxAsyncCallStackDepth = 7 ∧
    exampleDepthWorld.m_maxAsyncCallStackDepth =
      (exampleDepthWorld.m_maxAsyncCallStackDepthMap.map Prod.snd).foldr max 0 ∧
    List.lookup 2 exampleDepthWorld.m_maxAsyncCallStackDepthMap =
      registeredDepth (latestDepth exampleDepthCalls 2) ∧
    (setAsyncCallStackDepth 2 0 exampleDepthWorld).m_maxAsyncCallStackDepth = 3 ∧
    (setAsyncCallStackDepth 3 (-1) (setAsyncCallStackDepth 1 0
      (setAsyncCallStackDepth 2 0 exampleDepthWorld))).m_maxAsyncCallStackDepth = 0 ∧
    (setAsyncCallStackDepth 3 (-1) (setAsyncCallStackDepth 1 0
      (setAsyncCallStackDepth 2 0 exampleDepthWorld))).m_maxAsyncCallStackDepthMap = [] :=
  ⟨by decide, by decide,
    (C20_effective_async_depth debugBuild [] true exampleDepthCalls exampleDepthWorld
      (by decide)).2.2.1,
    (C20_effective_async_depth debugBuild [] true exampleDepthCalls exampleDepthWorld
      (by decide)).1 2,
    by decide, by decide, by decide⟩

/-! ## C21: cancellation on the drop to zero -/

theorem setAsyncCallStackDepth_stored (agent : V8DebuggerAgentImpl) (depth : Int) (w : World) :
    (setAsyncCallStackDepth agent depth w).m_maxAsyncCallStackDepth =
      setAsyncCallStackDepth_max
        (setAsyncCallStackDepth_map agent depth w.m_maxAsyncCallStackDepthMap) ∧
    (setAsyncCallStackDepth agent depth w).m_maxAsyncCallStackDepthMap =
      setAsyncCallStackDepth_map agent depth w.m_maxAsyncCallStackDepthMap := by
  unfold setAsyncCallStackDepth
  simp only
  split
  · rename_i h
    exact ⟨h, rfl⟩
  · split <;> simp [allAsyncTasksCanceled, emit]

theorem setAsyncCallStackDepth_effects (agent : V8DebuggerAgentImpl) (depth : Int) (w : World) :
    newEffects w (setAsyncCallStackDepth agent depth w) =
      (if w.m_maxAsyncCallStackDepth ≠ 0 ∧
          (setAsyncCallStackDepth agent depth w).m_maxAsyncCallStackDepth = 0
        then [Effect.allAsyncTasksCanceled] else []) := by
  rw [(setAsyncCallStackDepth_stored agent depth w).1]
  unfold setAsyncCallStackDepth
  simp only
  by_cases h1 : w.m_maxAsyncCallStackDepth =
      setAsyncCallStackDepth_max
        (setAsyncCallStackDepth_map agent depth w.m_maxAsyncCallStackDepthMap)
  · rw [if_pos h1]
    have h2 : ¬ (w.m_maxAsyncCallStackDepth ≠ 0 ∧
        setAsyncCallStackDepth_max
          (setAsyncCallStackDepth_map agent depth w.m_maxAsyncCallStackDepthMap) = 0) := by
      rintro ⟨a, c⟩
      exact a (h1.trans c)
    rw [if_neg h2]
    simp [newEffects]
  · rw [if_neg h1]
    by_cases h3 : setAsyncCallStackDepth_max
        (setAsyncCallStackDepth_map agent depth w.m_maxAsyncCallStackDepthMap) = 0
    · have h4 : w.m_maxAsyncCallStackDepth ≠ 0 := fun a => h1 (a.trans h3.symm)
      rw [if_pos h3, if_pos ⟨h4, h3⟩]
      simp [newEffects, allAsyncTasksCanceled, emit]
    · have h2 : ¬ (w.m_maxAsyncCallStackDepth ≠ 0 ∧
          setAsyncCallStackDepth_max
            (setAsyncCallStackDepth_map agent depth w.m_maxAsyncCallStackDepthMap) = 0) :=
        fun a => h3 a.2
      rw [if_neg h3, if_neg h2]
      simp [newEffects]

/-- C21. In every state a run from a fresh debugger reaches, the stored
effective depth is the largest registered depth (0 when there is none), before
and after a `setAsyncCallStackDepth` call, and the call calls
`allAsyncTasksCanceled` exactly once when the effective depth was nonzero
before it and is zero after it, and makes no call at all otherwise: not when
the depth stays zero, stays nonzero, changes between nonzero values or rises
from zero. -/
theorem C21_cancel_on_drop_to_zero (b : Build) (agents : List Int) (inContext : Bool)
    (inputs : List Input) (w : World) (agent : V8DebuggerAgentImpl) (depth : Int)
    (hrun : run b (World.fresh agents inContext) inputs = .ok w) :
    w.m_maxAsyncCallStackDepth = effectiveDepth w.m_maxAsyncCallStackDepthMap ∧
    (setAsyncCallStackDepth agent depth w).m_maxAsyncCallStackDepth =
      effectiveDepth (setAsyncCallStackDepth agent depth w).m_maxAsyncCallStackDepthMap ∧
    newEffects w (setAsyncCallStackDepth agent depth w) =
      (if effectiveDepth w.m_maxAsyncCallStackDepthMap ≠ 0 ∧
          effectiveDepth (setAsyncCallStackDepth agent depth w).m_maxAsyncCallStackDepthMap = 0
        then [Effect.allAsyncTasksCanceled] else []) := by
  have hfresh := run_asyncDepth b inputs (World.fresh agents inContext) w hrun
    (by simp [World.fresh, V8Debugger.new]) (by simp [World.fresh, V8Debugger.new])
    (by simp [World.fresh, V8Debugger.new])
  have h1 : w.m_maxAsyncCallStackDepth = effectiveDepth w.m_maxAsyncCallStackDepthMap :=
    hfresh.2.2.1
  have h2 : (setAsyncCallStackDepth agent depth w).m_maxAsyncCallStackDepth =
      effectiveDepth (setAsyncCallStackDepth agent depth w).m_maxAsyncCallStackDepthMap := by
    obtain ⟨s1, s2⟩ := setAsyncCallStackDepth_stored agent depth w
    rw [s1, s2]
    exact setAsyncCallStackDepth_max_eq _
  refine ⟨h1, h2, ?_⟩
  rw [← h1, ← h2]
  exact setAsyncCallStackDepth_effects agent depth w

/-- C21 at concrete inputs: after one agent registered the depth 3, its call
with depth 0 drops the effective depth from 3 to 0 and cancels once; its call
with depth 5 changes 3 to 5 and does not cancel. -/
theorem C21_cancel_on_drop_to_zero_witness :
    run debugBuild (World.fresh [] true) [.setAsyncCallStackDepth 1 3] =
      .ok exampleOneDepthWorld ∧
    effectiveDepth exampleOneDepthWorld.m_maxAsyncCallStackDepthMap = 3 ∧
    newEffects exampleOneDepthWorld (setAsyncCallStackDepth 1 0 exampleOneDepthWorld) =
      [Effect.allAsyncTasksCanceled] ∧
    newEffects exampleOneDepthWorld (setAsyncCallStackDepth 1 5 exampleOneDepthWorld) = [] :=
  ⟨by decide, by decide,
    ((C21_cancel_on_drop_to_zero debugBuild [] true [.setAsyncCallStackDepth 1 3]
      exampleOneDepthWorld 1 0 (by decide)).2.2).trans (by decide),
    ((C21_cancel_on_drop_to_zero debugBuild [] true [.setAsyncCallStackDepth 1 3]
      exampleOneDepthWorld 1 5 (by decide)).2.2).trans (by decide)⟩

/-! ## C22: the operations the engine does not support -/

/-- C22 as stated fails.  In a build with assertions `setScriptSource` and
`internalProperties` stop at `assert(false)`; in a build without them
`setScriptSource` returns `false` and leaves the error string as it found it,
here empty, and `internalProperties` returns the empty result. -/
theorem C22_counterexample :
    setScriptSource debugBuild exampleScriptId [] false exampleOutputs (World.fresh [] true) =
      .error ⟨.assertFailed, World.fresh [] true⟩ ∧
    internalProperties debugBuild exampleContext 0 (World.fresh [] true) =
      .error ⟨.assertFailed, World.fresh [] true⟩ ∧
    setScriptSource releaseBuild exampleScriptId [] false exampleOutputs (World.fresh [] true) =
      .ok (false, exampleOutputs, World.fresh [] true) ∧
    exampleOutputs.error = [] ∧
    internalProperties releaseBuild exampleContext 0 (World.fresh [] true) =
      .ok (none, World.fresh [] true) := by
  decide

/-- C22, amended. For every input, `setScriptSource` and `internalProperties`
stop at `assert(false)` when assertions are compiled in, the debugger being as
it was.  When assertions are compiled out `setScriptSource` returns `false`
and writes nothing through `error`, `exceptionDetails`, `newCallFrames` and
`stackChanged`, `internalProperties` returns the empty result, and neither
changes the debugger or calls a collaborator. -/
theorem C22_unsupported_operations (b : Build) (sourceID newSource : String16) (dryRun : Bool)
    (outputs : SetScriptSourceOutputs) (context : Context) (value : JsValueRef) (w : World) :
    setScriptSource b sourceID newSource dryRun outputs w =
      (if b.assertOn = true then .error ⟨.assertFailed, w⟩ else .ok (false, outputs, w)) ∧
    internalProperties b context value w =
      (if b.assertOn = true then .error ⟨.assertFailed, w⟩ else .ok (none, w)) := by
  cases hb : b.assertOn <;> simp [setScriptSource, internalProperties, assert, hb]

/-! ## C23: the call frames and the limit -/

theorem debuggerContext_ok (b : Build) (w : World)
    (hctx : w.m_debuggerContext = true ∨ b.dcheckOn = false) :
    debuggerContext b w = .ok w.m_debuggerContext := by
  rcases hctx with h | h <;> simp [debuggerContext, DCHECK, h]

theorem currentCallFrames_loop_readable (b : Build) (frames : List JsValueRef) (w : World)
    (hctx : w.m_debuggerContext = true ∨ b.dcheckOn = false) :
    ∀ (remaining i : Nat) (callFrames : List JavaScriptCallFrame),
      i + remaining ≤ frames.length →
      currentCallFrames_loop b (StackTrace.readable frames) w remaining i callFrames =
        .ok (callFrames ++
          ((frames.drop i).take remaining).map (fun v => ⟨w.m_debuggerContext, v⟩)) := by
  intro remaining
  induction remaining with
  | zero =>
    intro i callFrames _
    simp [currentCallFrames_loop]
  | succ n ih =>
    intro i callFrames hle
    have hi : i < frames.length := by omega
    have hget : frames.get? i = some (frames.get ⟨i, hi⟩) := List.get?_eq_get hi
    have hdrop : frames.drop i = frames.get ⟨i, hi⟩ :: frames.drop (i + 1) :=
      List.drop_eq_getElem_cons hi
    have hread : (StackTrace.readable frames).GetIndexedProperty i =
        .ok (frames.get ⟨i, hi⟩) := by
      simp only [StackTrace.readable, hget]
    simp only [currentCallFrames_loop, hread, debuggerContext_ok b w hctx]
    rw [ih (i + 1) _ (by omega), hdrop, List.take_succ_cons, List.map_cons, List.append_assoc]
    rfl

theorem debuggerContext_unset (b : Build) (w : World)
    (hctx : w.m_debuggerContext = false) (hb : b.dcheckOn = true) :
    debuggerContext b w = .error ⟨.dcheckFailed, w⟩ := by
  simp [debuggerContext, DCHECK, hctx, hb]

theorem currentCallFrames_loop_unset (b : Build) (frames : List JsValueRef) (w : World)
    (hctx : w.m_debuggerContext = false) (hb : b.dcheckOn = true)
    (n : Nat) (hn : 0 < n) (hne : frames ≠ []) :
    currentCallFrames_loop b (StackTrace.readable frames) w n 0 [] =
      .error ⟨.dcheckFailed, w⟩ := by
  obtain ⟨m, rfl⟩ : ∃ m, n = m + 1 := ⟨n - 1, by omega⟩
  obtain ⟨v, rest, rfl⟩ : ∃ v rest, frames = v :: rest := by
    cases frames with
    | nil => exact absurd rfl hne
    | cons v rest => exact ⟨v, rest, rfl⟩
  have hread : (StackTrace.readable (v :: rest)).GetIndexedProperty 0 = .ok v := rfl
  simp only [currentCallFrames_loop, hread, debuggerContext_unset b w hctx hb]

theorem currentCallFrames_inContext (b : Build) (limit : Int) (frames : List JsValueRef)
    (w : World) (hin : w.inContext = true) :
    currentCallFrames b limit (StackTrace.readable frames) w =
      match currentCallFrames_loop b (StackTrace.readable frames) (emit .JsDiagGetStackTrace w)
        (if limit > 0 then min limit (frames.length : Int) else (frames.length : Int)).toNat
        0 [] with
      | .error c => .error c
      | .ok callFrames => .ok (callFrames, emit .JsDiagGetStackTrace w) := by
  have hlen : (StackTrace.readable frames).length = .ok (frames.length : Int) := rfl
  simp only [currentCallFrames, hin, Bool.not_true, Bool.false_eq_true, if_false, hlen]
  by_cases h1 : limit > 0
  · by_cases h2 : limit < (frames.length : Int)
    · rw [if_pos ⟨h1, h2⟩, if_pos h1, min_eq_left (le_of_lt h2)]
    · rw [if_neg (fun a => h2 a.2), if_pos h1, min_eq_right (not_lt.1 h2)]
  · rw [if_neg (fun a => h1 a.1), if_neg h1]

/-- C23 as stated fails.  A debugger that was never enabled has no debugger
context; inside a context, with a readable stack of three frames and DCHECKs
compiled in, `currentCallFrames(2)` stops at the check of `debuggerContext`
instead of returning two frames. -/
theorem C23_counterexample :
    (World.fresh [] true).inContext = true ∧
    currentCallFrames debugBuild 2 (StackTrace.readable exampleFrames) (World.fresh [] true) =
      .error ⟨.dcheckFailed, emit .JsDiagGetStackTrace (World.fresh [] true)⟩ := by
  decide

/-- C23, amended. With no context active `currentCallFrames(limit)` returns the
empty list, whatever the native stack.  In a context, on a native stack trace
of `L` readable frames, it asks the engine for the stack once and, when the
debugger context is set, DCHECKs are compiled out or `L = 0`, returns the
first `min(limit, L)` frames in stack order when `limit > 0` and all `L`
frames in stack order when `limit ≤ 0`, each created with the debugger
context; when the debugger context is not set, DCHECKs are compiled in and
there is a frame to return, it stops at the check of `debuggerContext`. -/
theorem C23_call_frames_bounded (b : Build) (limit : Int) (frames : List JsValueRef)
    (w : World) :
    (w.inContext = false →
      ∀ stackTrace : StackTrace, currentCallFrames b limit stackTrace w = .ok ([], w)) ∧
    (w.inContext = true →
      w.m_debuggerContext = true ∨ b.dcheckOn = false ∨ frames = [] →
      currentCallFrames b limit (StackTrace.readable frames) w =
        .ok ((if limit > 0 then frames.take (min limit (frames.length : Int)).toNat
              else frames).map (fun v => ⟨w.m_debuggerContext, v⟩),
          emit .JsDiagGetStackTrace w)) ∧
    (w.inContext = true →
      w.m_debuggerContext = false → b.dcheckOn = true → frames ≠ [] →
      currentCallFrames b limit (StackTrace.readable frames) w =
        .error ⟨.dcheckFailed, emit .JsDiagGetStackTrace w⟩) := by
  refine ⟨?_, ?_, ?_⟩
  · intro hin stackTrace
    simp [currentCallFrames, hin]
  · intro hin hctx
    rw [currentCallFrames_inContext b limit frames w hin]
    rcases hctx with hctx | hctx | hctx
    · have hloop := fun n (hn : 0 + n ≤ frames.length) =>
        currentCallFrames_loop_readable b frames (emit .JsDiagGetStackTrace w)
          (Or.inl hctx) n 0 [] hn
      have hd : (emit .JsDiagGetStackTrace w).m_debuggerContext = w.m_debuggerContext := rfl
      simp only [hd, List.drop_zero, List.nil_append] at hloop
      by_cases h1 : limit > 0
      · rw [if_pos h1, if_pos h1, hloop _ (by omega)]
      · rw [if_neg h1, if_neg h1, hloop _ (by simp)]
        simp
    · have hloop := fun n (hn : 0 + n ≤ frames.length) =>
        currentCallFrames_loop_readable b frames (emit .JsDiagGetStackTrace w)
          (Or.inr hctx) n 0 [] hn
      have hd : (emit .JsDiagGetStackTrace w).m_debuggerContext = w.m_debuggerContext := rfl
      simp only [hd, List.drop_zero, List.nil_append] at hloop
      by_cases h1 : limit > 0
      · rw [if_pos h1, if_pos h1, hloop _ (by omega)]
      · rw [if_neg h1, if_neg h1, hloop _ (by simp)]
        simp
    · subst hctx
      by_cases h1 : limit > 0
      · have h0 : (min limit ((([] : List JsValueRef).length : Nat) : Int)).toNat = 0 := by
          simp only [List.length_nil, Nat.cast_zero]
          omega
        rw [if_pos h1, if_pos h1, h0]
        simp [currentCallFrames_loop]
      · rw [if_neg h1, if_neg h1]
        simp [currentCallFrames_loop]
  · intro hin hctx hb hne
    rw [currentCallFrames_inContext b limit frames w hin]
    have hpos : 0 < (if limit > 0 then min limit (frames.length : Int)
        else (frames.length : Int)).toNat := by
      have hl : 0 < frames.length := List.length_pos.2 hne
      split <;> omega
    rw [currentCallFrames_loop_unset b frames (emit .JsDiagGetStackTrace w) hctx hb _ hpos hne]

/-- C23, amended, at concrete inputs: on the enabled `exampleRunning`, inside a
context, with a stack of three frames: limit 2 gives the first two frames,
limit 5 and limit 0 give all three. -/
theorem C23_call_frames_bounded_witness :
    exampleRunning.inContext = true ∧
    exampleRunning.m_debuggerContext = true ∧
    currentCallFrames debugBuild 2 (StackTrace.readable exampleFrames) exampleRunning =
      .ok ([⟨true, 11⟩, ⟨true, 12⟩], emit .JsDiagGetStackTrace exampleRunning) ∧
    currentCallFrames debugBuild 5 (StackTrace.readable exampleFrames) exampleRunning =
      .ok ([⟨true, 11⟩, ⟨true, 12⟩, ⟨true, 13⟩], emit .JsDiagGetStackTrace exampleRunning) ∧
    currentCallFrames debugBuild 0 (StackTrace.readable exampleFrames) exampleRunning =
      .ok ([⟨true, 11⟩, ⟨true, 12⟩, ⟨true, 13⟩], emit .JsDiagGetStackTrace exampleRunning) :=
  ⟨by decide, by decide,
    ((C23_call_frames_bounded debugBuild 2 exampleFrames exampleRunning).2.1
      (by decide) (Or.inl (by decide))).trans (by decide),
    ((C23_call_frames_bounded debugBuild 5 exampleFrames exampleRunning).2.1
      (by decide) (Or.inl (by decide))).trans (by decide),
    ((C23_call_frames_bounded debugBuild 0 exampleFrames exampleRunning).2.1
      (by decide) (Or.inl (by decide))).trans (by decide)⟩

/-! ## C24: the enable count -/

theorem handlerInstalled_append (trace : List Effect) (e : Effect) :
    handlerInstalled (trace ++ [e]) =
      (match e with
        | .SetDebugEventHandler i => i
        | _ => handlerInstalled trace) := by
  simp only [handlerInstalled, List.foldl_append, List.foldl_cons, List.foldl_nil]

theorem enable_effects (w : World) :
    newEffects w (enable w) =
      (if w.m_enableCount = 0 then [Effect.SetDebugEventHandler true] else []) := by
  unfold enable
  simp only
  by_cases h : w.m_enableCount = 0
  · simp [h, newEffects, emit]
  · simp [h, newEffects]

theorem disable_effects (w : World) (h1 : -2147483647 ≤ w.m_enableCount)
    (h2 : w.m_enableCount ≤ 2147483648) :
    newEffects w (disable w) =
      (if w.m_enableCount = 1 then [Effect.ClearBreakpoints, Effect.SetDebugEventHandler false]
        else []) := by
  have hw : String16.toInt32 (w.m_enableCount - 1) = w.m_enableCount - 1 :=
    toInt32_of_range _ (by omega) (by omega)
  unfold disable
  simp only [hw]
  by_cases h : w.m_enableCount = 1
  · simp [h, newEffects, emit]
  · have h0 : w.m_enableCount - 1 ≠ 0 := by omega
    simp [h, h0, newEffects]

theorem enable_trace (w : World) :
    (enable w).trace =
      w.trace ++ (if w.m_enableCount = 0 then [Effect.SetDebugEventHandler true] else []) := by
  unfold enable
  simp only
  by_cases h : w.m_enableCount = 0
  · simp [h, emit]
  · simp [h]

theorem disable_trace (w : World) (h1 : -2147483647 ≤ w.m_enableCount)
    (h2 : w.m_enableCount ≤ 2147483648) :
    (disable w).trace =
      w.trace ++ (if w.m_enableCount = 1
        then [Effect.ClearBreakpoints, Effect.SetDebugEventHandler false] else []) := by
  have hw : String16.toInt32 (w.m_enableCount - 1) = w.m_enableCount - 1 :=
    toInt32_of_range _ (by omega) (by omega)
  unfold disable
  simp only [hw]
  by_cases h : w.m_enableCount = 1
  · simp [h, emit]
  · have h0 : w.m_enableCount - 1 ≠ 0 := by omega
    simp [h, h0]

theorem count_disable_cons_enable (l : List Input) :
    List.count Input.disable (Input.enable :: l) = List.count Input.disable l := by
  simp [List.count_cons]

theorem count_enable_cons_disable (l : List Input) :
    List.count Input.enable (Input.disable :: l) = List.count Input.enable l := by
  simp [List.count_cons]

theorem count_enable_cons_enable (l : List Input) :
    List.count Input.enable (Input.enable :: l) = List.count Input.enable l + 1 := by
  simp [List.count_cons]

theorem count_disable_cons_disable (l : List Input) :
    List.count Input.disable (Input.disable :: l) = List.count Input.disable l + 1 := by
  simp [List.count_cons]

theorem run_enable_disable (b : Build) (calls : List Input) :
    ∀ (w : World), (∀ i ∈ calls, i = Input.enable ∨ i = Input.disable) →
      (∀ pre, pre <+: calls →
        (pre.count Input.disable : Int) ≤ w.m_enableCount + pre.count Input.enable) →
      0 ≤ w.m_enableCount → w.m_enableCount + calls.count Input.enable < 2147483648 →
      handlerInstalled w.trace = enabled w →
      ∃ w1, run b w calls = .ok w1 ∧
        w1.m_enableCount =
          w.m_enableCount + calls.count Input.enable - calls.count Input.disable ∧
        handlerInstalled w1.trace = enabled w1 := by
  induction calls with
  | nil =>
    intro w _ _ _ _ hh
    exact ⟨w, rfl, by simp, hh⟩
  | cons i rest ih =>
    intro w hcalls hbal h0 hlen hh
    have hrest : ∀ j ∈ rest, j = Input.enable ∨ j = Input.disable :=
      fun j hj => hcalls j (List.mem_cons_of_mem _ hj)
    rcases hcalls i (List.mem_cons_self _ _) with rfl | rfl
    · -- enable
      simp only [count_enable_cons_enable, Nat.cast_add, Nat.cast_one] at hlen
      have hc : (enable w).m_enableCount = w.m_enableCount + 1 := by
        have hw : String16.toInt32 (w.m_enableCount + 1) = w.m_enableCount + 1 :=
          toInt32_of_range _ (by omega) (by omega)
        unfold enable
        simp only [hw]
        split <;> simp [emit]
      have hh2 : handlerInstalled (enable w).trace = enabled (enable w) := by
        have he : enabled (enable w) = true := by
          simp only [enabled, hc, decide_eq_true_eq]
          omega
        rw [he, enable_trace]
        by_cases hz : w.m_enableCount = 0
        · rw [if_pos hz, handlerInstalled_append]
        · have hpos : enabled w = true := by
            simp only [enabled, decide_eq_true_eq]
            omega
          rw [if_neg hz, List.append_nil, hh, hpos]
      have hbal2 : ∀ pre, pre <+: rest →
          (pre.count Input.disable : Int) ≤
            (enable w).m_enableCount + pre.count Input.enable := by
        intro pre hpre
        have := hbal (Input.enable :: pre) ((List.prefix_cons_inj _).2 hpre)
        simp only [count_enable_cons_enable, count_disable_cons_enable,
          Nat.cast_add, Nat.cast_one] at this
        rw [hc]
        omega
      obtain ⟨w1, r1, r2, r3⟩ := ih (enable w) hrest hbal2 (by omega) (by omega) hh2
      refine ⟨w1, ?_, ?_, r3⟩
      · simp only [run, step, pure, Except.pure]
        exact r1
      · rw [r2, hc]
        simp only [count_enable_cons_enable, count_disable_cons_enable,
          Nat.cast_add, Nat.cast_one]
        omega
    · -- disable
      simp only [count_enable_cons_disable] at hlen
      have hone : 1 ≤ w.m_enableCount := by
        have := hbal [Input.disable] (by simp)
        simpa using this
      have hw : String16.toInt32 (w.m_enableCount - 1) = w.m_enableCount - 1 :=
        toInt32_of_range _ (by omega) (by omega)
      have hc : (disable w).m_enableCount = w.m_enableCount - 1 := by
        unfold disable
        simp only [hw]
        split <;> simp [emit]
      have hh2 : handlerInstalled (disable w).trace = enabled (disable w) := by
        rw [disable_trace w (by omega) (by omega)]
        by_cases hz : w.m_enableCount = 1
        · have he : enabled (disable w) = false := by
            simp only [enabled, hc, hz]
            decide
          rw [he, if_pos hz]
          simp [handlerInstalled]
        · have he : enabled (disable w) = true := by
            simp only [enabled, hc, decide_eq_true_eq]
            omega
          have hpos : enabled w = true := by
            simp only [enabled, decide_eq_true_eq]
            omega
          rw [he, if_neg hz, List.append_nil, hh, hpos]
      have hbal2 : ∀ pre, pre <+: rest →
          (pre.count Input.disable : Int) ≤
            (disable w).m_enableCount + pre.count Input.enable := by
        intro pre hpre
        have := hbal (Input.disable :: pre) ((List.prefix_cons_inj _).2 hpre)
        simp only [count_disable_cons_disable, count_enable_cons_disable,
          Nat.cast_add, Nat.cast_one] at this
        rw [hc]
        omega
      obtain ⟨w1, r1, r2, r3⟩ := ih (disable w) hrest hbal2 (by omega) (by omega) hh2
      refine ⟨w1, ?_, ?_, r3⟩
      · simp only [run, step, pure, Except.pure]
        exact r1
      · rw [r2, hc]
        simp only [count_disable_cons_disable, count_enable_cons_disable,
          Nat.cast_add, Nat.cast_one]
        omega

/-- C24. For every sequence of `enable()` and `disable()` calls on a fresh
debugger of which no initial part has more disables than enables (fewer than
2^31 enables, the counter being a 32-bit int): the calls all return; the counter is
the number of enables less the number of disables, so `enabled()` is true
exactly when enables outnumber disables; the native debug-event callback is
installed exactly when `enabled()` is true; and of the calls that may follow,
`enable()` installs the callback exactly when the counter is 0 and calls
nothing otherwise, and `disable()` clears the breakpoints and uninstalls the
callback exactly when the counter is 1 and calls nothing otherwise. -/
theorem C24_enable_reference_counted (b : Build) (agents : List Int) (inContext : Bool)
    (calls : List Input)
    (hcalls : ∀ i ∈ calls, i = Input.enable ∨ i = Input.disable)
    (hbal : ∀ pre, pre <+: calls → pre.count Input.disable ≤ pre.count Input.enable)
    (hlen : calls.count Input.enable < 2147483648) :
    ∃ w, run b (World.fresh agents inContext) calls = .ok w ∧
      w.m_enableCount = (calls.count Input.enable : Int) - calls.count Input.disable ∧
      (enabled w = true ↔ calls.count Input.disable < calls.count Input.enable) ∧
      handlerInstalled w.trace = enabled w ∧
      newEffects w (enable w) =
        (if calls.count Input.enable = calls.count Input.disable
          then [Effect.SetDebugEventHandler true] else []) ∧
      newEffects w (disable w) =
        (if calls.count Input.enable = calls.count Input.disable + 1
          then [Effect.ClearBreakpoints, Effect.SetDebugEventHandler false] else []) := by
  have h0 : (World.fresh agents inContext).m_enableCount = 0 := rfl
  have ht : (World.fresh agents inContext).trace = [] := rfl
  obtain ⟨w, r1, r2, r3⟩ := run_enable_disable b calls (World.fresh agents inContext) hcalls
    (by
      intro pre hpre
      have := hbal pre hpre
      rw [h0]
      omega)
    (by rw [h0])
    (by rw [h0]; omega)
    (by simp [ht, handlerInstalled, enabled, h0])
  rw [h0] at r2
  have hle : calls.count Input.disable ≤ calls.count Input.enable :=
    hbal calls (List.prefix_refl _)
  refine ⟨w, r1, by omega, ?_, r3, ?_, ?_⟩
  · simp only [enabled, decide_eq_true_eq]
    omega
  · rw [enable_effects]
    by_cases h : calls.count Input.enable = calls.count Input.disable
    · rw [if_pos h, if_pos (by omega)]
    · rw [if_neg h, if_neg (by omega)]
  · rw [disable_effects w (by omega) (by omega)]
    by_cases h : calls.count Input.enable = calls.count Input.disable + 1
    · rw [if_pos h, if_pos (by omega)]
    · rw [if_neg h, if_neg (by omega)]

/-- C24 at a concrete input: after `enable`, `enable`, `disable` the debugger is
enabled with the callback installed; one more `disable` clears the
breakpoints and uninstalls the callback, one more `enable` calls nothing. -/
theorem C24_enable_reference_counted_witness :
    (∀ i ∈ exampleEnableCalls, i = Input.enable ∨ i = Input.disable) ∧
    (∀ pre ∈ exampleEnableCalls.inits, pre.count Input.disable ≤ pre.count Input.enable) ∧
    ∃ w, run debugBuild (World.fresh [] true) exampleEnableCalls = .ok w ∧
      w.m_enableCount = 1 ∧
      enabled w = true ∧
      handlerInstalled w.trace = true ∧
      newEffects w (enable w) = [] ∧
      newEffects w (disable w) = [Effect.ClearBreakpoints, Effect.SetDebugEventHandler false] := by
  obtain ⟨w, r1, r2, r3, r4, r5, r6⟩ :=
    C24_enable_reference_counted debugBuild [] true exampleEnableCalls (by decide)
      (fun pre hpre =>
        (by decide : ∀ pre ∈ exampleEnableCalls.inits,
          pre.count Input.disable ≤ pre.count Input.enable) pre ((List.mem_inits _ _).2 hpre))
      (by decide)
  have he : enabled w = true := r3.2 (by decide)
  exact ⟨by decide, by decide, w, r1, r2.trans (by decide), he, r4.trans he,
    r5.trans (by decide), r6.trans (by decide)⟩

end V8Inspector
